import Mathlib

/-!
# Buffer pool manager of `src/Lab1(2024.6.21)` and B+tree node handle of `src/Lab2`

A shallow embedding of `buffer_pool_manager.cpp` and of the part of
`disk_manager.cpp` it calls, followed by the node operations of
`ix_node_handle.cpp`, the scan of `rm_scan.cpp`, `FetchPage` and `NewPage` of the
`buffer_pool_manager.cpp` of `src/Lab1`, and the record operations of
`rm_file_handle.cpp`.

* A `Page*` is the index of the frame in `pages_`; a null pointer is `none`.
* `page_table_` (an `unordered_map`) is a partial function on page identities,
  `pages_` a function on frame indices.
* The disk is a map from page identity to the bytes of that page; the page
  number allocator `fd2pageno_` is a function on file descriptors.  Disk
  reads and writes succeed (the `UnixError` paths of `disk_manager.cpp` are
  not part of this model).  The disk manager also records the `read_page` and
  `write_page` calls it has served, so that "no disk read or write" can be
  stated.
* `int` fields (`pin_count_`, page numbers) are unbounded integers.
* The Replacer is a parameter: any state type with `Victim`, `Pin`, `Unpin`.
-/

namespace Rucbase

/-- Constants of the headers that the sources use but do not define. -/
structure Config where
  PAGE_SIZE : Nat
  INVALID_PAGE_ID : Int

/-- Page identity `(fd, page_no)`. -/
structure PageId where
  fd : Int
  page_no : Int
  deriving DecidableEq, Repr

/-- One frame of the pool: identity, buffer, dirty flag, pin count. -/
structure Page where
  id_ : PageId
  data_ : List Nat
  is_dirty_ : Bool
  pin_count_ : Int
  deriving DecidableEq, Repr

/-- Modelled from the spec: `Page::ResetMemory` (declared in a header that is
not among the sources) resets the frame's buffer to `PAGE_SIZE` zero bytes. -/
def Page.ResetMemory (c : Config) (p : Page) : Page :=
  { p with data_ := List.replicate c.PAGE_SIZE 0 }

/-- A page transfer served by the disk manager. -/
inductive DiskCall where
  | read (fd page_no : Int)
  | write (fd page_no : Int)
  deriving DecidableEq, Repr

/-- State of the disk manager seen by the buffer pool: page contents, the per-file page
number counter `fd2pageno_`, and the page transfers served so far, latest first (a record
of the calls, not a field of the C++ class). -/
structure DiskManager where
  pages : PageId → List Nat
  fd2pageno_ : Int → Int
  calls : List DiskCall

/-- Embedding of `DiskManager::write_page(fd, page_no, offset, PAGE_SIZE)`. -/
def DiskManager.write_page (d : DiskManager) (fd page_no : Int) (buf : List Nat) : DiskManager :=
  { d with
    pages := fun k => if k = ⟨fd, page_no⟩ then buf else d.pages k
    calls := DiskCall.write fd page_no :: d.calls }

/-- Embedding of `DiskManager::read_page(fd, page_no, offset, PAGE_SIZE)`: the bytes
that end up in the buffer, and the disk manager after the call. -/
def DiskManager.read_page (d : DiskManager) (fd page_no : Int) : List Nat × DiskManager :=
  (d.pages ⟨fd, page_no⟩, { d with calls := DiskCall.read fd page_no :: d.calls })

/-- Embedding of `DiskManager::AllocatePage`: returns the counter of `fd` and advances it. -/
def DiskManager.AllocatePage (d : DiskManager) (fd : Int) : Int × DiskManager :=
  let pidt := d.fd2pageno_ fd
  (pidt, { d with fd2pageno_ := fun k => if k = fd then d.fd2pageno_ fd + 1 else d.fd2pageno_ k })

/-- Embedding of `DiskManager::DeallocatePage`: does nothing. -/
def DiskManager.DeallocatePage (d : DiskManager) (_page_id : Int) : DiskManager := d

/-- The page transfers `d1` has served beyond those of the earlier state `d0`, latest
first. -/
def DiskManager.callsSince (d0 d1 : DiskManager) : List DiskCall :=
  d1.calls.take (d1.calls.length - d0.calls.length)

/-- State `d1` is reached from `d0` by page transfers: the record of calls has grown at the
front, and a page is changed only if a write to it is among the new calls. -/
def DiskManager.after (d0 d1 : DiskManager) : Prop :=
  ∃ delta, d1.calls = delta ++ d0.calls ∧
    ∀ k : PageId, DiskCall.write k.fd k.page_no ∉ delta → d1.pages k = d0.pages k

/-- The Replacer capability consumed by the pool (its class is not among the sources):
`Victim` returns the chosen frame, if any, and the new replacer state. -/
structure Replacer (ρ : Type) where
  Victim : ρ → Option Nat × ρ
  Pin : ρ → Nat → ρ
  Unpin : ρ → Nat → ρ

/-- Contract of a Replacer with respect to a candidate set `cand`: `Victim` only returns
candidates and adds none, `Unpin f` adds at most `f`, `Pin f` removes `f` and adds none.
So a candidate is a frame that was unpinned and not pinned since. -/
structure ReplacerContract {ρ : Type} (R : Replacer ρ) (cand : ρ → Nat → Prop) : Prop where
  victim_cand : ∀ r f, (R.Victim r).1 = some f → cand r f
  victim_mono : ∀ r g, cand (R.Victim r).2 g → cand r g
  pin_cand : ∀ r f g, cand (R.Pin r f) g → cand r g ∧ g ≠ f
  unpin_cand : ∀ r f g, cand (R.Unpin r f) g → cand r g ∨ g = f

/-- Modelled from the spec: a least-recently-used Replacer (the LRU policy the spec names;
its class is not among the sources).  The state lists the evictable frames, most recently
unpinned first; the victim is the last one. -/
def LRUReplacer : Replacer (List Nat) where
  Victim := fun l =>
    match l.getLast? with
    | none => (none, l)
    | some f => (some f, l.dropLast)
  Pin := fun l f => l.filter (fun g => g ≠ f)
  Unpin := fun l f => if f ∈ l then l else f :: l

/-- State of `BufferPoolManager`. -/
structure BufferPoolManager (ρ : Type) where
  pool_size_ : Nat
  pages_ : Nat → Page
  page_table_ : PageId → Option Nat
  free_list_ : List Nat
  replacer_ : ρ
  disk_manager_ : DiskManager

variable {ρ : Type}

/-- Modelled from the spec: the pool after construction (the constructor is in a header
that is not among the sources): every frame is in the free list, unpinned and clean, with
no page number, and the page table is empty.  `fd0` is the indeterminate `fd` of a fresh
`PageId`. -/
def BufferPoolManager.init (c : Config) (pool_size : Nat) (fd0 : Nat → Int) (r0 : ρ)
    (d : DiskManager) : BufferPoolManager ρ :=
  { pool_size_ := pool_size
    pages_ := fun i => ⟨⟨fd0 i, c.INVALID_PAGE_ID⟩, List.replicate c.PAGE_SIZE 0, false, 0⟩
    page_table_ := fun _ => none
    free_list_ := List.range pool_size
    replacer_ := r0
    disk_manager_ := d }

/-- Embedding of `BufferPoolManager::FindVictimPage`: the frame found (`none` for `false`)
and the state after the call. -/
def FindVictimPage (R : Replacer ρ) (s : BufferPoolManager ρ) :
    Option Nat × BufferPoolManager ρ :=
  match s.free_list_ with
  | [] => ((R.Victim s.replacer_).1, { s with replacer_ := (R.Victim s.replacer_).2 })
  | f :: rest => (some f, { s with free_list_ := rest })

/-- Embedding of `BufferPoolManager::UpdatePage(&pages_[page], new_page_id, new_frame_id)`. -/
def UpdatePage (c : Config) (s : BufferPoolManager ρ) (page : Nat) (new_page_id : PageId)
    (new_frame_id : Nat) : BufferPoolManager ρ :=
  let p0 := s.pages_ page
  let disk1 :=
    if p0.is_dirty_ then s.disk_manager_.write_page p0.id_.fd p0.id_.page_no p0.data_
    else s.disk_manager_
  let p1 : Page := if p0.is_dirty_ then { p0 with is_dirty_ := false } else p0
  let p2 := p1.ResetMemory c
  let pt1 : PageId → Option Nat := fun k => if k = p2.id_ then none else s.page_table_ k
  let pt2 : PageId → Option Nat := fun k => if k = new_page_id then some new_frame_id else pt1 k
  let p3 : Page := { p2 with id_ := new_page_id }
  let p4 : Page :=
    if p3.id_.page_no ≠ c.INVALID_PAGE_ID then
      { p3 with data_ := (disk1.read_page p3.id_.fd p3.id_.page_no).1 }
    else p3
  let disk2 :=
    if p3.id_.page_no ≠ c.INVALID_PAGE_ID then (disk1.read_page p3.id_.fd p3.id_.page_no).2
    else disk1
  { s with pages_ := Function.update s.pages_ page p4, page_table_ := pt2, disk_manager_ := disk2 }

/-- Embedding of `BufferPoolManager::FetchPage`: the frame of the returned page
(`none` for `nullptr`) and the state after the call. -/
def FetchPage (c : Config) (R : Replacer ρ) (s : BufferPoolManager ρ) (page_id : PageId) :
    Option Nat × BufferPoolManager ρ :=
  match s.page_table_ page_id with
  | some id =>
    let s1 := { s with replacer_ := R.Pin s.replacer_ id }
    let page : Page := { s1.pages_ id with pin_count_ := (s1.pages_ id).pin_count_ + 1 }
    (some id, { s1 with pages_ := Function.update s1.pages_ id page })
  | none =>
    match FindVictimPage R s with
    | (none, s1) => (none, s1)
    | (some id, s1) =>
      let s2 := UpdatePage c s1 id page_id id
      let s3 := { s2 with replacer_ := R.Pin s2.replacer_ id }
      let page : Page := { s3.pages_ id with pin_count_ := 1 }
      (some id, { s3 with pages_ := Function.update s3.pages_ id page })

/-- Embedding of `BufferPoolManager::UnpinPage`. -/
def UnpinPage (R : Replacer ρ) (s : BufferPoolManager ρ) (page_id : PageId) (is_dirty : Bool) :
    Bool × BufferPoolManager ρ :=
  match s.page_table_ page_id with
  | none => (false, s)
  | some id =>
    if (s.pages_ id).pin_count_ ≤ 0 then (false, s)
    else
      let pin := (s.pages_ id).pin_count_ - 1
      let r1 := if pin = 0 then R.Unpin s.replacer_ id else s.replacer_
      let dirty := if is_dirty then is_dirty else (s.pages_ id).is_dirty_
      let page : Page := { s.pages_ id with pin_count_ := pin, is_dirty_ := dirty }
      (true, { s with pages_ := Function.update s.pages_ id page, replacer_ := r1 })

/-- Embedding of `BufferPoolManager::FlushPage`. -/
def FlushPage (s : BufferPoolManager ρ) (page_id : PageId) : Bool × BufferPoolManager ρ :=
  match s.page_table_ page_id with
  | none => (false, s)
  | some id =>
    let page := s.pages_ id
    let disk1 := s.disk_manager_.write_page page.id_.fd page.id_.page_no page.data_
    let page1 : Page := { page with is_dirty_ := false }
    (true, { s with disk_manager_ := disk1, pages_ := Function.update s.pages_ id page1 })

/-- Embedding of `BufferPoolManager::NewPage(PageId *page_id)`: the frame of the returned
page (`none` for `nullptr`), the value of `*page_id` after the call, and the new state. -/
def NewPage (c : Config) (R : Replacer ρ) (s : BufferPoolManager ρ) (page_id : PageId) :
    Option Nat × PageId × BufferPoolManager ρ :=
  match FindVictimPage R s with
  | (some id, s1) =>
    let a := s1.disk_manager_.AllocatePage page_id.fd
    let page_id1 : PageId := { page_id with page_no := a.1 }
    let s2 := UpdatePage c { s1 with disk_manager_ := a.2 } id page_id1 id
    let s3 := { s2 with replacer_ := R.Pin s2.replacer_ id }
    let page : Page := { s3.pages_ id with pin_count_ := 1 }
    (some id, page_id1, { s3 with pages_ := Function.update s3.pages_ id page })
  | (none, s1) => (none, page_id, s1)

/-- Embedding of `BufferPoolManager::DeletePage`. -/
def DeletePage (c : Config) (s : BufferPoolManager ρ) (page_id : PageId) :
    Bool × BufferPoolManager ρ :=
  match s.page_table_ page_id with
  | none => (true, s)
  | some id =>
    if (s.pages_ id).pin_count_ ≠ 0 then (false, s)
    else
      let s1 := { s with
        disk_manager_ := s.disk_manager_.DeallocatePage (s.pages_ id).id_.page_no }
      let page_id1 : PageId := { page_id with page_no := c.INVALID_PAGE_ID }
      let s2 := UpdatePage c s1 id page_id1 id
      (true, { s2 with free_list_ := s2.free_list_ ++ [id] })

/-- Embedding of `BufferPoolManager::FlushAllPages`: the loop over the frames
`0 .. pool_size_ - 1`. -/
def FlushAllPages (c : Config) (s : BufferPoolManager ρ) (fd : Int) : BufferPoolManager ρ :=
  (List.range s.pool_size_).foldl
    (fun st i =>
      let page := st.pages_ i
      if page.id_.fd = fd ∧ page.id_.page_no ≠ c.INVALID_PAGE_ID then
        let disk1 := st.disk_manager_.write_page page.id_.fd page.id_.page_no page.data_
        let page1 : Page := { page with is_dirty_ := false }
        { st with disk_manager_ := disk1, pages_ := Function.update st.pages_ i page1 }
      else st)
    s

/-- One call of the public interface of the pool. -/
inductive PoolOp where
  | FetchPage (page_id : PageId)
  | NewPage (page_id : PageId)
  | UnpinPage (page_id : PageId) (is_dirty : Bool)
  | FlushPage (page_id : PageId)
  | DeletePage (page_id : PageId)
  | FlushAllPages (fd : Int)
  deriving DecidableEq, Repr

/-- The calls that pin and unpin pages: `FetchPage`, `NewPage`, `UnpinPage`. -/
def PoolOp.pins : PoolOp → Bool
  | .FetchPage _ => true
  | .NewPage _ => true
  | .UnpinPage _ _ => true
  | _ => false

/-- State of the pool after one call. -/
def step (c : Config) (R : Replacer ρ) (s : BufferPoolManager ρ) : PoolOp → BufferPoolManager ρ
  | .FetchPage page_id => (FetchPage c R s page_id).2
  | .NewPage page_id => (NewPage c R s page_id).2.2
  | .UnpinPage page_id is_dirty => (UnpinPage R s page_id is_dirty).2
  | .FlushPage page_id => (FlushPage s page_id).2
  | .DeletePage page_id => (DeletePage c s page_id).2
  | .FlushAllPages fd => FlushAllPages c s fd

/-- State of the pool after a sequence of calls, first call first. -/
def run (c : Config) (R : Replacer ρ) (s : BufferPoolManager ρ) : List PoolOp → BufferPoolManager ρ
  | [] => s
  | op :: ops => run c R (step c R s op) ops


/-- Pin invariant of the pool with respect to the Replacer's candidate set: the free list
has no duplicates, and a frame that is in the free list or a candidate of the Replacer is
not pinned; page-table targets and candidates are not in the free list. -/
structure PinInv (cand : ρ → Nat → Prop) (s : BufferPoolManager ρ) : Prop where
  free_nodup : s.free_list_.Nodup
  free_unpinned : ∀ f, f ∈ s.free_list_ → (s.pages_ f).pin_count_ ≤ 0
  table_not_free : ∀ k f, s.page_table_ k = some f → f ∉ s.free_list_
  cand_not_free : ∀ f, cand s.replacer_ f → f ∉ s.free_list_
  cand_unpinned : ∀ f, cand s.replacer_ f → (s.pages_ f).pin_count_ ≤ 0

/-! ### Disk transfers that may fail

`write_page` and `read_page` throw `UnixError` when a system call fails, and the buffer pool
has no handler: the exception leaves `FetchPage` or `NewPage` with the pool as it is at
that moment.  `faults` says which transfers fail; a failed transfer leaves the disk as it
was. -/

/-- Embedding of `DiskManager::write_page` with its `throw`: `none` when the call throws. -/
def DiskManager.write_page_throwing (faults : DiskCall → Bool) (d : DiskManager)
    (fd page_no : Int) (buf : List Nat) : Option DiskManager :=
  if faults (DiskCall.write fd page_no) then none else some (d.write_page fd page_no buf)

/-- Embedding of `DiskManager::read_page` with its `throw`: `none` when the call throws. -/
def DiskManager.read_page_throwing (faults : DiskCall → Bool) (d : DiskManager)
    (fd page_no : Int) : Option (List Nat × DiskManager) :=
  if faults (DiskCall.read fd page_no) then none else some (d.read_page fd page_no)

/-- Embedding of `BufferPoolManager::UpdatePage` over a disk that may fail: `false` when an
exception leaves the function, with the state at that moment. -/
def UpdatePage_throwing (c : Config) (faults : DiskCall → Bool) (s : BufferPoolManager ρ)
    (page : Nat) (new_page_id : PageId) (new_frame_id : Nat) : Bool × BufferPoolManager ρ :=
  let p0 := s.pages_ page
  let written : Option DiskManager :=
    if p0.is_dirty_ then
      s.disk_manager_.write_page_throwing faults p0.id_.fd p0.id_.page_no p0.data_
    else some s.disk_manager_
  match written with
  | none => (false, s)
  | some disk1 =>
    let p1 : Page := if p0.is_dirty_ then { p0 with is_dirty_ := false } else p0
    let p2 := p1.ResetMemory c
    let pt1 : PageId → Option Nat := fun k => if k = p2.id_ then none else s.page_table_ k
    let pt2 : PageId → Option Nat :=
      fun k => if k = new_page_id then some new_frame_id else pt1 k
    let p3 : Page := { p2 with id_ := new_page_id }
    if p3.id_.page_no ≠ c.INVALID_PAGE_ID then
      match disk1.read_page_throwing faults p3.id_.fd p3.id_.page_no with
      | none =>
        (false, { s with
          pages_ := Function.update s.pages_ page p3, page_table_ := pt2, disk_manager_ := disk1 })
      | some r =>
        let p4 : Page := { p3 with data_ := r.1 }
        (true, { s with
          pages_ := Function.update s.pages_ page p4, page_table_ := pt2, disk_manager_ := r.2 })
    else
      (true, { s with
        pages_ := Function.update s.pages_ page p3, page_table_ := pt2, disk_manager_ := disk1 })

/-- Embedding of `BufferPoolManager::FetchPage` over a disk that may fail: the first
component is `none` when an exception leaves the call, `some r` when it returns `r`. -/
def FetchPage_throwing (c : Config) (R : Replacer ρ) (faults : DiskCall → Bool)
    (s : BufferPoolManager ρ) (page_id : PageId) : Option (Option Nat) × BufferPoolManager ρ :=
  match s.page_table_ page_id with
  | some id =>
    let s1 := { s with replacer_ := R.Pin s.replacer_ id }
    let page : Page := { s1.pages_ id with pin_count_ := (s1.pages_ id).pin_count_ + 1 }
    (some (some id), { s1 with pages_ := Function.update s1.pages_ id page })
  | none =>
    match FindVictimPage R s with
    | (none, s1) => (some none, s1)
    | (some id, s1) =>
      match UpdatePage_throwing c faults s1 id page_id id with
      | (false, s2) => (none, s2)
      | (true, s2) =>
        let s3 := { s2 with replacer_ := R.Pin s2.replacer_ id }
        let page : Page := { s3.pages_ id with pin_count_ := 1 }
        (some (some id), { s3 with pages_ := Function.update s3.pages_ id page })

/-- Embedding of `BufferPoolManager::NewPage` over a disk that may fail: the first component
is `none` when an exception leaves the call. -/
def NewPage_throwing (c : Config) (R : Replacer ρ) (faults : DiskCall → Bool)
    (s : BufferPoolManager ρ) (page_id : PageId) :
    Option (Option Nat) × PageId × BufferPoolManager ρ :=
  match FindVictimPage R s with
  | (some id, s1) =>
    let a := s1.disk_manager_.AllocatePage page_id.fd
    let page_id1 : PageId := { page_id with page_no := a.1 }
    match UpdatePage_throwing c faults { s1 with disk_manager_ := a.2 } id page_id1 id with
    | (false, s2) => (none, page_id1, s2)
    | (true, s2) =>
      let s3 := { s2 with replacer_ := R.Pin s2.replacer_ id }
      let page : Page := { s3.pages_ id with pin_count_ := 1 }
      (some (some id), page_id1, { s3 with pages_ := Function.update s3.pages_ id page })
  | (none, s1) => (some none, page_id, s1)

/-- The body of the loop of `FlushAllPages` for frame `i`. -/
def FlushAllPages_step (c : Config) (fd : Int) (st : BufferPoolManager ρ) (i : Nat) :
    BufferPoolManager ρ :=
  let page := st.pages_ i
  if page.id_.fd = fd ∧ page.id_.page_no ≠ c.INVALID_PAGE_ID then
    let disk1 := st.disk_manager_.write_page page.id_.fd page.id_.page_no page.data_
    let page1 : Page := { page with is_dirty_ := false }
    { st with disk_manager_ := disk1, pages_ := Function.update st.pages_ i page1 }
  else st

/-- Page-table invariant of the data model: every page-table entry leads to a frame that
stores the identity of the entry, and no pin count is negative. -/
structure TableInv (s : BufferPoolManager ρ) : Prop where
  entry_id : ∀ k f, s.page_table_ k = some f → (s.pages_ f).id_ = k
  pin_nonneg : ∀ f, 0 ≤ (s.pages_ f).pin_count_

/-! ## B+tree node handle of `src/Lab2(2024.6.21)` and `src/Lab2`

A node is a view of one page: `num_key` of the page header, the key slots and the rid slots.
Slots are indexed by `int` as in the source (`get_key (i)`, `get_rid (i)`); what a slot at
index `>= num_key` holds is whatever the page holds there.  What lies below slot 0 of the
arrays (the page header) is not part of this view: `erase_pair` is embedded for positions
`>= 0`, and the statements about `insert_pairs` are for `n >= 0`, so that no write goes
below slot 0. -/

/-- Record identifier `Rid`: for a leaf a record position, for an internal node the page
number of a child. -/
structure Rid where
  page_no : Int
  slot_no : Int
  deriving DecidableEq, Repr

/-- Modelled from the spec: the tree's typed comparator `ix_compare` (defined in a header
that is not among the sources): negative, zero or positive as the first key is below, equal
to or above the second in the order of the key type. -/
def ix_compare {K : Type} [LinearOrder K] (a b : K) : Int :=
  if a < b then -1 else if b < a then 1 else 0

/-- The part of `IxNodeHandle` the node operations use: `page_hdr->num_key`, the key slots
and the rid slots. -/
structure IxNodeHandle (K : Type) where
  num_key : Int
  keys : Int → K
  rids : Int → Rid

/-- `IxNodeHandle::GetSize` (in the header): the number of keys. -/
def IxNodeHandle.GetSize {K : Type} (node : IxNodeHandle K) : Int := node.num_key

/-- The loop `while (index < numKey)` of `IxNodeHandle::lower_bound`.  The interval
`[index, numKey)` shrinks at every iteration, so `numKey - index` iterations are enough;
`fuel` counts the iterations left.  `index + numKey` is never negative, so `/ 2` is the
division of C. -/
def lower_bound_loop {K : Type} [LinearOrder K] (keys : Int → K) (target : K) :
    Nat → Int → Int → Int
  | 0, index, _ => index
  | fuel + 1, index, numKey =>
    if index < numKey then
      let mid := (index + numKey) / 2
      if ix_compare (keys mid) target ≥ 0 then lower_bound_loop keys target fuel index mid
      else lower_bound_loop keys target fuel (mid + 1) numKey
    else index

/-- Embedding of `IxNodeHandle::lower_bound` (both variants of Lab2 are the same). -/
def IxNodeHandle.lower_bound {K : Type} [LinearOrder K] (node : IxNodeHandle K) (target : K) :
    Int :=
  lower_bound_loop node.keys target node.num_key.toNat 0 node.num_key

/-- The loop `while (index < numKey)` of `IxNodeHandle::upper_bound` of
`src/Lab2(2024.6.21)`, which tests `ix_compare (get_key (mid), target) >= 0` like the loop of
`lower_bound`. -/
def upper_bound_loop {K : Type} [LinearOrder K] (keys : Int → K) (target : K) :
    Nat → Int → Int → Int
  | 0, index, _ => index
  | fuel + 1, index, numKey =>
    if index < numKey then
      let mid := (index + numKey) / 2
      if ix_compare (keys mid) target ≥ 0 then upper_bound_loop keys target fuel index mid
      else upper_bound_loop keys target fuel (mid + 1) numKey
    else index

/-- Embedding of `IxNodeHandle::upper_bound` of `src/Lab2(2024.6.21)`: the search starts at
index 1, and the index found is advanced by one when the key slot there equals `target`. -/
def IxNodeHandle.upper_bound {K : Type} [LinearOrder K] (node : IxNodeHandle K) (target : K) :
    Int :=
  let index := upper_bound_loop node.keys target node.num_key.toNat 1 node.num_key
  if ix_compare (node.keys index) target = 0 then index + 1 else index

/-- Embedding of `IxNodeHandle::LeafLookup` (both variants of Lab2 are the same): whether the
key was found, and the rid written to `*value`, if any. -/
def IxNodeHandle.LeafLookup {K : Type} [LinearOrder K] (node : IxNodeHandle K) (key : K) :
    Bool × Option Rid :=
  let keyIdx := node.lower_bound key
  if keyIdx = node.GetSize ∨ ix_compare key (node.keys keyIdx) ≠ 0 then (false, none)
  else (true, some (node.rids keyIdx))

/-- Modelled from the spec: `IxNodeHandle::ValueAt` (in the header, not among the sources):
the child page number stored in value slot `i`, which `InternalLookup` of
`src/Lab2(2024.6.21)` reads as `get_rid (i)->page_no`. -/
def IxNodeHandle.ValueAt {K : Type} (node : IxNodeHandle K) (i : Int) : Int :=
  (node.rids i).page_no

/-- Modelled from the spec: `IxNodeHandle::set_key` (in the header, not among the sources)
copies a key into key slot `key_idx`. -/
def IxNodeHandle.set_key {K : Type} (node : IxNodeHandle K) (key_idx : Int) (key : K) :
    IxNodeHandle K :=
  { node with keys := Function.update node.keys key_idx key }

/-- Modelled from the spec: `IxNodeHandle::set_rid` (in the header, not among the sources)
copies a rid into value slot `rid_idx`. -/
def IxNodeHandle.set_rid {K : Type} (node : IxNodeHandle K) (rid_idx : Int) (rid : Rid) :
    IxNodeHandle K :=
  { node with rids := Function.update node.rids rid_idx rid }

/-- Modelled from the spec: `IxNodeHandle::SetSize` (in the header, not among the sources)
sets the key count of the page header. -/
def IxNodeHandle.SetSize {K : Type} (node : IxNodeHandle K) (size : Int) : IxNodeHandle K :=
  { node with num_key := size }

/-- The loop `while (l < r)` of `IxNodeHandle::upper_bound` of `src/Lab2`, which tests
`ix_compare (get_key (mid), target) > 0`; `fuel` counts the iterations left, as in
`lower_bound_loop`. -/
def upper_bound_loop_Lab2 {K : Type} [LinearOrder K] (keys : Int → K) (target : K) :
    Nat → Int → Int → Int
  | 0, l, _ => l
  | fuel + 1, l, r =>
    if l < r then
      let mid := (l + r) / 2
      if ix_compare (keys mid) target > 0 then upper_bound_loop_Lab2 keys target fuel l mid
      else upper_bound_loop_Lab2 keys target fuel (mid + 1) r
    else l

/-- Embedding of `IxNodeHandle::upper_bound` of `src/Lab2`: the search starts at index 1. -/
def IxNodeHandle.upper_bound_Lab2 {K : Type} [LinearOrder K] (node : IxNodeHandle K)
    (target : K) : Int :=
  upper_bound_loop_Lab2 node.keys target node.num_key.toNat 1 node.num_key

/-- Embedding of `IxNodeHandle::InternalLookup` of `src/Lab2`. -/
def IxNodeHandle.InternalLookup_Lab2 {K : Type} [LinearOrder K] (node : IxNodeHandle K)
    (key : K) : Int :=
  let key_pos := node.upper_bound_Lab2 key - 1
  node.ValueAt key_pos

/-- First loop of `IxNodeHandle::insert_pairs`, `for (i = key_size - 1; i >= pos; i--)`:
the pair of slot `i` is copied to slot `i + n`.  `fuel` counts the iterations left;
`key_size - pos` are enough. -/
def insert_pairs_shift {K : Type} (n pos : Int) : Nat → Int → IxNodeHandle K → IxNodeHandle K
  | 0, _, node => node
  | fuel + 1, i, node =>
    if i ≥ pos then
      insert_pairs_shift n pos fuel (i - 1)
        ((node.set_key (i + n) (node.keys i)).set_rid (i + n) (node.rids i))
    else node

/-- Second loop of `IxNodeHandle::insert_pairs`, `for (j = 0; j < n; j++)`: the `j`-th new
pair is written to slot `pos + j`.  `fuel` counts the iterations left; `n` are enough. -/
def insert_pairs_write {K : Type} (pos : Int) (key : Int → K) (rid : Int → Rid) (n : Int) :
    Nat → Int → IxNodeHandle K → IxNodeHandle K
  | 0, _, node => node
  | fuel + 1, j, node =>
    if j < n then
      insert_pairs_write pos key rid n fuel (j + 1)
        ((node.set_key (pos + j) (key j)).set_rid (pos + j) (rid j))
    else node

/-- Embedding of `IxNodeHandle::insert_pairs` (both variants of Lab2 are the same): `key`
and `rid` are the arrays of the `n` new keys and rids. -/
def IxNodeHandle.insert_pairs {K : Type} (node : IxNodeHandle K) (pos : Int) (key : Int → K)
    (rid : Int → Rid) (n : Int) : IxNodeHandle K :=
  let key_size := node.GetSize
  if ¬ (pos ≥ 0 ∧ pos ≤ key_size) then node
  else
    let node1 := insert_pairs_shift n pos (key_size - pos).toNat (key_size - 1) node
    let node2 := insert_pairs_write pos key rid n n.toNat 0 node1
    node2.SetSize (key_size + n)

/-- Embedding of `IxNodeHandle::insert_pair`: `insert_pairs` with one pair. -/
def IxNodeHandle.insert_pair {K : Type} (node : IxNodeHandle K) (pos : Int) (key : K)
    (rid : Rid) : IxNodeHandle K :=
  node.insert_pairs pos (fun _ => key) (fun _ => rid) 1

/-- Embedding of `IxNodeHandle::Insert` (both variants of Lab2 are the same): the key count
returned and the node after the call. -/
def IxNodeHandle.Insert {K : Type} [LinearOrder K] (node : IxNodeHandle K) (key : K)
    (value : Rid) : Int × IxNodeHandle K :=
  let pos := node.lower_bound key
  let node1 :=
    if ix_compare key (node.keys pos) ≠ 0 then node.insert_pairs pos (fun _ => key)
      (fun _ => value) 1
    else node
  (node1.GetSize, node1)

/-- The loop `for (i = pos; i < GetSize (); i++)` of `IxNodeHandle::erase_pair`, which
`erase_pair` starts at a position `>= 0`: the pair of slot `i + 1` is copied to slot `i`.
`fuel` counts the iterations left; `GetSize () - pos` are enough. -/
def erase_pair_loop {K : Type} : Nat → Int → IxNodeHandle K → IxNodeHandle K
  | 0, _, node => node
  | fuel + 1, i, node =>
    if i < node.GetSize then
      erase_pair_loop fuel (i + 1)
        ((node.set_key i (node.keys (i + 1))).set_rid i (node.rids (i + 1)))
    else node

/-- Embedding of `IxNodeHandle::erase_pair` (both variants of Lab2 are the same) for a
position `pos >= 0`.  A negative position is not represented: there the loop writes below
slot 0 of the key and rid arrays, into the page header, which this view of the page does not
have. -/
def IxNodeHandle.erase_pair {K : Type} (node : IxNodeHandle K) (pos : Nat) : IxNodeHandle K :=
  let node1 := erase_pair_loop (node.GetSize - pos).toNat pos node
  node1.SetSize (node1.GetSize - 1)

/-- Embedding of `IxNodeHandle::Remove` (both variants of Lab2 are the same): the key count
returned and the node after the call.  The position handed to `erase_pair` is the result of
`lower_bound`, which starts at 0 and is never negative. -/
def IxNodeHandle.Remove {K : Type} [LinearOrder K] (node : IxNodeHandle K) (key : K) :
    Int × IxNodeHandle K :=
  let pos := node.lower_bound key
  let node1 := if ix_compare key (node.keys pos) = 0 then node.erase_pair pos.toNat else node
  (node1.GetSize, node1)

/-- The loop of `IxNodeHandle::find_child`: the first `rid_idx` below `num_key` whose value
slot stores `child_page_no`, or `num_key`.  `fuel` counts the iterations left; `num_key` are
enough. -/
def find_child_loop (rids : Int → Rid) (child_page_no num_key : Int) : Nat → Int → Int
  | 0, rid_idx => rid_idx
  | fuel + 1, rid_idx =>
    if rid_idx < num_key then
      if (rids rid_idx).page_no = child_page_no then rid_idx
      else find_child_loop rids child_page_no num_key fuel (rid_idx + 1)
    else rid_idx

/-- Embedding of `IxNodeHandle::find_child`, `child_page_no` being `child->GetPageNo ()`:
`none` when `assert (rid_idx < page_hdr->num_key)` fails. -/
def IxNodeHandle.find_child {K : Type} (node : IxNodeHandle K) (child_page_no : Int) :
    Option Int :=
  let rid_idx := find_child_loop node.rids child_page_no node.num_key node.num_key.toNat 0
  if rid_idx < node.num_key then some rid_idx else none

/-- The first `num_key` keys of a node. -/
def IxNodeHandle.key_list {K : Type} (node : IxNodeHandle K) : List K :=
  (List.range node.num_key.toNat).map (fun (i : Nat) => node.keys (i : Int))

/-- The first `num_key` rids of a node. -/
def IxNodeHandle.rid_list {K : Type} (node : IxNodeHandle K) : List Rid :=
  (List.range node.num_key.toNat).map (fun (i : Nat) => node.rids (i : Int))

/-! ## Record file scan of `src/Lab1(2024.6.21)` and `src/Lab1`

`RmScan` walks the record pages of a file through `file_handle_`.  The scan reads the file
header fields `num_pages` and `num_records_per_page` and, of each page it fetches, the
bitmap of occupied slots. -/

/-- Constants of the record manager's headers that the sources use but do not define. -/
structure RmConfig where
  RM_FIRST_RECORD_PAGE : Int
  RM_NO_PAGE : Int

/-- What `RmScan` reads of `*file_handle_`: `file_hdr_.num_pages`,
`file_hdr_.num_records_per_page`, and `bitmap page_no slot_no`, the bit of slot `slot_no` in
the bitmap of the page handle that `fetch_page_handle (page_no)` returns. -/
structure RmFileView where
  num_pages : Int
  num_records_per_page : Int
  bitmap : Int → Int → Bool

/-- Modelled from the spec: the loop of `Bitmap::next_bit` (in a header that is not among the
sources), `for (i = curr + 1; i < max_n; i++)`, which returns the first `i` whose bit equals
`bit` and `max_n` when there is none.  `fuel` counts the iterations left. -/
def Bitmap.next_bit_loop (bit : Bool) (bm : Int → Bool) (max_n : Int) : Nat → Int → Int
  | 0, _ => max_n
  | fuel + 1, i =>
    if i < max_n then
      if bm i = bit then i else Bitmap.next_bit_loop bit bm max_n fuel (i + 1)
    else max_n

/-- Modelled from the spec: `Bitmap::next_bit (bit, bm, max_n, curr)`. -/
def Bitmap.next_bit (bit : Bool) (bm : Int → Bool) (max_n curr : Int) : Int :=
  Bitmap.next_bit_loop bit bm max_n (max_n - (curr + 1)).toNat (curr + 1)

/-- The loop `while (rid_.page_no < num_pages)` of `RmScan::next` of `src/Lab1(2024.6.21)`:
the value of `rid_` when the loop is left.  `fuel` counts the iterations left; every
iteration that does not leave the loop advances the page, so `num_pages - rid_.page_no` are
enough. -/
def RmScan.next_loop (c : RmConfig) (file : RmFileView) : Nat → Rid → Rid
  | 0, rid_ => rid_
  | fuel + 1, rid_ =>
    if rid_.page_no < file.num_pages then
      let slot_no := Bitmap.next_bit true (file.bitmap rid_.page_no)
        file.num_records_per_page rid_.slot_no
      let rid1 : Rid := { rid_ with slot_no := slot_no }
      if rid1.slot_no ≥ file.num_records_per_page then
        if rid1.page_no + 1 = file.num_pages then ⟨c.RM_NO_PAGE, -1⟩
        else RmScan.next_loop c file fuel ⟨rid1.page_no + 1, -1⟩
      else rid1
    else rid_

/-- Embedding of `RmScan::next` of `src/Lab1(2024.6.21)`: `rid_` after the call. -/
def RmScan.next (c : RmConfig) (file : RmFileView) (rid_ : Rid) : Rid :=
  RmScan.next_loop c file (file.num_pages - rid_.page_no).toNat rid_

/-- The loop of `RmScan::next` of `src/Lab1`, which returns when the bitmap has a set bit
after the current slot and otherwise moves to the next page, ending with `RM_NO_PAGE` when
that page does not exist. -/
def RmScan.next_loop_Lab1 (c : RmConfig) (file : RmFileView) : Nat → Rid → Rid
  | 0, rid_ => rid_
  | fuel + 1, rid_ =>
    if rid_.page_no < file.num_pages then
      let slot_no := Bitmap.next_bit true (file.bitmap rid_.page_no)
        file.num_records_per_page rid_.slot_no
      let rid1 : Rid := { rid_ with slot_no := slot_no }
      if rid1.slot_no < file.num_records_per_page then rid1
      else
        let rid2 : Rid := ⟨rid1.page_no + 1, -1⟩
        if rid2.page_no ≥ file.num_pages then ⟨c.RM_NO_PAGE, -1⟩
        else RmScan.next_loop_Lab1 c file fuel rid2
    else rid_

/-- Embedding of `RmScan::next` of `src/Lab1`: `rid_` after the call. -/
def RmScan.next_Lab1 (c : RmConfig) (file : RmFileView) (rid_ : Rid) : Rid :=
  RmScan.next_loop_Lab1 c file (file.num_pages - rid_.page_no).toNat rid_

/-- Embedding of the constructor `RmScan::RmScan` of `src/Lab1(2024.6.21)`: `rid_` after
construction. -/
def RmScan.new (c : RmConfig) (file : RmFileView) : Rid :=
  RmScan.next c file ⟨c.RM_FIRST_RECORD_PAGE, -1⟩

/-- Embedding of the constructor `RmScan::RmScan` of `src/Lab1`. -/
def RmScan.new_Lab1 (c : RmConfig) (file : RmFileView) : Rid :=
  RmScan.next_Lab1 c file ⟨c.RM_FIRST_RECORD_PAGE, -1⟩

/-- Embedding of `RmScan::is_end` (the same in both variants) on the scan's `rid_`. -/
def RmScan.is_end (c : RmConfig) (rid_ : Rid) : Bool :=
  decide (rid_.page_no = c.RM_NO_PAGE)

/-! ## Buffer pool manager of `src/Lab1`

The undated variant of `buffer_pool_manager.cpp`.  Its `FindVictimPage` is the one of
`src/Lab1(2024.6.21)`.  `FetchPage` and `NewPage` hold `latch_`, a `std::mutex`, and call
`FlushPage` when the victim is dirty; `FlushPage` locks `latch_` again, so such a call does
not return.  The embeddings give `none` for a call that does not return. -/

/-- Embedding of `BufferPoolManager::FetchPage` of `src/Lab1`: `none` when the call does
not return, otherwise the frame of the returned page (`none` for `nullptr`) and the state
after the call. -/
def FetchPage_Lab1 (R : Replacer ρ) (s : BufferPoolManager ρ) (page_id : PageId) :
    Option (Option Nat × BufferPoolManager ρ) :=
  match s.page_table_ page_id with
  | some frame_id =>
    let page : Page :=
      { s.pages_ frame_id with pin_count_ := (s.pages_ frame_id).pin_count_ + 1 }
    some (some frame_id, { s with pages_ := Function.update s.pages_ frame_id page })
  | none =>
    match FindVictimPage R s with
    | (none, s1) => some (none, s1)
    | (some frame_id, s1) =>
      let victim_page := s1.pages_ frame_id
      if victim_page.is_dirty_ then none
      else
        let pt1 : PageId → Option Nat :=
          fun k => if k = victim_page.id_ then none else s1.page_table_ k
        let pt2 : PageId → Option Nat := fun k => if k = page_id then some frame_id else pt1 k
        let r := s1.disk_manager_.read_page page_id.fd page_id.page_no
        let newPage : Page :=
          { victim_page with id_ := page_id, data_ := r.1, is_dirty_ := false }
        some (some frame_id,
          { s1 with
            page_table_ := pt2
            pages_ := Function.update s1.pages_ frame_id newPage
            disk_manager_ := r.2
            replacer_ := R.Pin s1.replacer_ frame_id })

/-- The end of `BufferPoolManager::NewPage` of `src/Lab1`, from
`Page &new_page = pages_[frame_id]` on: the frame gets the new identity and a zeroed buffer
and is entered in the page table. -/
def NewPage_Lab1_install (c : Config) (s : BufferPoolManager ρ) (frame_id : Nat)
    (page_id : PageId) : BufferPoolManager ρ :=
  let new_page : Page := ({ s.pages_ frame_id with id_ := page_id }).ResetMemory c
  { s with
    pages_ := Function.update s.pages_ frame_id new_page
    page_table_ := fun k => if k = page_id then some frame_id else s.page_table_ k }

/-- Embedding of `BufferPoolManager::NewPage(PageId *page_id)` of `src/Lab1`: `none` when
the call does not return, otherwise the frame of the returned page (`none` for `nullptr`),
the value of `*page_id` after the call, and the new state.  `first_entry pt f` stands for
the iteration over `page_table_`: the key of the first entry in iteration order whose value
is `f`, if there is one. -/
def NewPage_Lab1 (c : Config) (R : Replacer ρ)
    (first_entry : (PageId → Option Nat) → Nat → Option PageId) (s : BufferPoolManager ρ)
    (page_id : PageId) : Option (Option Nat × PageId × BufferPoolManager ρ) :=
  let a := s.disk_manager_.AllocatePage page_id.fd
  let page_id1 : PageId := { page_id with page_no := a.1 }
  let s1 := { s with disk_manager_ := a.2 }
  if page_id1.page_no = c.INVALID_PAGE_ID then some (none, page_id1, s1)
  else
    match s1.free_list_ with
    | frame_id :: rest =>
      let pt1 : PageId → Option Nat :=
        match first_entry s1.page_table_ frame_id with
        | some k => fun k1 => if k1 = k then none else s1.page_table_ k1
        | none => s1.page_table_
      let s2 := { s1 with free_list_ := rest, page_table_ := pt1 }
      some (some frame_id, page_id1, NewPage_Lab1_install c s2 frame_id page_id1)
    | [] =>
      match R.Victim s1.replacer_ with
      | (none, r1) => some (none, page_id1, { s1 with replacer_ := r1 })
      | (some frame_id, r1) =>
        let s2 := { s1 with replacer_ := r1 }
        if (s2.pages_ frame_id).is_dirty_ then none
        else some (some frame_id, page_id1, NewPage_Lab1_install c s2 frame_id page_id1)

/-! ## Record manager of `src/Lab1(2024.6.21)`

`rm_file_handle.cpp` over the buffer pool of the same directory.  A page handle is the
frame of the page; what it reads and writes of the frame's buffer (page header, bitmap,
slots) goes through the layout `RmPageLayout`. -/

/-- Modelled from the spec: the fields of the file header `RmFileHdr` (declared in a header
that is not among the sources) that `rm_file_handle.cpp` uses. -/
structure RmFileHdr where
  record_size : Int
  num_pages : Int
  num_records_per_page : Int
  first_free_page_no : Int
  deriving DecidableEq, Repr

/-- Modelled from the spec: what `RmPageHandle` and `Bitmap` (declared in headers that are
not among the sources) read and write in a page buffer: the page header fields
`num_records` and `next_free_page_no`, the bits of the bitmap, and the record of a slot. -/
structure RmPageLayout where
  num_records : List Nat → Int
  set_num_records : List Nat → Int → List Nat
  next_free_page_no : List Nat → Int
  set_next_free_page_no : List Nat → Int → List Nat
  is_set : List Nat → Int → Bool
  set_bit : List Nat → Int → List Nat
  reset_bit : List Nat → Int → List Nat
  first_bit : Bool → List Nat → Int → Int
  get_slot : RmFileHdr → List Nat → Int → List Nat
  set_slot : RmFileHdr → List Nat → Int → List Nat → List Nat

/-- State of `RmFileHandle`. -/
structure RmFileHandle (ρ : Type) where
  file_hdr_ : RmFileHdr
  fd_ : Int
  buffer_pool_manager_ : BufferPoolManager ρ

/-- How a call of the record manager ends: it returns, an exception leaves it, or it uses a
page handle built on the null pointer that the buffer pool returned. -/
inductive RmOutcome (α : Type) where
  | returned (a : α)
  | thrown
  | null_page
  deriving DecidableEq, Repr

/-- A write through a page handle: the buffer of frame `f` becomes `data`. -/
def BufferPoolManager.set_data (s : BufferPoolManager ρ) (f : Nat) (data : List Nat) :
    BufferPoolManager ρ :=
  let page : Page := { s.pages_ f with data_ := data }
  { s with pages_ := Function.update s.pages_ f page }

/-- Embedding of `RmFileHandle::fetch_page_handle`: the frame of the page handle. -/
def RmFileHandle.fetch_page_handle (c : Config) (R : Replacer ρ) (h : RmFileHandle ρ)
    (page_no : Int) : RmOutcome Nat × RmFileHandle ρ :=
  if page_no ≥ h.file_hdr_.num_pages then (.thrown, h)
  else
    match FetchPage c R h.buffer_pool_manager_ ⟨h.fd_, page_no⟩ with
    | (some f, s1) => (.returned f, { h with buffer_pool_manager_ := s1 })
    | (none, s1) => (.null_page, { h with buffer_pool_manager_ := s1 })

/-- Embedding of `RmFileHandle::get_record`: the bytes of the record. -/
def RmFileHandle.get_record (c : Config) (R : Replacer ρ) (L : RmPageLayout)
    (h : RmFileHandle ρ) (rid : Rid) : RmOutcome (List Nat) × RmFileHandle ρ :=
  match h.fetch_page_handle c R rid.page_no with
  | (.returned f, h1) =>
    let data := (h1.buffer_pool_manager_.pages_ f).data_
    if ¬ L.is_set data rid.slot_no then (.thrown, h1)
    else (.returned (L.get_slot h1.file_hdr_ data rid.slot_no), h1)
  | (.thrown, h1) => (.thrown, h1)
  | (.null_page, h1) => (.null_page, h1)

/-- Embedding of `RmFileHandle::update_record`. -/
def RmFileHandle.update_record (c : Config) (R : Replacer ρ) (L : RmPageLayout)
    (h : RmFileHandle ρ) (rid : Rid) (buf : List Nat) : RmOutcome Unit × RmFileHandle ρ :=
  match h.fetch_page_handle c R rid.page_no with
  | (.returned f, h1) =>
    let data := (h1.buffer_pool_manager_.pages_ f).data_
    if ¬ L.is_set data rid.slot_no then (.thrown, h1)
    else
      let data1 := L.set_slot h1.file_hdr_ data rid.slot_no buf
      (.returned (), { h1 with buffer_pool_manager_ := h1.buffer_pool_manager_.set_data f data1 })
  | (.thrown, h1) => (.thrown, h1)
  | (.null_page, h1) => (.null_page, h1)

/-- Embedding of `RmFileHandle::release_page_handle` on the page handle of frame `f`. -/
def RmFileHandle.release_page_handle (L : RmPageLayout) (h : RmFileHandle ρ) (f : Nat) :
    RmFileHandle ρ :=
  let page := h.buffer_pool_manager_.pages_ f
  let data1 := L.set_next_free_page_no page.data_ h.file_hdr_.first_free_page_no
  { h with
    buffer_pool_manager_ := h.buffer_pool_manager_.set_data f data1
    file_hdr_ := { h.file_hdr_ with first_free_page_no := page.id_.page_no } }

/-- Embedding of `RmFileHandle::delete_record`. -/
def RmFileHandle.delete_record (c : Config) (R : Replacer ρ) (L : RmPageLayout)
    (h : RmFileHandle ρ) (rid : Rid) : RmOutcome Unit × RmFileHandle ρ :=
  match h.fetch_page_handle c R rid.page_no with
  | (.returned f, h1) =>
    let data := (h1.buffer_pool_manager_.pages_ f).data_
    if ¬ L.is_set data rid.slot_no then (.thrown, h1)
    else
      let data1 := L.reset_bit data rid.slot_no
      let h2 := { h1 with buffer_pool_manager_ := h1.buffer_pool_manager_.set_data f data1 }
      let h3 :=
        if L.num_records data1 = h2.file_hdr_.num_records_per_page then
          h2.release_page_handle L f
        else h2
      let data3 := (h3.buffer_pool_manager_.pages_ f).data_
      let data4 := L.set_num_records data3 (L.num_records data3 - 1)
      (.returned (), { h3 with buffer_pool_manager_ := h3.buffer_pool_manager_.set_data f data4 })
  | (.thrown, h1) => (.thrown, h1)
  | (.null_page, h1) => (.null_page, h1)

/-- Embedding of `RmFileHandle::create_new_page_handle`: the frame of the page handle. -/
def RmFileHandle.create_new_page_handle (c : Config) (cr : RmConfig) (R : Replacer ρ)
    (L : RmPageLayout) (h : RmFileHandle ρ) : RmOutcome Nat × RmFileHandle ρ :=
  match NewPage c R h.buffer_pool_manager_ ⟨h.fd_, c.INVALID_PAGE_ID⟩ with
  | (some f, page_id, s1) =>
    let data1 := L.set_num_records (s1.pages_ f).data_ 0
    let data2 := L.set_next_free_page_no data1 cr.RM_NO_PAGE
    (.returned f,
      { h with
        buffer_pool_manager_ := s1.set_data f data2
        file_hdr_ := { h.file_hdr_ with
          num_pages := h.file_hdr_.num_pages + 1, first_free_page_no := page_id.page_no } })
  | (none, _, s1) => (.null_page, { h with buffer_pool_manager_ := s1 })

/-- Embedding of `RmFileHandle::create_page_handle`. -/
def RmFileHandle.create_page_handle (c : Config) (cr : RmConfig) (R : Replacer ρ)
    (L : RmPageLayout) (h : RmFileHandle ρ) : RmOutcome Nat × RmFileHandle ρ :=
  if h.file_hdr_.first_free_page_no ≠ cr.RM_NO_PAGE then
    h.fetch_page_handle c R h.file_hdr_.first_free_page_no
  else h.create_new_page_handle c cr R L

/-- Embedding of `RmFileHandle::insert_record (buf, context)`: the position of the new
record. -/
def RmFileHandle.insert_record (c : Config) (cr : RmConfig) (R : Replacer ρ)
    (L : RmPageLayout) (h : RmFileHandle ρ) (buf : List Nat) :
    RmOutcome Rid × RmFileHandle ρ :=
  match h.create_page_handle c cr R L with
  | (.returned f, h1) =>
    let page := h1.buffer_pool_manager_.pages_ f
    let free_slot := L.first_bit false page.data_ h1.file_hdr_.num_records_per_page
    let data1 := L.set_slot h1.file_hdr_ page.data_ free_slot buf
    let data2 := L.set_bit data1 free_slot
    let data3 := L.set_num_records data2 (L.num_records data2 + 1)
    let h2 := { h1 with buffer_pool_manager_ := h1.buffer_pool_manager_.set_data f data3 }
    let h3 :=
      if L.num_records data3 = h2.file_hdr_.num_records_per_page then
        { h2 with
          file_hdr_ := { h2.file_hdr_ with first_free_page_no := L.next_free_page_no data3 } }
      else h2
    (.returned ⟨page.id_.page_no, free_slot⟩, h3)
  | (.thrown, h1) => (.thrown, h1)
  | (.null_page, h1) => (.null_page, h1)

/-- Pin count and dirty flag of every frame of a pool. -/
def BufferPoolManager.pins_and_flags (s : BufferPoolManager ρ) : Nat → Int × Bool :=
  fun f => ((s.pages_ f).pin_count_, (s.pages_ f).is_dirty_)

/-! ## Concrete pools used to instantiate the theorems -/

/-- A configuration with 4-byte pages. -/
def exConfig : Config := ⟨4, -1⟩

/-- A disk with two non-zero pages in file 0; the allocator of every file is at 0. -/
def exDisk : DiskManager :=
  { pages := fun k => if k = ⟨0, 0⟩ then [1, 2, 3, 4] else if k = ⟨0, 1⟩ then [5, 6, 7, 8]
      else [0, 0, 0, 0]
    fd2pageno_ := fun _ => 0
    calls := [] }

/-- The initial pool with two frames and the LRU replacer. -/
def exInit : BufferPoolManager (List Nat) :=
  BufferPoolManager.init exConfig 2 (fun _ => 0) [] exDisk

/-- After `FetchPage (0,0)`: frame 0 holds page (0,0), pinned once; frame 1 is free. -/
def exPool1 : BufferPoolManager (List Nat) :=
  (FetchPage exConfig LRUReplacer exInit ⟨0, 0⟩).2

/-- After also `FetchPage (0,1)`: both frames pinned, free list empty. -/
def exPool2 : BufferPoolManager (List Nat) :=
  (FetchPage exConfig LRUReplacer exPool1 ⟨0, 1⟩).2

/-- The pool `exPool2` after the caller has overwritten the buffer of pinned frame 0. -/
def exPool2w : BufferPoolManager (List Nat) :=
  let page : Page := { exPool2.pages_ 0 with data_ := [9, 9, 9, 9] }
  { exPool2 with pages_ := Function.update exPool2.pages_ 0 page }

/-- After `UnpinPage ((0,0), true)` on `exPool2w`: frame 0 is dirty and evictable, its
buffer differs from the disk page. -/
def exPool3 : BufferPoolManager (List Nat) :=
  (UnpinPage LRUReplacer exPool2w ⟨0, 0⟩ true).2

/-- A pool reached from `exInit` by valid calls in which frame 1 is evictable and still
stores identity (0,0), while (0,0) is not in the page table: page (0,0) was fetched into
frame 0 and unpinned, `NewPage` of file 0 allocated page number 0 into frame 1, that page
was unpinned, and `FetchPage (0,1)` evicted frame 0, erasing the entry of (0,0). -/
def exStale : BufferPoolManager (List Nat) :=
  run exConfig LRUReplacer exInit
    [.FetchPage ⟨0, 0⟩, .UnpinPage ⟨0, 0⟩ false, .NewPage ⟨0, -1⟩, .UnpinPage ⟨0, 0⟩ false,
      .FetchPage ⟨0, 1⟩]

/-- The initial two-frame pool over a disk map that has bytes at the key (0, -1). -/
def exInitNoPage : BufferPoolManager (List Nat) :=
  BufferPoolManager.init exConfig 2 (fun _ => 5) []
    { pages := fun k => if k = ⟨0, -1⟩ then [1, 1, 1, 1] else [0, 0, 0, 0]
      fd2pageno_ := fun _ => 0
      calls := [] }

/-- The pool after `NewPage` of file 0 (page (0,0), frame 0), `UnpinPage ((0,0), false)` and
`DeletePage (0,0)`, from `exInit`. -/
def exDeleted : BufferPoolManager (List Nat) :=
  run exConfig LRUReplacer exInit
    [.NewPage ⟨0, -1⟩, .UnpinPage ⟨0, 0⟩ false, .DeletePage ⟨0, 0⟩]

/-- A pool reached from `exDeleted`, where `(0, INVALID_PAGE_ID)` is resident in frame 0: the
identity is fetched, the caller overwrites the buffer of the pinned frame, and
`UnpinPage ((0, INVALID_PAGE_ID), true)` marks it dirty. -/
def exDirtyInvalid : BufferPoolManager (List Nat) :=
  let s1 := run exConfig LRUReplacer exDeleted [.FetchPage ⟨0, -1⟩]
  let page : Page := { s1.pages_ 0 with data_ := [9, 9, 9, 9] }
  let s2 := { s1 with pages_ := Function.update s1.pages_ 0 page }
  run exConfig LRUReplacer s2 [.UnpinPage ⟨0, -1⟩ true]

/-- A pool with two frames that store the identity (0,0).  Page (0,1) is fetched into frame 0
and page (0,0) into frame 1, whose buffer the caller overwrites; both are unpinned, frame 1
as dirty; then `NewPage` of file 0 evicts frame 0 and allocates the page number 0, so that
(0,0) is resident in frame 0 with the disk content while frame 1 still stores (0,0), dirty,
with the overwritten buffer. -/
def exDuplicate : BufferPoolManager (List Nat) :=
  let s1 := run exConfig LRUReplacer exInit [.FetchPage ⟨0, 1⟩, .FetchPage ⟨0, 0⟩]
  let page : Page := { s1.pages_ 1 with data_ := [9, 9, 9, 9] }
  let s2 := { s1 with pages_ := Function.update s1.pages_ 1 page }
  run exConfig LRUReplacer s2 [.UnpinPage ⟨0, 1⟩ false, .UnpinPage ⟨0, 0⟩ true, .NewPage ⟨0, -1⟩]

/-- Every read of page (0,2) fails. -/
def exReadFault : DiskCall → Bool := fun call => decide (call = DiskCall.read 0 2)

/-- Every write of page (0,0) fails. -/
def exWriteFault : DiskCall → Bool := fun call => decide (call = DiskCall.write 0 0)

/-- A node with keys `[10, 20, 30]`; slot 3, beyond `num_key`, holds the key 35 and every
other slot holds 0; the rid of slot `i` is `(i, i)`. -/
def exNode : IxNodeHandle Int :=
  { num_key := 3
    keys := fun i => if i = 0 then 10 else if i = 1 then 20 else if i = 2 then 30
      else if i = 3 then 35 else 0
    rids := fun i => ⟨i, i⟩ }

/-- A node on a zeroed page with the single key 7. -/
def exNodeOne : IxNodeHandle Int :=
  { num_key := 1
    keys := fun i => if i = 0 then 7 else 0
    rids := fun _ => ⟨0, 0⟩ }

/-- An empty node on a zeroed page. -/
def exNodeEmpty : IxNodeHandle Int :=
  { num_key := 0
    keys := fun _ => 0
    rids := fun _ => ⟨0, 0⟩ }

/-- The record manager's constants: record pages start at page 1, and -1 stands for "no
page". -/
def exRmConfig : RmConfig := ⟨1, -1⟩

/-- A record file that has only its header page. -/
def exFileHeaderOnly : RmFileView :=
  { num_pages := 1, num_records_per_page := 2, bitmap := fun _ _ => false }

/-- A record file with the record pages 1 and 2, two slots a page; only slot 1 of page 2 is
occupied. -/
def exFileOneRecord : RmFileView :=
  { num_pages := 3, num_records_per_page := 2
    bitmap := fun page_no slot_no => decide (page_no = 2 ∧ slot_no = 1) }

/-- A record file with the record pages 1 and 2 and no occupied slot. -/
def exFileNoRecord : RmFileView :=
  { num_pages := 3, num_records_per_page := 2, bitmap := fun _ _ => false }

/-- A page layout for 4-byte pages with one slot: byte 0 holds `next_free_page_no + 1`,
byte 1 `num_records`, byte 2 the bit of slot 0 and byte 3 the record of slot 0. -/
def exLayout : RmPageLayout :=
  { num_records := fun d => (d.getD 1 0 : Nat)
    set_num_records := fun d v => d.set 1 v.toNat
    next_free_page_no := fun d => (d.getD 0 0 : Nat) - 1
    set_next_free_page_no := fun d v => d.set 0 (v + 1).toNat
    is_set := fun d i => decide (d.getD (2 + i.toNat) 0 ≠ 0)
    set_bit := fun d i => d.set (2 + i.toNat) 1
    reset_bit := fun d i => d.set (2 + i.toNat) 0
    first_bit := fun bit d max_n =>
      Bitmap.next_bit bit (fun i => decide (d.getD (2 + i.toNat) 0 ≠ 0)) max_n (-1)
    get_slot := fun _ d i => [d.getD (3 + i.toNat) 0]
    set_slot := fun _ d i buf => d.set (3 + i.toNat) (buf.getD 0 0) }

/-- A disk whose file 0 has the full record page 1 (no next free page, one record, slot 0
occupied, record 42) and zeroed pages otherwise; the allocator of every file is at 3. -/
def exRmDisk : DiskManager :=
  { pages := fun k => if k = ⟨0, 1⟩ then [0, 1, 1, 42] else [0, 0, 0, 0]
    fd2pageno_ := fun _ => 3
    calls := [] }

/-- A two-frame pool over `exRmDisk` after `FetchPage (0,1)` and `UnpinPage ((0,1), false)`:
page (0,1) is in frame 0, unpinned and clean; frame 1 is free. -/
def exRmPool : BufferPoolManager (List Nat) :=
  run exConfig LRUReplacer (BufferPoolManager.init exConfig 2 (fun _ => 0) [] exRmDisk)
    [.FetchPage ⟨0, 1⟩, .UnpinPage ⟨0, 1⟩ false]

/-- The header of a record file with the header page 0, the full record page 1 and the
empty record page 2, which heads the list of free pages; a page has one slot. -/
def exRmFileHdr : RmFileHdr :=
  { record_size := 1, num_pages := 3, num_records_per_page := 1, first_free_page_no := 2 }

/-- The record file `fd = 0` with header `exRmFileHdr` over the pool `exRmPool`. -/
def exRmFile : RmFileHandle (List Nat) :=
  { file_hdr_ := exRmFileHdr, fd_ := 0, buffer_pool_manager_ := exRmPool }

/-! ## Theorems -/

/-- `FindVictimPage` does not touch the frames. -/
theorem FindVictimPage_pages (R : Replacer ρ) (s : BufferPoolManager ρ) :
    (FindVictimPage R s).2.pages_ = s.pages_ := by
  unfold FindVictimPage
  split <;> rfl

/-- `FindVictimPage` does not touch the disk manager. -/
theorem FindVictimPage_disk (R : Replacer ρ) (s : BufferPoolManager ρ) :
    (FindVictimPage R s).2.disk_manager_ = s.disk_manager_ := by
  unfold FindVictimPage
  split <;> rfl

/-- `FindVictimPage` does not touch the page table. -/
theorem FindVictimPage_page_table (R : Replacer ρ) (s : BufferPoolManager ρ) :
    (FindVictimPage R s).2.page_table_ = s.page_table_ := by
  unfold FindVictimPage
  split <;> rfl

/-- Reading a page does not change the contents of the disk. -/
@[simp]
theorem read_page_pages (d : DiskManager) (fd page_no : Int) :
    (d.read_page fd page_no).2.pages = d.pages := rfl

/-- Reading a page returns what the disk holds at that identity. -/
@[simp]
theorem read_page_bytes (d : DiskManager) (fd page_no : Int) :
    (d.read_page fd page_no).1 = d.pages ⟨fd, page_no⟩ := rfl

/-- Contents of the disk after `UpdatePage`: only the write-back of a dirty page changes
them. -/
theorem UpdatePage_disk_pages (c : Config) (s : BufferPoolManager ρ) (page : Nat)
    (new_page_id : PageId) (new_frame_id : Nat) :
    (UpdatePage c s page new_page_id new_frame_id).disk_manager_.pages =
      fun k => if (s.pages_ page).is_dirty_ = true ∧ k = (s.pages_ page).id_
        then (s.pages_ page).data_ else s.disk_manager_.pages k := by
  funext k
  simp only [UpdatePage]
  by_cases hd : (s.pages_ page).is_dirty_ = true
  · split <;> simp [hd, DiskManager.write_page]
  · split <;> simp [hd]

/-- The frame handed to `UpdatePage` afterwards: new identity, clean, same pin count, and a
buffer read from disk, or zero when the new page number is `INVALID_PAGE_ID`. -/
theorem UpdatePage_page (c : Config) (s : BufferPoolManager ρ) (page : Nat)
    (new_page_id : PageId) (new_frame_id : Nat) :
    ((UpdatePage c s page new_page_id new_frame_id).pages_ page).id_ = new_page_id ∧
    ((UpdatePage c s page new_page_id new_frame_id).pages_ page).is_dirty_ = false ∧
    ((UpdatePage c s page new_page_id new_frame_id).pages_ page).pin_count_
      = (s.pages_ page).pin_count_ ∧
    ((UpdatePage c s page new_page_id new_frame_id).pages_ page).data_
      = (if new_page_id.page_no ≠ c.INVALID_PAGE_ID
          then (UpdatePage c s page new_page_id new_frame_id).disk_manager_.pages new_page_id
          else List.replicate c.PAGE_SIZE 0) := by
  simp only [UpdatePage, Function.update_same]
  by_cases hd : (s.pages_ page).is_dirty_ = true <;>
    by_cases hv : new_page_id.page_no = c.INVALID_PAGE_ID <;>
    simp_all [Page.ResetMemory]

/-- Clearing the dirty flag of a dirty page keeps its identity. -/
theorem clear_dirty_id (p : Page) :
    (if p.is_dirty_ = true then ({ p with is_dirty_ := false } : Page) else p).id_ = p.id_ := by
  split <;> rfl

/-- The result of `FetchPage` when the page is not resident and `FindVictimPage` selects
frame `f`. -/
theorem FetchPage_miss_eq (c : Config) (R : Replacer ρ) (s : BufferPoolManager ρ)
    (page_id : PageId) (f : Nat) (hpt : s.page_table_ page_id = none)
    (hvictim : (FindVictimPage R s).1 = some f) :
    FetchPage c R s page_id =
      (some f,
        { UpdatePage c (FindVictimPage R s).2 f page_id f with
          replacer_ := R.Pin (UpdatePage c (FindVictimPage R s).2 f page_id f).replacer_ f
          pages_ := Function.update (UpdatePage c (FindVictimPage R s).2 f page_id f).pages_ f
            { (UpdatePage c (FindVictimPage R s).2 f page_id f).pages_ f with
              pin_count_ := 1 } }) := by
  unfold FetchPage
  rw [hpt]
  rcases hfind : FindVictimPage R s with ⟨v, s1⟩
  rw [hfind] at hvictim
  simp only at hvictim
  subst hvictim
  rfl

/-- The result of `NewPage` when `FindVictimPage` selects frame `f`. -/
theorem NewPage_eq (c : Config) (R : Replacer ρ) (s : BufferPoolManager ρ)
    (page_id : PageId) (f : Nat) (hvictim : (FindVictimPage R s).1 = some f) :
    NewPage c R s page_id =
      (some f, { page_id with page_no := s.disk_manager_.fd2pageno_ page_id.fd },
        { UpdatePage c { (FindVictimPage R s).2 with
              disk_manager_ := (s.disk_manager_.AllocatePage page_id.fd).2 } f
            { page_id with page_no := s.disk_manager_.fd2pageno_ page_id.fd } f with
          replacer_ := R.Pin (FindVictimPage R s).2.replacer_ f
          pages_ := Function.update (UpdatePage c { (FindVictimPage R s).2 with
              disk_manager_ := (s.disk_manager_.AllocatePage page_id.fd).2 } f
            { page_id with page_no := s.disk_manager_.fd2pageno_ page_id.fd } f).pages_ f
            { (UpdatePage c { (FindVictimPage R s).2 with
              disk_manager_ := (s.disk_manager_.AllocatePage page_id.fd).2 } f
            { page_id with page_no := s.disk_manager_.fd2pageno_ page_id.fd } f).pages_ f with
              pin_count_ := 1 } }) := by
  have hdisk := FindVictimPage_disk R s
  unfold NewPage
  rcases hfind : FindVictimPage R s with ⟨v, s1⟩
  rw [hfind] at hvictim hdisk
  simp only at hvictim hdisk
  subst hvictim
  simp only [hdisk, DiskManager.AllocatePage]
  rfl

/-- C2: when `page_id` is in the page table, `FetchPage` returns the frame the table maps it
to, adds exactly 1 to that frame's pin count, tells the Replacer the frame is pinned, leaves
the disk manager (no read, no write), the page table, the free list, that frame's identity,
buffer and dirty flag unchanged, and leaves every other frame unchanged. -/
theorem FetchPage_resident (c : Config) (R : Replacer ρ) (s : BufferPoolManager ρ)
    (page_id : PageId) (f : Nat) (h : s.page_table_ page_id = some f) :
    (FetchPage c R s page_id).1 = some f ∧
    ((FetchPage c R s page_id).2.pages_ f).pin_count_ = (s.pages_ f).pin_count_ + 1 ∧
    (FetchPage c R s page_id).2.replacer_ = R.Pin s.replacer_ f ∧
    (FetchPage c R s page_id).2.disk_manager_ = s.disk_manager_ ∧
    (FetchPage c R s page_id).2.page_table_ = s.page_table_ ∧
    (FetchPage c R s page_id).2.free_list_ = s.free_list_ ∧
    ((FetchPage c R s page_id).2.pages_ f).id_ = (s.pages_ f).id_ ∧
    ((FetchPage c R s page_id).2.pages_ f).data_ = (s.pages_ f).data_ ∧
    ((FetchPage c R s page_id).2.pages_ f).is_dirty_ = (s.pages_ f).is_dirty_ ∧
    (∀ g, g ≠ f → (FetchPage c R s page_id).2.pages_ g = s.pages_ g) := by
  simp only [FetchPage, h, Function.update_same, true_and]
  intro g hg
  exact Function.update_noteq hg _ _

/-- Instance of `FetchPage_resident`: fetching the resident page (0,0) of `exPool1`. -/
theorem FetchPage_resident_witness :
    exPool1.page_table_ ⟨0, 0⟩ = some 0 ∧
    (FetchPage exConfig LRUReplacer exPool1 ⟨0, 0⟩).1 = some 0 ∧
    ((FetchPage exConfig LRUReplacer exPool1 ⟨0, 0⟩).2.pages_ 0).pin_count_ = 2 :=
  ⟨by decide, (FetchPage_resident exConfig LRUReplacer exPool1 ⟨0, 0⟩ 0 (by decide)).1,
    by decide⟩

/-- C4: when the free list is empty and the Replacer's `Victim` finds no frame, `NewPage`,
and `FetchPage` of an identity that is not in the page table, return null and leave every
frame (identity, buffer, dirty flag, pin count), the page table, the free list and the disk
manager with its page number allocator unchanged; `NewPage` does not write `*page_id`. -/
theorem no_victim_returns_null (c : Config) (R : Replacer ρ) (s : BufferPoolManager ρ)
    (page_id : PageId) (hfree : s.free_list_ = [])
    (hvictim : (R.Victim s.replacer_).1 = none) :
    ((NewPage c R s page_id).1 = none ∧
      (NewPage c R s page_id).2.1 = page_id ∧
      (NewPage c R s page_id).2.2.pages_ = s.pages_ ∧
      (NewPage c R s page_id).2.2.page_table_ = s.page_table_ ∧
      (NewPage c R s page_id).2.2.free_list_ = s.free_list_ ∧
      (NewPage c R s page_id).2.2.disk_manager_ = s.disk_manager_) ∧
    (s.page_table_ page_id = none →
      (FetchPage c R s page_id).1 = none ∧
      (FetchPage c R s page_id).2.pages_ = s.pages_ ∧
      (FetchPage c R s page_id).2.page_table_ = s.page_table_ ∧
      (FetchPage c R s page_id).2.free_list_ = s.free_list_ ∧
      (FetchPage c R s page_id).2.disk_manager_ = s.disk_manager_) := by
  have hfind : FindVictimPage R s = (none, { s with replacer_ := (R.Victim s.replacer_).2 }) := by
    simp [FindVictimPage, hfree, hvictim]
  refine ⟨?_, ?_⟩
  · simp [NewPage, hfind, hfree]
  · intro hpt
    simp [FetchPage, hpt, hfind, hfree]

/-- Instance of `no_victim_returns_null`: `exPool2` has both frames pinned. -/
theorem no_victim_returns_null_witness :
    exPool2.free_list_ = [] ∧ (LRUReplacer.Victim exPool2.replacer_).1 = none ∧
    exPool2.page_table_ ⟨0, 2⟩ = none ∧
    (NewPage exConfig LRUReplacer exPool2 ⟨0, 7⟩).1 = none ∧
    (FetchPage exConfig LRUReplacer exPool2 ⟨0, 2⟩).1 = none :=
  ⟨by decide, by decide, by decide,
    (no_victim_returns_null exConfig LRUReplacer exPool2 ⟨0, 7⟩ (by decide) (by decide)).1.1,
    ((no_victim_returns_null exConfig LRUReplacer exPool2 ⟨0, 2⟩ (by decide) (by decide)).2
      (by decide)).1⟩

/-- C5: `UnpinPage` returns false and changes nothing if `page_id` is not in the page table
or the pin count of its frame is 0 (the code tests `pin_count_ <= 0`).  If the pin count is
positive it returns true, subtracts exactly 1 from that frame's pin count, calls the
Replacer's `Unpin` on the frame exactly when the new pin count is 0, and leaves the page
table, the free list, the disk, every buffer, the frame's identity and every other frame
unchanged. -/
theorem UnpinPage_spec (R : Replacer ρ) (s : BufferPoolManager ρ) (page_id : PageId)
    (is_dirty : Bool) :
    (s.page_table_ page_id = none → UnpinPage R s page_id is_dirty = (false, s)) ∧
    (∀ f, s.page_table_ page_id = some f → (s.pages_ f).pin_count_ ≤ 0 →
      UnpinPage R s page_id is_dirty = (false, s)) ∧
    (∀ f, s.page_table_ page_id = some f → 0 < (s.pages_ f).pin_count_ →
      (UnpinPage R s page_id is_dirty).1 = true ∧
      ((UnpinPage R s page_id is_dirty).2.pages_ f).pin_count_ = (s.pages_ f).pin_count_ - 1 ∧
      (UnpinPage R s page_id is_dirty).2.replacer_ =
        (if (s.pages_ f).pin_count_ - 1 = 0 then R.Unpin s.replacer_ f else s.replacer_) ∧
      (UnpinPage R s page_id is_dirty).2.page_table_ = s.page_table_ ∧
      (UnpinPage R s page_id is_dirty).2.free_list_ = s.free_list_ ∧
      (UnpinPage R s page_id is_dirty).2.disk_manager_ = s.disk_manager_ ∧
      (∀ g, ((UnpinPage R s page_id is_dirty).2.pages_ g).data_ = (s.pages_ g).data_) ∧
      (∀ g, ((UnpinPage R s page_id is_dirty).2.pages_ g).id_ = (s.pages_ g).id_) ∧
      (∀ g, g ≠ f → (UnpinPage R s page_id is_dirty).2.pages_ g = s.pages_ g)) := by
  refine ⟨?_, ?_, ?_⟩
  · intro h
    simp [UnpinPage, h]
  · intro f h hpin
    simp [UnpinPage, h, hpin]
  · intro f h hpin
    have hnot : ¬ (s.pages_ f).pin_count_ ≤ 0 := not_le.mpr hpin
    simp only [UnpinPage, h, hnot, if_false, Function.update_same, true_and]
    refine ⟨?_, ?_, ?_⟩
    · intro g
      by_cases hg : g = f
      · subst hg; simp
      · simp [Function.update_noteq hg]
    · intro g
      by_cases hg : g = f
      · subst hg; simp
      · simp [Function.update_noteq hg]
    · intro g hg
      exact Function.update_noteq hg _ _

/-- Instance of `UnpinPage_spec`: page (0,5) is not resident in `exPool2`, page (0,0) is
unpinned already in `exPool3`, page (0,1) is pinned once in `exPool2`. -/
theorem UnpinPage_spec_witness :
    (exPool2.page_table_ ⟨0, 5⟩ = none ∧
      UnpinPage LRUReplacer exPool2 ⟨0, 5⟩ true = (false, exPool2)) ∧
    (exPool3.page_table_ ⟨0, 0⟩ = some 0 ∧ (exPool3.pages_ 0).pin_count_ ≤ 0 ∧
      UnpinPage LRUReplacer exPool3 ⟨0, 0⟩ true = (false, exPool3)) ∧
    (exPool2.page_table_ ⟨0, 1⟩ = some 1 ∧ 0 < (exPool2.pages_ 1).pin_count_ ∧
      (UnpinPage LRUReplacer exPool2 ⟨0, 1⟩ false).1 = true) :=
  ⟨⟨by decide, (UnpinPage_spec LRUReplacer exPool2 ⟨0, 5⟩ true).1 (by decide)⟩,
    ⟨by decide, by decide,
      (UnpinPage_spec LRUReplacer exPool3 ⟨0, 0⟩ true).2.1 0 (by decide) (by decide)⟩,
    ⟨by decide, by decide,
      ((UnpinPage_spec LRUReplacer exPool2 ⟨0, 1⟩ false).2.2 1 (by decide) (by decide)).1⟩⟩

/-- C6: the dirty flag is sticky under unpin.  After a successful `UnpinPage (page_id, d)`
(resident, pin count positive) the frame's dirty flag is `old || d`.  For a resident page,
`FetchPage` followed at once by `UnpinPage (page_id, false)` leaves the dirty flag as it was
before the fetch, and, the pin count being non-negative as in the data model, the unpin
succeeds and the pin count is as it was before the fetch. -/
theorem dirty_flag_sticky (c : Config) (R : Replacer ρ) (s : BufferPoolManager ρ)
    (page_id : PageId) (f : Nat) (h : s.page_table_ page_id = some f) :
    (∀ d : Bool, 0 < (s.pages_ f).pin_count_ →
      (UnpinPage R s page_id d).1 = true ∧
      ((UnpinPage R s page_id d).2.pages_ f).is_dirty_ = ((s.pages_ f).is_dirty_ || d)) ∧
    ((UnpinPage R (FetchPage c R s page_id).2 page_id false).2.pages_ f).is_dirty_
      = (s.pages_ f).is_dirty_ ∧
    (0 ≤ (s.pages_ f).pin_count_ →
      (UnpinPage R (FetchPage c R s page_id).2 page_id false).1 = true ∧
      ((UnpinPage R (FetchPage c R s page_id).2 page_id false).2.pages_ f).pin_count_
        = (s.pages_ f).pin_count_) := by
  refine ⟨?_, ?_, ?_⟩
  · intro d hpin
    have hnot : ¬ (s.pages_ f).pin_count_ ≤ 0 := not_le.mpr hpin
    cases d <;> simp [UnpinPage, h, hnot]
  · by_cases hpin : (s.pages_ f).pin_count_ + 1 ≤ 0
    · simp [UnpinPage, FetchPage, h, hpin]
    · simp [UnpinPage, FetchPage, h, hpin]
  · intro hpin
    have hnot : ¬ (s.pages_ f).pin_count_ + 1 ≤ 0 := by omega
    simp [UnpinPage, FetchPage, h, hnot]

/-- Instance of `dirty_flag_sticky`: page (0,0) of `exPool1` is resident, clean and pinned
once. -/
theorem dirty_flag_sticky_witness :
    exPool1.page_table_ ⟨0, 0⟩ = some 0 ∧ 0 < (exPool1.pages_ 0).pin_count_ ∧
    ((UnpinPage LRUReplacer exPool1 ⟨0, 0⟩ true).2.pages_ 0).is_dirty_
      = ((exPool1.pages_ 0).is_dirty_ || true) ∧
    ((UnpinPage LRUReplacer (FetchPage exConfig LRUReplacer exPool1 ⟨0, 0⟩).2
      ⟨0, 0⟩ false).2.pages_ 0).pin_count_ = (exPool1.pages_ 0).pin_count_ :=
  ⟨by decide, by decide,
    ((dirty_flag_sticky exConfig LRUReplacer exPool1 ⟨0, 0⟩ 0 (by decide)).1 true
      (by decide)).2,
    ((dirty_flag_sticky exConfig LRUReplacer exPool1 ⟨0, 0⟩ 0 (by decide)).2.2
      (by decide)).2⟩

/-- C7: when `FindVictimPage` hands out frame `f` and the page in `f` is dirty, then after
`FetchPage` of an identity that is not in the page table, and after `NewPage`, frame `f` is
the frame returned, the disk holds at the old identity of `f` exactly the bytes the buffer
of `f` had before the call, and the dirty flag of `f` is false. -/
theorem dirty_victim_written_back (c : Config) (R : Replacer ρ) (s : BufferPoolManager ρ)
    (page_id : PageId) (f : Nat) (hvictim : (FindVictimPage R s).1 = some f)
    (hdirty : (s.pages_ f).is_dirty_ = true) :
    (s.page_table_ page_id = none →
      (FetchPage c R s page_id).1 = some f ∧
      (FetchPage c R s page_id).2.disk_manager_.pages (s.pages_ f).id_ = (s.pages_ f).data_ ∧
      ((FetchPage c R s page_id).2.pages_ f).is_dirty_ = false) ∧
    ((NewPage c R s page_id).1 = some f ∧
      (NewPage c R s page_id).2.2.disk_manager_.pages (s.pages_ f).id_ = (s.pages_ f).data_ ∧
      ((NewPage c R s page_id).2.2.pages_ f).is_dirty_ = false) := by
  have hpages := FindVictimPage_pages R s
  refine ⟨?_, ?_⟩
  · intro hpt
    rw [FetchPage_miss_eq c R s page_id f hpt hvictim]
    refine ⟨rfl, ?_, ?_⟩
    · simp only [UpdatePage_disk_pages, hpages, hdirty, and_self, if_true]
    · simp only [Function.update_same]
      exact (UpdatePage_page c _ f page_id f).2.1
  · rw [NewPage_eq c R s page_id f hvictim]
    refine ⟨rfl, ?_, ?_⟩
    · simp only [UpdatePage_disk_pages, hpages, hdirty, and_self, if_true]
    · simp only [Function.update_same]
      exact (UpdatePage_page c _ f _ f).2.1

/-- Instance of `dirty_victim_written_back`: in `exPool3` the only evictable frame is the
dirty frame 0, whose buffer `[9,9,9,9]` differs from the disk page (0,0). -/
theorem dirty_victim_written_back_witness :
    (FindVictimPage LRUReplacer exPool3).1 = some 0 ∧
    (exPool3.pages_ 0).is_dirty_ = true ∧ exPool3.page_table_ ⟨0, 2⟩ = none ∧
    exPool3.disk_manager_.pages ⟨0, 0⟩ = [1, 2, 3, 4] ∧
    (FetchPage exConfig LRUReplacer exPool3 ⟨0, 2⟩).2.disk_manager_.pages (exPool3.pages_ 0).id_
      = [9, 9, 9, 9] :=
  ⟨by decide, by decide, by decide, by decide,
    ((dirty_victim_written_back exConfig LRUReplacer exPool3 ⟨0, 2⟩ 0 (by decide)
      (by decide)).1 (by decide)).2.1⟩

/-- C8: `FlushPage` returns false and changes neither pool nor disk if `page_id` is not in
the page table.  Otherwise, whatever the pin count, it returns true, the frame's buffer is
written to the disk page of the identity stored in the frame, which is `page_id` when the
page-table entry matches the frame's identity (the page-table invariant of the data model),
the frame's dirty flag is false, and pin counts, buffers, identities, other frames, the
page table, the free list and the page number allocator are unchanged. -/
theorem FlushPage_spec (s : BufferPoolManager ρ) (page_id : PageId) :
    (s.page_table_ page_id = none → FlushPage s page_id = (false, s)) ∧
    (∀ f, s.page_table_ page_id = some f →
      (FlushPage s page_id).1 = true ∧
      (FlushPage s page_id).2.disk_manager_.pages (s.pages_ f).id_ = (s.pages_ f).data_ ∧
      ((s.pages_ f).id_ = page_id →
        (FlushPage s page_id).2.disk_manager_.pages page_id
          = ((FlushPage s page_id).2.pages_ f).data_) ∧
      ((FlushPage s page_id).2.pages_ f).is_dirty_ = false ∧
      (∀ g, ((FlushPage s page_id).2.pages_ g).pin_count_ = (s.pages_ g).pin_count_) ∧
      (∀ g, ((FlushPage s page_id).2.pages_ g).data_ = (s.pages_ g).data_) ∧
      (∀ g, ((FlushPage s page_id).2.pages_ g).id_ = (s.pages_ g).id_) ∧
      (∀ g, g ≠ f → (FlushPage s page_id).2.pages_ g = s.pages_ g) ∧
      (∀ k, k ≠ (s.pages_ f).id_ →
        (FlushPage s page_id).2.disk_manager_.pages k = s.disk_manager_.pages k) ∧
      (FlushPage s page_id).2.disk_manager_.fd2pageno_ = s.disk_manager_.fd2pageno_ ∧
      (FlushPage s page_id).2.page_table_ = s.page_table_ ∧
      (FlushPage s page_id).2.free_list_ = s.free_list_ ∧
      (FlushPage s page_id).2.replacer_ = s.replacer_) := by
  refine ⟨?_, ?_⟩
  · intro h
    simp [FlushPage, h]
  · intro f h
    simp only [FlushPage, h, Function.update_same, true_and, DiskManager.write_page,
      if_true, and_true]
    refine ⟨?_, ?_, ?_, ?_, ?_, ?_⟩
    · intro hid
      simp [← hid]
    · intro g
      by_cases hg : g = f
      · subst hg; simp
      · simp [Function.update_noteq hg]
    · intro g
      by_cases hg : g = f
      · subst hg; simp
      · simp [Function.update_noteq hg]
    · intro g
      by_cases hg : g = f
      · subst hg; simp
      · simp [Function.update_noteq hg]
    · intro g hg
      exact Function.update_noteq hg _ _
    · intro k hk
      simp [hk]

/-- Instance of `FlushPage_spec`: page (0,5) is not resident in `exPool3`; page (0,0) is
resident in frame 0, dirty, with buffer `[9,9,9,9]` and matching identity. -/
theorem FlushPage_spec_witness :
    (exPool3.page_table_ ⟨0, 5⟩ = none ∧ FlushPage exPool3 ⟨0, 5⟩ = (false, exPool3)) ∧
    (exPool3.page_table_ ⟨0, 0⟩ = some 0 ∧ (exPool3.pages_ 0).id_ = ⟨0, 0⟩ ∧
      (FlushPage exPool3 ⟨0, 0⟩).1 = true ∧
      (FlushPage exPool3 ⟨0, 0⟩).2.disk_manager_.pages ⟨0, 0⟩
        = ((FlushPage exPool3 ⟨0, 0⟩).2.pages_ 0).data_) :=
  ⟨⟨by decide, (FlushPage_spec exPool3 ⟨0, 5⟩).1 (by decide)⟩,
    ⟨by decide, by decide,
      ((FlushPage_spec exPool3 ⟨0, 0⟩).2 0 (by decide)).1,
      ((FlushPage_spec exPool3 ⟨0, 0⟩).2 0 (by decide)).2.2.1 (by decide)⟩⟩

/-- C10: `DeletePage` returns false when `page_id` is resident with a positive pin count,
and true when it is not resident; in both cases the pool (frames, page table, free list,
replacer) and the disk are unchanged. -/
theorem DeletePage_no_effect (c : Config) (s : BufferPoolManager ρ) (page_id : PageId) :
    (∀ f, s.page_table_ page_id = some f → 0 < (s.pages_ f).pin_count_ →
      DeletePage c s page_id = (false, s)) ∧
    (s.page_table_ page_id = none → DeletePage c s page_id = (true, s)) := by
  refine ⟨?_, ?_⟩
  · intro f h hpin
    have hne : (s.pages_ f).pin_count_ ≠ 0 := ne_of_gt hpin
    simp [DeletePage, h, hne]
  · intro h
    simp [DeletePage, h]

/-- Instance of `DeletePage_no_effect`: page (0,1) is pinned in `exPool2`, page (0,5) is
not resident. -/
theorem DeletePage_no_effect_witness :
    (exPool2.page_table_ ⟨0, 1⟩ = some 1 ∧ 0 < (exPool2.pages_ 1).pin_count_ ∧
      DeletePage exConfig exPool2 ⟨0, 1⟩ = (false, exPool2)) ∧
    (exPool2.page_table_ ⟨0, 5⟩ = none ∧ DeletePage exConfig exPool2 ⟨0, 5⟩ = (true, exPool2)) :=
  ⟨⟨by decide, by decide,
      (DeletePage_no_effect exConfig exPool2 ⟨0, 1⟩).1 1 (by decide) (by decide)⟩,
    ⟨by decide, (DeletePage_no_effect exConfig exPool2 ⟨0, 5⟩).2 (by decide)⟩⟩

/-- C3 as stated fails at two inputs.  In `exStale`, reached from the initial pool by
valid calls, (0,0) is not in the page table and the victim, frame 1, still stores (0,0):
after `FetchPage (0,0)` the page table does contain the identity frame 1 held before.
In `exInitNoPage`, `FetchPage (0, INVALID_PAGE_ID)` skips the disk read: the buffer is zero
and differs from what the disk map holds at that key. -/
theorem FetchPage_miss_counterexample :
    (exStale.page_table_ ⟨0, 0⟩ = none ∧
      (FindVictimPage LRUReplacer exStale).1 = some 1 ∧
      (FetchPage exConfig LRUReplacer exStale ⟨0, 0⟩).1 = some 1 ∧
      (FetchPage exConfig LRUReplacer exStale ⟨0, 0⟩).2.page_table_ (exStale.pages_ 1).id_
        ≠ none) ∧
    (exInitNoPage.page_table_ ⟨0, -1⟩ = none ∧
      (FindVictimPage LRUReplacer exInitNoPage).1 = some 0 ∧
      (FetchPage exConfig LRUReplacer exInitNoPage ⟨0, -1⟩).1 = some 0 ∧
      ((FetchPage exConfig LRUReplacer exInitNoPage ⟨0, -1⟩).2.pages_ 0).data_
        ≠ (FetchPage exConfig LRUReplacer exInitNoPage ⟨0, -1⟩).2.disk_manager_.pages
            ⟨0, -1⟩) := by
  decide

/-- C3, amended: for `page_id` not in the page table, when `FindVictimPage` selects frame
`f`, that frame is the front of the free list if the free list is non-empty and otherwise
the frame returned by the Replacer's `Victim`; `FetchPage` returns `f` with stored identity
`page_id`, pin count 1 and dirty flag false; its buffer equals the disk contents of
`page_id` when the page number is not `INVALID_PAGE_ID` and is all zero otherwise (the disk
page is the one on disk before the call unless the victim was dirty and stored `page_id`);
afterwards the page table maps `page_id` to `f`, no longer contains the identity `f` held
before unless that identity is `page_id` itself, and is unchanged at every other key. -/
theorem FetchPage_miss (c : Config) (R : Replacer ρ) (s : BufferPoolManager ρ)
    (page_id : PageId) (f : Nat) (hpt : s.page_table_ page_id = none)
    (hvictim : (FindVictimPage R s).1 = some f) :
    (∀ g rest, s.free_list_ = g :: rest → f = g) ∧
    (s.free_list_ = [] → (R.Victim s.replacer_).1 = some f) ∧
    (FetchPage c R s page_id).1 = some f ∧
    ((FetchPage c R s page_id).2.pages_ f).id_ = page_id ∧
    ((FetchPage c R s page_id).2.pages_ f).pin_count_ = 1 ∧
    ((FetchPage c R s page_id).2.pages_ f).is_dirty_ = false ∧
    (page_id.page_no ≠ c.INVALID_PAGE_ID →
      ((FetchPage c R s page_id).2.pages_ f).data_
        = (FetchPage c R s page_id).2.disk_manager_.pages page_id) ∧
    (page_id.page_no = c.INVALID_PAGE_ID →
      ((FetchPage c R s page_id).2.pages_ f).data_ = List.replicate c.PAGE_SIZE 0) ∧
    (¬ ((s.pages_ f).is_dirty_ = true ∧ (s.pages_ f).id_ = page_id) →
      (FetchPage c R s page_id).2.disk_manager_.pages page_id
        = s.disk_manager_.pages page_id) ∧
    (FetchPage c R s page_id).2.page_table_ page_id = some f ∧
    ((s.pages_ f).id_ ≠ page_id →
      (FetchPage c R s page_id).2.page_table_ (s.pages_ f).id_ = none) ∧
    (∀ k, k ≠ page_id → k ≠ (s.pages_ f).id_ →
      (FetchPage c R s page_id).2.page_table_ k = s.page_table_ k) := by
  have hpages := FindVictimPage_pages R s
  have hdisk := FindVictimPage_disk R s
  have htable := FindVictimPage_page_table R s
  rw [FetchPage_miss_eq c R s page_id f hpt hvictim]
  refine ⟨?_, ?_, rfl, ?_, ?_, ?_, ?_, ?_, ?_, ?_, ?_, ?_⟩
  · intro g rest hfl
    simp [FindVictimPage, hfl] at hvictim
    exact hvictim.symm
  · intro hfl
    simpa [FindVictimPage, hfl] using hvictim
  · simp only [Function.update_same]
    exact (UpdatePage_page c _ f page_id f).1
  · simp
  · simp only [Function.update_same]
    exact (UpdatePage_page c _ f page_id f).2.1
  · intro hvalid
    simp only [Function.update_same]
    rw [(UpdatePage_page c _ f page_id f).2.2.2, if_pos hvalid]
  · intro hinvalid
    simp only [Function.update_same]
    rw [(UpdatePage_page c _ f page_id f).2.2.2]
    simp [hinvalid]
  · intro hclean
    simp only [UpdatePage_disk_pages, hpages, hdisk]
    by_cases hd : (s.pages_ f).is_dirty_ = true
    · have hne : page_id ≠ (s.pages_ f).id_ := fun h => hclean ⟨hd, h.symm⟩
      simp [hne]
    · simp [hd]
  · simp [UpdatePage]
  · intro hne
    simp [UpdatePage, hpages, htable, Page.ResetMemory, clear_dirty_id, hne]
  · intro k hk hk2
    simp [UpdatePage, hpages, htable, Page.ResetMemory, clear_dirty_id, hk, hk2]

/-- Instance of `FetchPage_miss`: fetching (0,1) into `exPool1` takes the free frame 1;
fetching (0,2) into `exPool3` takes the Replacer's victim, frame 0. -/
theorem FetchPage_miss_witness :
    (exPool1.page_table_ ⟨0, 1⟩ = none ∧ (FindVictimPage LRUReplacer exPool1).1 = some 1 ∧
      ((FetchPage exConfig LRUReplacer exPool1 ⟨0, 1⟩).2.pages_ 1).id_ = ⟨0, 1⟩) ∧
    (exPool3.page_table_ ⟨0, 2⟩ = none ∧ (FindVictimPage LRUReplacer exPool3).1 = some 0 ∧
      (exPool3.pages_ 0).id_ ≠ ⟨0, 2⟩ ∧
      (FetchPage exConfig LRUReplacer exPool3 ⟨0, 2⟩).2.page_table_ (exPool3.pages_ 0).id_
        = none) :=
  ⟨⟨by decide, by decide,
      (FetchPage_miss exConfig LRUReplacer exPool1 ⟨0, 1⟩ 1 (by decide) (by decide)).2.2.2.1⟩,
    ⟨by decide, by decide, by decide,
      (FetchPage_miss exConfig LRUReplacer exPool3 ⟨0, 2⟩ 0 (by decide)
        (by decide)).2.2.2.2.2.2.2.2.2.2.1 (by decide)⟩⟩

/-! ### Pinned frames are never victims -/

/-- The LRU replacer meets the Replacer contract, its candidates being the listed frames. -/
theorem LRUReplacer_contract : ReplacerContract LRUReplacer (fun r f => f ∈ r) where
  victim_cand := by
    intro r f h
    simp only [LRUReplacer] at h
    split at h
    · simp at h
    · rename_i g hg
      simp only [Option.some.injEq] at h
      subst h
      exact List.mem_of_getLast?_eq_some hg
  victim_mono := by
    intro r g h
    simp only [LRUReplacer] at h
    split at h
    · exact h
    · exact List.dropLast_subset r h
  pin_cand := by
    intro r f g h
    simpa [LRUReplacer] using h
  unpin_cand := by
    intro r f g h
    simp only [LRUReplacer] at h
    split at h
    · exact Or.inl h
    · rcases List.mem_cons.mp h with h | h
      · exact Or.inr h
      · exact Or.inl h

/-- The initial pool satisfies the pin invariant when the Replacer starts without
candidates. -/
theorem PinInv_init (c : Config) (cand : ρ → Nat → Prop) (pool_size : Nat) (fd0 : Nat → Int)
    (r0 : ρ) (d : DiskManager) (hr0 : ∀ f, ¬ cand r0 f) :
    PinInv cand (BufferPoolManager.init c pool_size fd0 r0 d) where
  free_nodup := List.nodup_range pool_size
  free_unpinned := fun _ _ => le_refl _
  table_not_free := by
    intro k f h
    simp [BufferPoolManager.init] at h
  cand_not_free := fun f h => absurd h (hr0 f)
  cand_unpinned := fun f h => absurd h (hr0 f)

/-- After `FindVictimPage` the pin invariant still holds, and a frame it selects is
unpinned and no longer in the free list. -/
theorem PinInv_FindVictimPage {R : Replacer ρ} {cand : ρ → Nat → Prop}
    (hR : ReplacerContract R cand) (s : BufferPoolManager ρ) (h : PinInv cand s) :
    PinInv cand (FindVictimPage R s).2 ∧
    ∀ f, (FindVictimPage R s).1 = some f →
      (s.pages_ f).pin_count_ ≤ 0 ∧ f ∉ (FindVictimPage R s).2.free_list_ := by
  unfold FindVictimPage
  split
  · rename_i hfl
    refine ⟨⟨?_, ?_, ?_, ?_, ?_⟩, ?_⟩
    · exact h.free_nodup
    · exact h.free_unpinned
    · exact h.table_not_free
    · intro f hf
      exact h.cand_not_free f (hR.victim_mono _ _ hf)
    · intro f hf
      exact h.cand_unpinned f (hR.victim_mono _ _ hf)
    · intro f hf
      have hc := hR.victim_cand _ _ hf
      exact ⟨h.cand_unpinned f hc, h.cand_not_free f hc⟩
  · rename_i g rest hfl
    have hnd := h.free_nodup
    rw [hfl] at hnd
    have hmem : ∀ x, x ∈ rest → x ∈ s.free_list_ := by
      intro x hx
      rw [hfl]
      exact List.mem_cons_of_mem _ hx
    refine ⟨⟨?_, ?_, ?_, ?_, ?_⟩, ?_⟩
    · exact (List.nodup_cons.mp hnd).2
    · intro f hf
      exact h.free_unpinned f (hmem f hf)
    · intro k f hk hf
      exact h.table_not_free k f hk (hmem f hf)
    · intro f hf hf2
      exact h.cand_not_free f hf (hmem f hf2)
    · exact h.cand_unpinned
    · intro f hf
      simp only [Option.some.injEq] at hf
      subst hf
      refine ⟨h.free_unpinned _ ?_, (List.nodup_cons.mp hnd).1⟩
      rw [hfl]
      exact List.mem_cons_self _ _

/-- Pinning frame `f`, which is not in the free list, and pointing page-table entries at it
keeps the pin invariant, whatever happens to frame `f` itself. -/
theorem PinInv_install {R : Replacer ρ} {cand : ρ → Nat → Prop}
    (hR : ReplacerContract R cand) (s s1 : BufferPoolManager ρ) (f : Nat)
    (h : PinInv cand s) (hf : f ∉ s.free_list_)
    (hfree : s1.free_list_ = s.free_list_)
    (hrep : s1.replacer_ = R.Pin s.replacer_ f)
    (hpages : ∀ g, g ≠ f → s1.pages_ g = s.pages_ g)
    (htable : ∀ k g, s1.page_table_ k = some g → g = f ∨ s.page_table_ k = some g) :
    PinInv cand s1 where
  free_nodup := by rw [hfree]; exact h.free_nodup
  free_unpinned := by
    intro g hg
    rw [hfree] at hg
    have hgf : g ≠ f := fun e => hf (e ▸ hg)
    rw [hpages g hgf]
    exact h.free_unpinned g hg
  table_not_free := by
    intro k g hk
    rw [hfree]
    rcases htable k g hk with e | e
    · rw [e]; exact hf
    · exact h.table_not_free k g e
  cand_not_free := by
    intro g hg
    rw [hrep] at hg
    rw [hfree]
    exact h.cand_not_free g (hR.pin_cand _ _ _ hg).1
  cand_unpinned := by
    intro g hg
    rw [hrep] at hg
    have hc := hR.pin_cand _ _ _ hg
    rw [hpages g hc.2]
    exact h.cand_unpinned g hc.1

/-- What `UpdatePage` leaves alone: the free list, the replacer, every frame but `page`, and
the page-table entries that do not point to the new frame. -/
theorem UpdatePage_frame (c : Config) (s : BufferPoolManager ρ) (page : Nat)
    (new_page_id : PageId) (new_frame_id : Nat) :
    (UpdatePage c s page new_page_id new_frame_id).free_list_ = s.free_list_ ∧
    (UpdatePage c s page new_page_id new_frame_id).replacer_ = s.replacer_ ∧
    (∀ g, g ≠ page → (UpdatePage c s page new_page_id new_frame_id).pages_ g = s.pages_ g) ∧
    (∀ k g, (UpdatePage c s page new_page_id new_frame_id).page_table_ k = some g →
      g = new_frame_id ∨ s.page_table_ k = some g) := by
  refine ⟨rfl, rfl, ?_, ?_⟩
  · intro g hg
    simp only [UpdatePage]
    exact Function.update_noteq hg _ _
  · intro k g hk
    simp only [UpdatePage] at hk
    by_cases h1 : k = new_page_id
    · rw [if_pos h1] at hk
      simp only [Option.some.injEq] at hk
      exact Or.inl hk.symm
    · rw [if_neg h1] at hk
      have herase : ∀ q : PageId,
          (if k = q then none else s.page_table_ k) = some g → s.page_table_ k = some g := by
        intro q hq
        split at hq
        · simp at hq
        · exact hq
      exact Or.inr (herase _ hk)

/-- The result of `FetchPage` when the page is not resident and no frame is found. -/
theorem FetchPage_fail_eq (c : Config) (R : Replacer ρ) (s : BufferPoolManager ρ)
    (page_id : PageId) (hpt : s.page_table_ page_id = none)
    (hvictim : (FindVictimPage R s).1 = none) :
    FetchPage c R s page_id = (none, (FindVictimPage R s).2) := by
  unfold FetchPage
  rw [hpt]
  rcases hfind : FindVictimPage R s with ⟨v, s1⟩
  rw [hfind] at hvictim
  simp only at hvictim
  subst hvictim
  rfl

/-- The result of `NewPage` when no frame is found. -/
theorem NewPage_fail_eq (c : Config) (R : Replacer ρ) (s : BufferPoolManager ρ)
    (page_id : PageId) (hvictim : (FindVictimPage R s).1 = none) :
    NewPage c R s page_id = (none, page_id, (FindVictimPage R s).2) := by
  unfold NewPage
  rcases hfind : FindVictimPage R s with ⟨v, s1⟩
  rw [hfind] at hvictim
  simp only at hvictim
  subst hvictim
  rfl

/-- `FetchPage` keeps the pin invariant. -/
theorem PinInv_FetchPage {R : Replacer ρ} {cand : ρ → Nat → Prop}
    (hR : ReplacerContract R cand) (c : Config) (s : BufferPoolManager ρ) (h : PinInv cand s)
    (page_id : PageId) : PinInv cand (FetchPage c R s page_id).2 := by
  cases hpt : s.page_table_ page_id with
  | some f =>
    refine PinInv_install hR s _ f h (h.table_not_free _ _ hpt) ?_ ?_ ?_ ?_
    · simp [FetchPage, hpt]
    · simp [FetchPage, hpt]
    · intro g hg
      simp [FetchPage, hpt, Function.update_noteq hg]
    · intro k g hk
      simp only [FetchPage, hpt] at hk
      exact Or.inr hk
  | none =>
    have hfind := PinInv_FindVictimPage hR s h
    cases hvictim : (FindVictimPage R s).1 with
    | none =>
      rw [FetchPage_fail_eq c R s page_id hpt hvictim]
      exact hfind.1
    | some f =>
      rw [FetchPage_miss_eq c R s page_id f hpt hvictim]
      have hupd := UpdatePage_frame c (FindVictimPage R s).2 f page_id f
      refine PinInv_install hR (FindVictimPage R s).2 _ f hfind.1 (hfind.2 f hvictim).2
        hupd.1 ?_ ?_ hupd.2.2.2
      · simp only [hupd.2.1]
      · intro g hg
        simp only [Function.update_noteq hg]
        exact hupd.2.2.1 g hg

/-- `NewPage` keeps the pin invariant. -/
theorem PinInv_NewPage {R : Replacer ρ} {cand : ρ → Nat → Prop}
    (hR : ReplacerContract R cand) (c : Config) (s : BufferPoolManager ρ) (h : PinInv cand s)
    (page_id : PageId) : PinInv cand (NewPage c R s page_id).2.2 := by
  have hfind := PinInv_FindVictimPage hR s h
  cases hvictim : (FindVictimPage R s).1 with
  | none =>
    rw [NewPage_fail_eq c R s page_id hvictim]
    exact hfind.1
  | some f =>
    rw [NewPage_eq c R s page_id f hvictim]
    have hupd := UpdatePage_frame c { (FindVictimPage R s).2 with
      disk_manager_ := (s.disk_manager_.AllocatePage page_id.fd).2 } f
      { page_id with page_no := s.disk_manager_.fd2pageno_ page_id.fd } f
    refine PinInv_install hR (FindVictimPage R s).2 _ f hfind.1 (hfind.2 f hvictim).2
      hupd.1 rfl ?_ hupd.2.2.2
    intro g hg
    simp only [Function.update_noteq hg]
    exact hupd.2.2.1 g hg

/-- `UnpinPage` keeps the pin invariant. -/
theorem PinInv_UnpinPage {R : Replacer ρ} {cand : ρ → Nat → Prop}
    (hR : ReplacerContract R cand) (s : BufferPoolManager ρ) (h : PinInv cand s)
    (page_id : PageId) (is_dirty : Bool) : PinInv cand (UnpinPage R s page_id is_dirty).2 := by
  cases hpt : s.page_table_ page_id with
  | none => simpa [UnpinPage, hpt] using h
  | some f =>
    by_cases hpin : (s.pages_ f).pin_count_ ≤ 0
    · simpa [UnpinPage, hpt, hpin] using h
    · have hf : f ∉ s.free_list_ := h.table_not_free _ _ hpt
      simp only [UnpinPage, hpt, hpin, if_false]
      refine ⟨h.free_nodup, ?_, h.table_not_free, ?_, ?_⟩
      · intro g hg
        have hgf : g ≠ f := fun e => hf (e ▸ hg)
        simp only [Function.update_noteq hgf]
        exact h.free_unpinned g hg
      · intro g hg
        simp only at hg
        split at hg
        · rcases hR.unpin_cand _ _ _ hg with e | e
          · exact h.cand_not_free g e
          · rw [e]; exact hf
        · exact h.cand_not_free g hg
      · intro g hg
        simp only at hg
        by_cases hgf : g = f
        · subst hgf
          simp only [Function.update_same]
          split at hg
          · rename_i hzero
            rw [hzero]
          · exact absurd (h.cand_unpinned g hg) hpin
        · simp only [Function.update_noteq hgf]
          split at hg
          · rcases hR.unpin_cand _ _ _ hg with e | e
            · exact h.cand_unpinned g e
            · exact absurd e hgf
          · exact h.cand_unpinned g hg

/-- The pin invariant holds after every sequence of `FetchPage`, `NewPage` and `UnpinPage`
calls. -/
theorem PinInv_run {R : Replacer ρ} {cand : ρ → Nat → Prop} (hR : ReplacerContract R cand)
    (c : Config) (ops : List PoolOp) (hops : ∀ op, op ∈ ops → op.pins = true)
    (s : BufferPoolManager ρ) (h : PinInv cand s) : PinInv cand (run c R s ops) := by
  induction ops generalizing s with
  | nil => exact h
  | cons op ops ih =>
    have hop := hops op (List.mem_cons_self _ _)
    have hrest : ∀ o, o ∈ ops → o.pins = true := fun o ho => hops o (List.mem_cons_of_mem _ ho)
    simp only [run]
    apply ih hrest
    cases op with
    | FetchPage page_id => exact PinInv_FetchPage hR c s h page_id
    | NewPage page_id => exact PinInv_NewPage hR c s h page_id
    | UnpinPage page_id is_dirty => exact PinInv_UnpinPage hR s h page_id is_dirty
    | FlushPage page_id => simp [PoolOp.pins] at hop
    | DeletePage page_id => simp [PoolOp.pins] at hop
    | FlushAllPages fd => simp [PoolOp.pins] at hop

/-- Under the pin invariant a pinned frame is not selected by `FindVictimPage`; `FetchPage`
returns it only for a resident page, `NewPage` never returns it, and both leave its identity
and buffer unchanged. -/
theorem PinInv_keeps_pinned {R : Replacer ρ} {cand : ρ → Nat → Prop}
    (hR : ReplacerContract R cand) (c : Config) (s : BufferPoolManager ρ) (h : PinInv cand s)
    (g : Nat) (hpinned : 0 < (s.pages_ g).pin_count_) :
    (FindVictimPage R s).1 ≠ some g ∧
    (∀ page_id,
      ((FetchPage c R s page_id).1 = some g → s.page_table_ page_id = some g) ∧
      ((FetchPage c R s page_id).2.pages_ g).id_ = (s.pages_ g).id_ ∧
      ((FetchPage c R s page_id).2.pages_ g).data_ = (s.pages_ g).data_) ∧
    (∀ page_id,
      (NewPage c R s page_id).1 ≠ some g ∧
      ((NewPage c R s page_id).2.2.pages_ g).id_ = (s.pages_ g).id_ ∧
      ((NewPage c R s page_id).2.2.pages_ g).data_ = (s.pages_ g).data_) := by
  have hfind := PinInv_FindVictimPage hR s h
  have hpages := FindVictimPage_pages R s
  have hvg : (FindVictimPage R s).1 ≠ some g := by
    intro hv
    have := (hfind.2 g hv).1
    omega
  refine ⟨hvg, ?_, ?_⟩
  · intro page_id
    cases hpt : s.page_table_ page_id with
    | some f =>
      by_cases hgf : g = f
      · subst hgf
        simp [FetchPage, hpt]
      · have hfg : ¬ f = g := fun e => hgf e.symm
        simp [FetchPage, hpt, Function.update_noteq hgf, hfg]
    | none =>
      cases hvictim : (FindVictimPage R s).1 with
      | none =>
        rw [FetchPage_fail_eq c R s page_id hpt hvictim, hpages]
        simp
      | some f =>
        have hgf : g ≠ f := fun e => hvg (e ▸ hvictim)
        have hfg : ¬ f = g := fun e => hgf e.symm
        rw [FetchPage_miss_eq c R s page_id f hpt hvictim]
        simp only [Function.update_noteq hgf]
        rw [(UpdatePage_frame c (FindVictimPage R s).2 f page_id f).2.2.1 g hgf, hpages]
        simp [hfg]
  · intro page_id
    cases hvictim : (FindVictimPage R s).1 with
    | none =>
      rw [NewPage_fail_eq c R s page_id hvictim, hpages]
      simp
    | some f =>
      have hgf : g ≠ f := fun e => hvg (e ▸ hvictim)
      have hfg : ¬ f = g := fun e => hgf e.symm
      rw [NewPage_eq c R s page_id f hvictim]
      simp only [Function.update_noteq hgf]
      rw [(UpdatePage_frame c _ f _ f).2.2.1 g hgf]
      simp [hpages, hfg]

/-- C1: let the Replacer meet its contract (`Victim` only returns frames that were
unpinned and not pinned since), starting without candidates.  In every state reached from
the initial pool by a sequence of `FetchPage`, `NewPage` and `UnpinPage` calls (on any page
numbers), a frame with pin count > 0 is not chosen by `FindVictimPage`: `FetchPage` returns
it only when the requested identity is mapped to it by the page table, `NewPage` never
returns it, and `FetchPage` and `NewPage` of any identity leave the identity and the buffer
of that frame unchanged. -/
theorem pinned_frame_never_victim {R : Replacer ρ} {cand : ρ → Nat → Prop}
    (hR : ReplacerContract R cand) (c : Config) (pool_size : Nat) (fd0 : Nat → Int) (r0 : ρ)
    (d : DiskManager) (hr0 : ∀ f, ¬ cand r0 f) (ops : List PoolOp)
    (hops : ∀ op, op ∈ ops → op.pins = true) (s : BufferPoolManager ρ)
    (hs : s = run c R (BufferPoolManager.init c pool_size fd0 r0 d) ops) (g : Nat)
    (hpinned : 0 < (s.pages_ g).pin_count_) :
    (FindVictimPage R s).1 ≠ some g ∧
    (∀ page_id,
      ((FetchPage c R s page_id).1 = some g → s.page_table_ page_id = some g) ∧
      ((FetchPage c R s page_id).2.pages_ g).id_ = (s.pages_ g).id_ ∧
      ((FetchPage c R s page_id).2.pages_ g).data_ = (s.pages_ g).data_) ∧
    (∀ page_id,
      (NewPage c R s page_id).1 ≠ some g ∧
      ((NewPage c R s page_id).2.2.pages_ g).id_ = (s.pages_ g).id_ ∧
      ((NewPage c R s page_id).2.2.pages_ g).data_ = (s.pages_ g).data_) := by
  have h : PinInv cand s := by
    rw [hs]
    exact PinInv_run hR c ops hops _ (PinInv_init c cand pool_size fd0 r0 d hr0)
  exact PinInv_keeps_pinned hR c s h g hpinned

/-- Instance of `pinned_frame_never_victim`: after fetching (0,0) and (0,1) and unpinning
(0,0), frame 1 is pinned; `FetchPage (0,2)` evicts frame 0 and leaves frame 1 alone. -/
theorem pinned_frame_never_victim_witness :
    (∀ f, ¬ f ∈ ([] : List Nat)) ∧
    (∀ op, op ∈ [PoolOp.FetchPage ⟨0, 0⟩, .FetchPage ⟨0, 1⟩, .UnpinPage ⟨0, 0⟩ false] →
      op.pins = true) ∧
    0 < ((run exConfig LRUReplacer exInit
      [.FetchPage ⟨0, 0⟩, .FetchPage ⟨0, 1⟩, .UnpinPage ⟨0, 0⟩ false]).pages_ 1).pin_count_ ∧
    (FindVictimPage LRUReplacer (run exConfig LRUReplacer exInit
      [.FetchPage ⟨0, 0⟩, .FetchPage ⟨0, 1⟩, .UnpinPage ⟨0, 0⟩ false])).1 ≠ some 1 :=
  ⟨by simp, by decide, by decide,
    (pinned_frame_never_victim LRUReplacer_contract exConfig 2 (fun _ => 0) [] exDisk
      (by simp) [.FetchPage ⟨0, 0⟩, .FetchPage ⟨0, 1⟩, .UnpinPage ⟨0, 0⟩ false] (by decide)
      _ rfl 1 (by decide)).1⟩

/-! ### Flush, evict, fetch -/

/-- Every disk state comes after itself. -/
theorem after_refl (d : DiskManager) : d.after d :=
  ⟨[], rfl, fun _ _ => rfl⟩

/-- Coming after is transitive. -/
theorem after_trans {d0 d1 d2 : DiskManager} (h1 : d0.after d1) (h2 : d1.after d2) :
    d0.after d2 := by
  obtain ⟨delta1, hc1, hp1⟩ := h1
  obtain ⟨delta2, hc2, hp2⟩ := h2
  refine ⟨delta2 ++ delta1, ?_, ?_⟩
  · rw [hc2, hc1, List.append_assoc]
  · intro k hk
    have hk1 : DiskCall.write k.fd k.page_no ∉ delta1 := fun h =>
      hk (List.mem_append_right _ h)
    have hk2 : DiskCall.write k.fd k.page_no ∉ delta2 := fun h =>
      hk (List.mem_append_left _ h)
    rw [hp2 k hk2, hp1 k hk1]

/-- A write is recorded, and changes only the page written. -/
theorem after_write_page (d : DiskManager) (fd page_no : Int) (buf : List Nat) :
    d.after (d.write_page fd page_no buf) := by
  refine ⟨[DiskCall.write fd page_no], rfl, ?_⟩
  intro k hk
  have hne : k ≠ ⟨fd, page_no⟩ := by
    intro e
    apply hk
    rw [e]
    exact List.mem_singleton_self _
  simp [DiskManager.write_page, hne]

/-- A read is recorded, and changes no page. -/
theorem after_read_page (d : DiskManager) (fd page_no : Int) :
    d.after (d.read_page fd page_no).2 :=
  ⟨[DiskCall.read fd page_no], rfl, fun _ _ => rfl⟩

/-- When `d1` comes after `d0`, a page with no write among the calls since `d0` is
unchanged. -/
theorem after_callsSince {d0 d1 : DiskManager} (h : d0.after d1) (k : PageId)
    (hk : DiskCall.write k.fd k.page_no ∉ d0.callsSince d1) : d1.pages k = d0.pages k := by
  obtain ⟨delta, hc, hp⟩ := h
  apply hp
  have hdelta : d0.callsSince d1 = delta := by
    unfold DiskManager.callsSince
    rw [hc]
    exact List.take_left' (by simp)
  rw [← hdelta]
  exact hk

/-- The disk after `UpdatePage` comes after the disk before. -/
theorem UpdatePage_after (c : Config) (s : BufferPoolManager ρ) (page : Nat)
    (new_page_id : PageId) (new_frame_id : Nat) :
    s.disk_manager_.after (UpdatePage c s page new_page_id new_frame_id).disk_manager_ := by
  simp only [UpdatePage]
  have hwrite : s.disk_manager_.after
      (if (s.pages_ page).is_dirty_ = true then
        s.disk_manager_.write_page (s.pages_ page).id_.fd (s.pages_ page).id_.page_no
          (s.pages_ page).data_
      else s.disk_manager_) := by
    split
    · exact after_write_page _ _ _ _
    · exact after_refl _
  split
  · exact after_trans hwrite (after_read_page _ _ _)
  · exact hwrite

/-- The disk after the loop of `FlushAllPages` comes after the disk before. -/
theorem FlushAllPages_after (c : Config) (fd : Int) (frames : List Nat)
    (s : BufferPoolManager ρ) :
    s.disk_manager_.after
      (frames.foldl
        (fun st i =>
          let page := st.pages_ i
          if page.id_.fd = fd ∧ page.id_.page_no ≠ c.INVALID_PAGE_ID then
            let disk1 := st.disk_manager_.write_page page.id_.fd page.id_.page_no page.data_
            let page1 : Page := { page with is_dirty_ := false }
            { st with disk_manager_ := disk1, pages_ := Function.update st.pages_ i page1 }
          else st)
        s).disk_manager_ := by
  induction frames generalizing s with
  | nil => exact after_refl _
  | cons i frames ih =>
    simp only [List.foldl_cons]
    refine after_trans ?_ (ih _)
    split
    · exact after_write_page _ _ _ _
    · exact after_refl _

/-- The disk after any call of the pool comes after the disk before. -/
theorem step_after (c : Config) (R : Replacer ρ) (s : BufferPoolManager ρ) (op : PoolOp) :
    s.disk_manager_.after (step c R s op).disk_manager_ := by
  have hfind := FindVictimPage_disk R s
  cases op with
  | FetchPage page_id =>
    simp only [step]
    cases hpt : s.page_table_ page_id with
    | some f =>
      simp only [FetchPage, hpt]
      exact after_refl _
    | none =>
      cases hvictim : (FindVictimPage R s).1 with
      | none =>
        rw [FetchPage_fail_eq c R s page_id hpt hvictim, hfind]
        exact after_refl _
      | some f =>
        rw [FetchPage_miss_eq c R s page_id f hpt hvictim]
        have h := UpdatePage_after c (FindVictimPage R s).2 f page_id f
        rw [hfind] at h
        exact h
  | NewPage page_id =>
    simp only [step]
    cases hvictim : (FindVictimPage R s).1 with
    | none =>
      rw [NewPage_fail_eq c R s page_id hvictim, hfind]
      exact after_refl _
    | some f =>
      rw [NewPage_eq c R s page_id f hvictim]
      have halloc : s.disk_manager_.after (s.disk_manager_.AllocatePage page_id.fd).2 :=
        ⟨[], rfl, fun _ _ => rfl⟩
      exact after_trans halloc (UpdatePage_after c _ f _ f)
  | UnpinPage page_id is_dirty =>
    simp only [step, UnpinPage]
    split
    · exact after_refl _
    · split
      · exact after_refl _
      · exact after_refl _
  | FlushPage page_id =>
    simp only [step, FlushPage]
    split
    · exact after_refl _
    · exact after_write_page _ _ _ _
  | DeletePage page_id =>
    simp only [step, DeletePage]
    split
    · exact after_refl _
    · split
      · exact after_refl _
      · rename_i f _ _
        exact UpdatePage_after c
          { s with disk_manager_ := s.disk_manager_.DeallocatePage (s.pages_ f).id_.page_no }
          f { page_id with page_no := c.INVALID_PAGE_ID } f
  | FlushAllPages fd =>
    simp only [step, FlushAllPages]
    exact FlushAllPages_after c fd _ s

/-- The disk after a sequence of calls comes after the disk before. -/
theorem run_after (c : Config) (R : Replacer ρ) (ops : List PoolOp) (s : BufferPoolManager ρ) :
    s.disk_manager_.after (run c R s ops).disk_manager_ := by
  induction ops generalizing s with
  | nil => exact after_refl _
  | cons op ops ih =>
    simp only [run]
    exact after_trans (step_after c R s op) (ih _)

/-- C9: let `page_id`, with a page number other than `INVALID_PAGE_ID`, be resident in frame
`f` (whose stored identity is `page_id`, as the page-table invariant says) with buffer `B`.
After `FlushPage page_id` and any sequence of calls that ends with `page_id` out of the page
table, consider a `FetchPage page_id` that finds a frame.  If the disk manager has served no
write to the disk page of `page_id` since the flush (by a call of the sequence or by the
write-back of the victim of this fetch), the page returned has buffer exactly `B`. -/
theorem flush_evict_fetch_roundtrip (c : Config) (R : Replacer ρ) (s : BufferPoolManager ρ)
    (page_id : PageId) (f : Nat) (B : List Nat)
    (hpt : s.page_table_ page_id = some f) (hid : (s.pages_ f).id_ = page_id)
    (hB : (s.pages_ f).data_ = B) (hvalid : page_id.page_no ≠ c.INVALID_PAGE_ID)
    (ops : List PoolOp) (s2 : BufferPoolManager ρ)
    (hs2 : s2 = run c R (FlushPage s page_id).2 ops)
    (hevicted : s2.page_table_ page_id = none)
    (f2 : Nat) (hvictim : (FindVictimPage R s2).1 = some f2)
    (hquiet : DiskCall.write page_id.fd page_id.page_no ∉
      (FlushPage s page_id).2.disk_manager_.callsSince
        (FetchPage c R s2 page_id).2.disk_manager_) :
    (FetchPage c R s2 page_id).1 = some f2 ∧
    ((FetchPage c R s2 page_id).2.pages_ f2).data_ = B := by
  have hflush : (FlushPage s page_id).2.disk_manager_.pages page_id = B := by
    simp [FlushPage, hpt, DiskManager.write_page, hid, hB]
  have hafter : (FlushPage s page_id).2.disk_manager_.after
      (FetchPage c R s2 page_id).2.disk_manager_ := by
    have h1 := run_after c R ops (FlushPage s page_id).2
    rw [← hs2] at h1
    exact after_trans h1 (step_after c R s2 (.FetchPage page_id))
  have hread : ((FetchPage c R s2 page_id).2.pages_ f2).data_
      = (FetchPage c R s2 page_id).2.disk_manager_.pages page_id := by
    rw [FetchPage_miss_eq c R s2 page_id f2 hevicted hvictim]
    simp only [Function.update_same]
    rw [(UpdatePage_page c _ f2 page_id f2).2.2.2, if_pos hvalid]
  refine ⟨?_, ?_⟩
  · rw [FetchPage_miss_eq c R s2 page_id f2 hevicted hvictim]
  · rw [hread, after_callsSince hafter page_id hquiet, hflush]

/-- Instance of `flush_evict_fetch_roundtrip`: in `exPool2w` page (0,0) sits in frame 0 with
buffer `[9,9,9,9]` while the disk holds `[1,2,3,4]`.  It is flushed and unpinned, frame 0 is
evicted by `FetchPage (0,2)`, which is unpinned in turn; fetching (0,0) again returns
`[9,9,9,9]`. -/
theorem flush_evict_fetch_roundtrip_witness :
    exPool2w.page_table_ ⟨0, 0⟩ = some 0 ∧ (exPool2w.pages_ 0).id_ = ⟨0, 0⟩ ∧
    exPool2w.disk_manager_.pages ⟨0, 0⟩ = [1, 2, 3, 4] ∧
    (run exConfig LRUReplacer (FlushPage exPool2w ⟨0, 0⟩).2
      [.UnpinPage ⟨0, 0⟩ false, .FetchPage ⟨0, 2⟩, .UnpinPage ⟨0, 2⟩ false]).page_table_ ⟨0, 0⟩
      = none ∧
    (FlushPage exPool2w ⟨0, 0⟩).2.disk_manager_.callsSince
      (FetchPage exConfig LRUReplacer (run exConfig LRUReplacer (FlushPage exPool2w ⟨0, 0⟩).2
        [.UnpinPage ⟨0, 0⟩ false, .FetchPage ⟨0, 2⟩, .UnpinPage ⟨0, 2⟩ false])
        ⟨0, 0⟩).2.disk_manager_ = [.read 0 0, .read 0 2] ∧
    ((FetchPage exConfig LRUReplacer (run exConfig LRUReplacer (FlushPage exPool2w ⟨0, 0⟩).2
      [.UnpinPage ⟨0, 0⟩ false, .FetchPage ⟨0, 2⟩, .UnpinPage ⟨0, 2⟩ false]) ⟨0, 0⟩).2.pages_
        0).data_ = [9, 9, 9, 9] :=
  ⟨by decide, by decide, by decide, by decide, by decide,
    (flush_evict_fetch_roundtrip exConfig LRUReplacer exPool2w ⟨0, 0⟩ 0 [9, 9, 9, 9]
      (by decide) (by decide) (by decide) (by decide)
      [.UnpinPage ⟨0, 0⟩ false, .FetchPage ⟨0, 2⟩, .UnpinPage ⟨0, 2⟩ false]
      _ rfl (by decide) 0 (by decide) (by decide)).2⟩

/-! ### DeletePage of an unpinned page, NewPage -/

/-- The result of `DeletePage` for a resident page with pin count 0. -/
theorem DeletePage_eq (c : Config) (s : BufferPoolManager ρ) (page_id : PageId) (f : Nat)
    (hpt : s.page_table_ page_id = some f) (hpin : (s.pages_ f).pin_count_ = 0) :
    DeletePage c s page_id =
      (true,
        { UpdatePage c s f { page_id with page_no := c.INVALID_PAGE_ID } f with
          free_list_ := s.free_list_ ++ [f] }) := by
  simp only [DeletePage, hpt, hpin, ne_eq, not_true_eq_false, if_false]
  rfl

/-- C11, what the code does: for `page_id` resident in frame `f` with pin count 0,
`DeletePage` returns true; afterwards `f` is appended at the back of the free list, its
buffer is `PAGE_SIZE` zero bytes, its pin count is 0 and its dirty flag false.  A `page_id`
with a page number other than `INVALID_PAGE_ID` (in a frame whose stored identity is
`page_id`, as the page-table invariant says) is not in the page table afterwards.  A
`page_id` with the page number `INVALID_PAGE_ID` is still in the page table afterwards, with
the frame `f`: `UpdatePage` enters the identity it is given. -/
theorem DeletePage_unpinned (c : Config) (s : BufferPoolManager ρ) (page_id : PageId)
    (f : Nat) (hpt : s.page_table_ page_id = some f) (hpin : (s.pages_ f).pin_count_ = 0) :
    (DeletePage c s page_id).1 = true ∧
    (DeletePage c s page_id).2.free_list_ = s.free_list_ ++ [f] ∧
    ((DeletePage c s page_id).2.pages_ f).data_ = List.replicate c.PAGE_SIZE 0 ∧
    ((DeletePage c s page_id).2.pages_ f).pin_count_ = 0 ∧
    ((DeletePage c s page_id).2.pages_ f).is_dirty_ = false ∧
    ((s.pages_ f).id_ = page_id → page_id.page_no ≠ c.INVALID_PAGE_ID →
      (DeletePage c s page_id).2.page_table_ page_id = none) ∧
    (page_id.page_no = c.INVALID_PAGE_ID →
      (DeletePage c s page_id).2.page_table_ page_id = some f) := by
  rw [DeletePage_eq c s page_id f hpt hpin]
  have hpage := UpdatePage_page c s f { page_id with page_no := c.INVALID_PAGE_ID } f
  refine ⟨rfl, rfl, ?_, ?_, hpage.2.1, ?_, ?_⟩
  · have h := hpage.2.2.2
    simp only [ne_eq, not_true_eq_false, if_false] at h
    exact h
  · have h := hpage.2.2.1
    simp only at h ⊢
    rw [h, hpin]
  · intro hid hvalid
    have hne : page_id ≠ { page_id with page_no := c.INVALID_PAGE_ID } := by
      intro e
      apply hvalid
      rw [e]
    simp only [UpdatePage, Page.ResetMemory, clear_dirty_id]
    rw [if_neg hne, hid, if_pos rfl]
  · intro hinvalid
    have he : page_id = { page_id with page_no := c.INVALID_PAGE_ID } := by
      rw [← hinvalid]
    simp only [UpdatePage, Page.ResetMemory, clear_dirty_id]
    rw [if_pos he]

/-- C11 at two pools.  In `exPool3` page (0,0) is in frame 0, unpinned and dirty:
`DeletePage (0,0)` returns true and (0,0) leaves the page table.  In `exDeleted`, the pool
after `NewPage`, `UnpinPage` and `DeletePage (0,0)`, the identity `(0, INVALID_PAGE_ID)` is
resident in frame 0 with pin count 0 and frame 0 is in the free list `[1, 0]`:
`DeletePage (0, INVALID_PAGE_ID)` returns true, the identity is still in the page table, and
frame 0 is in the free list twice. -/
theorem DeletePage_unpinned_witness :
    (exPool3.page_table_ ⟨0, 0⟩ = some 0 ∧ (exPool3.pages_ 0).pin_count_ = 0 ∧
      (exPool3.pages_ 0).id_ = ⟨0, 0⟩ ∧ (DeletePage exConfig exPool3 ⟨0, 0⟩).1 = true ∧
      (DeletePage exConfig exPool3 ⟨0, 0⟩).2.page_table_ ⟨0, 0⟩ = none) ∧
    (exDeleted.page_table_ ⟨0, -1⟩ = some 0 ∧ (exDeleted.pages_ 0).pin_count_ = 0 ∧
      (exDeleted.pages_ 0).id_ = ⟨0, -1⟩ ∧ exDeleted.free_list_ = [1, 0] ∧
      (DeletePage exConfig exDeleted ⟨0, -1⟩).1 = true ∧
      (DeletePage exConfig exDeleted ⟨0, -1⟩).2.page_table_ ⟨0, -1⟩ = some 0 ∧
      (DeletePage exConfig exDeleted ⟨0, -1⟩).2.page_table_ ⟨0, -1⟩ ≠ none ∧
      (DeletePage exConfig exDeleted ⟨0, -1⟩).2.free_list_ = [1, 0, 0]) :=
  ⟨⟨by decide, by decide, by decide,
      (DeletePage_unpinned exConfig exPool3 ⟨0, 0⟩ 0 (by decide) (by decide)).1,
      (DeletePage_unpinned exConfig exPool3 ⟨0, 0⟩ 0 (by decide) (by decide)).2.2.2.2.2.1
        (by decide) (by decide)⟩,
    ⟨by decide, by decide, by decide, by decide,
      (DeletePage_unpinned exConfig exDeleted ⟨0, -1⟩ 0 (by decide) (by decide)).1,
      (DeletePage_unpinned exConfig exDeleted ⟨0, -1⟩ 0 (by decide) (by decide)).2.2.2.2.2.2
        (by decide),
      by decide, by decide⟩⟩

/-- `FindVictimPage` succeeds whenever the free list is not empty or the Replacer's `Victim`
returns a frame: it finds the front of the free list, or else the Replacer's victim. -/
theorem FindVictimPage_available (R : Replacer ρ) (s : BufferPoolManager ρ)
    (havail : s.free_list_ ≠ [] ∨ (R.Victim s.replacer_).1 ≠ none) :
    ∃ f, (FindVictimPage R s).1 = some f ∧
      (s.free_list_.head? = some f ∨
        (s.free_list_ = [] ∧ (R.Victim s.replacer_).1 = some f)) := by
  rcases hfree : s.free_list_ with _ | ⟨g, rest⟩
  · rcases havail with h | h
    · exact absurd hfree h
    · obtain ⟨f, hf⟩ := Option.ne_none_iff_exists'.mp h
      refine ⟨f, ?_, Or.inr ⟨rfl, hf⟩⟩
      simp only [FindVictimPage, hfree]
      exact hf
  · refine ⟨g, ?_, Or.inl rfl⟩
    simp only [FindVictimPage, hfree]

/-- What `NewPage` does with the frame `f` that `FindVictimPage` finds: the page number comes
from the allocator of `page_id.fd`, which advances by exactly one. -/
theorem NewPage_of_victim (c : Config) (R : Replacer ρ) (s : BufferPoolManager ρ)
    (page_id : PageId) (f : Nat) (hvictim : (FindVictimPage R s).1 = some f) :
    (NewPage c R s page_id).1 = some f ∧
    (NewPage c R s page_id).2.1 = ⟨page_id.fd, s.disk_manager_.fd2pageno_ page_id.fd⟩ ∧
    (NewPage c R s page_id).2.2.disk_manager_.fd2pageno_ page_id.fd
      = s.disk_manager_.fd2pageno_ page_id.fd + 1 ∧
    (∀ fd, fd ≠ page_id.fd →
      (NewPage c R s page_id).2.2.disk_manager_.fd2pageno_ fd = s.disk_manager_.fd2pageno_ fd) ∧
    ((NewPage c R s page_id).2.2.pages_ f).id_
      = ⟨page_id.fd, s.disk_manager_.fd2pageno_ page_id.fd⟩ ∧
    ((NewPage c R s page_id).2.2.pages_ f).pin_count_ = 1 ∧
    (NewPage c R s page_id).2.2.page_table_
      ⟨page_id.fd, s.disk_manager_.fd2pageno_ page_id.fd⟩ = some f := by
  rw [NewPage_eq c R s page_id f hvictim]
  refine ⟨rfl, rfl, ?_, ?_, ?_, ?_, ?_⟩
  · simp only [UpdatePage, DiskManager.AllocatePage, DiskManager.write_page,
      DiskManager.read_page]
    split <;> split <;> simp
  · intro fd hfd
    simp only [UpdatePage, DiskManager.AllocatePage, DiskManager.write_page,
      DiskManager.read_page]
    split <;> split <;> simp [hfd]
  · simp only [Function.update_same]
    exact (UpdatePage_page c _ f _ f).1
  · simp
  · simp [UpdatePage]

/-- C13: whenever a free frame exists (the free list is not empty) or an evictable frame
exists (the Replacer's `Victim` returns a frame), `NewPage` returns a frame `f`: the front of
the free list, or else the Replacer's victim.  It takes the page number `p` from the
allocator of `page_id.fd`, which it advances by exactly one (no other counter changes),
writes `p` into `*page_id`, and the returned frame `f` has stored identity `(fd, p)` and pin
count 1; the page table maps `(fd, p)` to `f`. -/
theorem NewPage_allocates (c : Config) (R : Replacer ρ) (s : BufferPoolManager ρ)
    (page_id : PageId)
    (havail : s.free_list_ ≠ [] ∨ (R.Victim s.replacer_).1 ≠ none) :
    ∃ f, (s.free_list_.head? = some f ∨
        (s.free_list_ = [] ∧ (R.Victim s.replacer_).1 = some f)) ∧
      (NewPage c R s page_id).1 = some f ∧
      (NewPage c R s page_id).2.1 = ⟨page_id.fd, s.disk_manager_.fd2pageno_ page_id.fd⟩ ∧
      (NewPage c R s page_id).2.2.disk_manager_.fd2pageno_ page_id.fd
        = s.disk_manager_.fd2pageno_ page_id.fd + 1 ∧
      (∀ fd, fd ≠ page_id.fd →
        (NewPage c R s page_id).2.2.disk_manager_.fd2pageno_ fd
          = s.disk_manager_.fd2pageno_ fd) ∧
      ((NewPage c R s page_id).2.2.pages_ f).id_
        = ⟨page_id.fd, s.disk_manager_.fd2pageno_ page_id.fd⟩ ∧
      ((NewPage c R s page_id).2.2.pages_ f).pin_count_ = 1 ∧
      (NewPage c R s page_id).2.2.page_table_
        ⟨page_id.fd, s.disk_manager_.fd2pageno_ page_id.fd⟩ = some f := by
  obtain ⟨f, hvictim, hsource⟩ := FindVictimPage_available R s havail
  exact ⟨f, hsource, NewPage_of_victim c R s page_id f hvictim⟩

/-- Instances of `NewPage_allocates`.  On the initial pool `exInit` the free list is
`[0, 1]`: `NewPage` of file 0 returns frame 0 with page (0,0) and the allocator of file 0
goes from 0 to 1.  In `exPool3` the free list is empty and the LRU replacer holds the
evictable frame 0: `NewPage` returns a frame with pin count 1. -/
theorem NewPage_allocates_witness :
    (exInit.free_list_ ≠ [] ∧
      (∃ f, (NewPage exConfig LRUReplacer exInit ⟨0, -1⟩).1 = some f ∧
        ((NewPage exConfig LRUReplacer exInit ⟨0, -1⟩).2.2.pages_ f).pin_count_ = 1) ∧
      (NewPage exConfig LRUReplacer exInit ⟨0, -1⟩).1 = some 0 ∧
      (NewPage exConfig LRUReplacer exInit ⟨0, -1⟩).2.1 = ⟨0, 0⟩ ∧
      (NewPage exConfig LRUReplacer exInit ⟨0, -1⟩).2.2.disk_manager_.fd2pageno_ 0 = 1) ∧
    (exPool3.free_list_ = [] ∧ (LRUReplacer.Victim exPool3.replacer_).1 ≠ none ∧
      (∃ f, (NewPage exConfig LRUReplacer exPool3 ⟨0, -1⟩).1 = some f ∧
        ((NewPage exConfig LRUReplacer exPool3 ⟨0, -1⟩).2.2.pages_ f).pin_count_ = 1) ∧
      (NewPage exConfig LRUReplacer exPool3 ⟨0, -1⟩).1 = some 0) :=
  ⟨⟨by decide,
      (NewPage_allocates exConfig LRUReplacer exInit ⟨0, -1⟩ (Or.inl (by decide))).imp
        (fun _ h => ⟨h.2.1, h.2.2.2.2.2.2.1⟩),
      by decide, by decide, by decide⟩,
    ⟨by decide, by decide,
      (NewPage_allocates exConfig LRUReplacer exPool3 ⟨0, -1⟩ (Or.inr (by decide))).imp
        (fun _ h => ⟨h.2.1, h.2.2.2.2.2.2.1⟩),
      by decide⟩⟩

/-- C14, the code at the failing input: on the initial pool over a disk whose page (0,0)
holds `[1,2,3,4]`, with the allocator of file 0 at 0, `NewPage` succeeds with page (0,0) in
frame 0, the disk manager has served a read of page (0,0), and the buffer returned is
`[1,2,3,4]`, not `PAGE_SIZE` zero bytes. -/
theorem NewPage_buffer_read_from_disk :
    (NewPage exConfig LRUReplacer exInit ⟨0, -1⟩).1 = some 0 ∧
    (NewPage exConfig LRUReplacer exInit ⟨0, -1⟩).2.1 = ⟨0, 0⟩ ∧
    (NewPage exConfig LRUReplacer exInit ⟨0, -1⟩).2.2.disk_manager_.calls = [.read 0 0] ∧
    ((NewPage exConfig LRUReplacer exInit ⟨0, -1⟩).2.2.pages_ 0).data_ = [1, 2, 3, 4] ∧
    ((NewPage exConfig LRUReplacer exInit ⟨0, -1⟩).2.2.pages_ 0).data_
      ≠ List.replicate exConfig.PAGE_SIZE 0 := by
  decide

/-- C15, the code at the failing input: after `NewPage`, `UnpinPage` and `DeletePage` of
page (0,0), frame 0 is in the free list, and at the same time it is the target of the
page-table entry `(0, INVALID_PAGE_ID)` and still a candidate of the Replacer; the deleted
identity itself is out of the page table and the pin count is 0. -/
theorem DeletePage_frame_free_and_tracked :
    exDeleted.free_list_ = [1, 0] ∧
    exDeleted.page_table_ ⟨0, exConfig.INVALID_PAGE_ID⟩ = some 0 ∧
    0 ∈ exDeleted.replacer_ ∧
    exDeleted.page_table_ ⟨0, 0⟩ = none ∧
    (exDeleted.pages_ 0).pin_count_ = 0 := by
  decide

/-! ### The page-table invariant -/

/-- `FlushAllPages` is the loop body folded over the frames `0 .. pool_size_ - 1`. -/
theorem FlushAllPages_eq (c : Config) (s : BufferPoolManager ρ) (fd : Int) :
    FlushAllPages c s fd = (List.range s.pool_size_).foldl (FlushAllPages_step c fd) s := rfl

/-- The loop body of `FlushAllPages` changes only the dirty flag of frame `i` and the disk. -/
theorem FlushAllPages_step_frame (c : Config) (fd : Int) (st : BufferPoolManager ρ) (i : Nat) :
    (FlushAllPages_step c fd st i).page_table_ = st.page_table_ ∧
    (FlushAllPages_step c fd st i).free_list_ = st.free_list_ ∧
    (FlushAllPages_step c fd st i).replacer_ = st.replacer_ ∧
    (FlushAllPages_step c fd st i).pool_size_ = st.pool_size_ ∧
    (FlushAllPages_step c fd st i).disk_manager_.fd2pageno_ = st.disk_manager_.fd2pageno_ ∧
    (∀ g, (FlushAllPages_step c fd st i).pages_ g =
      if g = i ∧ (st.pages_ g).id_.fd = fd ∧ (st.pages_ g).id_.page_no ≠ c.INVALID_PAGE_ID
      then { st.pages_ g with is_dirty_ := false } else st.pages_ g) := by
  by_cases hm : (st.pages_ i).id_.fd = fd ∧ (st.pages_ i).id_.page_no ≠ c.INVALID_PAGE_ID
  · have h : FlushAllPages_step c fd st i =
        { st with
          disk_manager_ := st.disk_manager_.write_page (st.pages_ i).id_.fd
            (st.pages_ i).id_.page_no (st.pages_ i).data_
          pages_ := Function.update st.pages_ i { st.pages_ i with is_dirty_ := false } } :=
      if_pos hm
    rw [h]
    refine ⟨rfl, rfl, rfl, rfl, rfl, ?_⟩
    intro g
    by_cases hg : g = i
    · subst hg
      simp [hm]
    · simp [hg, Function.update_noteq hg]
  · have h : FlushAllPages_step c fd st i = st := if_neg hm
    rw [h]
    refine ⟨rfl, rfl, rfl, rfl, rfl, ?_⟩
    intro g
    by_cases hg : g = i
    · subst hg
      simp [hm]
    · simp [hg]

/-- The disk after the loop body of `FlushAllPages` for frame `i`. -/
theorem FlushAllPages_step_disk (c : Config) (fd : Int) (st : BufferPoolManager ρ) (i : Nat)
    (k : PageId) :
    (FlushAllPages_step c fd st i).disk_manager_.pages k =
      if ((st.pages_ i).id_.fd = fd ∧ (st.pages_ i).id_.page_no ≠ c.INVALID_PAGE_ID) ∧
        k = (st.pages_ i).id_
      then (st.pages_ i).data_ else st.disk_manager_.pages k := by
  by_cases hm : (st.pages_ i).id_.fd = fd ∧ (st.pages_ i).id_.page_no ≠ c.INVALID_PAGE_ID
  · have h : FlushAllPages_step c fd st i =
        { st with
          disk_manager_ := st.disk_manager_.write_page (st.pages_ i).id_.fd
            (st.pages_ i).id_.page_no (st.pages_ i).data_
          pages_ := Function.update st.pages_ i { st.pages_ i with is_dirty_ := false } } :=
      if_pos hm
    rw [h]
    have hk : (⟨(st.pages_ i).id_.fd, (st.pages_ i).id_.page_no⟩ : PageId) = (st.pages_ i).id_ :=
      rfl
    simp only [DiskManager.write_page, hk]
    by_cases hkk : k = (st.pages_ i).id_
    · rw [if_pos hkk, if_pos ⟨hm, hkk⟩]
    · rw [if_neg hkk, if_neg (fun e => hkk e.2)]
  · have h : FlushAllPages_step c fd st i = st := if_neg hm
    rw [h]
    simp [hm]

/-- The loop of `FlushAllPages` over the frames `0 .. n - 1`: only dirty flags and the disk
change; a frame of file `fd` with a page number is clean afterwards; the disk page of an
identity that no such frame stores is unchanged, and the disk page of an identity stored by
such a frame `f`, and by no frame after `f`, holds the buffer of `f`. -/
theorem FlushAllPages_range (c : Config) (fd : Int) (s : BufferPoolManager ρ) (n : Nat) :
    ((List.range n).foldl (FlushAllPages_step c fd) s).page_table_ = s.page_table_ ∧
    ((List.range n).foldl (FlushAllPages_step c fd) s).free_list_ = s.free_list_ ∧
    ((List.range n).foldl (FlushAllPages_step c fd) s).replacer_ = s.replacer_ ∧
    ((List.range n).foldl (FlushAllPages_step c fd) s).pool_size_ = s.pool_size_ ∧
    ((List.range n).foldl (FlushAllPages_step c fd) s).disk_manager_.fd2pageno_
      = s.disk_manager_.fd2pageno_ ∧
    (∀ g, ((List.range n).foldl (FlushAllPages_step c fd) s).pages_ g =
      if g < n ∧ (s.pages_ g).id_.fd = fd ∧ (s.pages_ g).id_.page_no ≠ c.INVALID_PAGE_ID
      then { s.pages_ g with is_dirty_ := false } else s.pages_ g) ∧
    (∀ k, (∀ i, i < n → (s.pages_ i).id_.fd = fd →
        (s.pages_ i).id_.page_no ≠ c.INVALID_PAGE_ID → (s.pages_ i).id_ ≠ k) →
      ((List.range n).foldl (FlushAllPages_step c fd) s).disk_manager_.pages k
        = s.disk_manager_.pages k) ∧
    (∀ f, f < n → (s.pages_ f).id_.fd = fd → (s.pages_ f).id_.page_no ≠ c.INVALID_PAGE_ID →
      (∀ g, f < g → g < n → (s.pages_ g).id_ ≠ (s.pages_ f).id_) →
      ((List.range n).foldl (FlushAllPages_step c fd) s).disk_manager_.pages (s.pages_ f).id_
        = (s.pages_ f).data_) := by
  induction n with
  | zero =>
    refine ⟨rfl, rfl, rfl, rfl, rfl, ?_, ?_, ?_⟩
    · intro g
      simp
    · intro k _
      rfl
    · intro f hf
      omega
  | succ n ih =>
    obtain ⟨ih1, ih2, ih3, ih4, ih5, ih6, ih7, ih8⟩ := ih
    rw [List.range_succ, List.foldl_append]
    simp only [List.foldl_cons, List.foldl_nil]
    have hstep := FlushAllPages_step_frame c fd ((List.range n).foldl (FlushAllPages_step c fd) s) n
    have hn : ((List.range n).foldl (FlushAllPages_step c fd) s).pages_ n = s.pages_ n := by
      rw [ih6 n]
      simp
    obtain ⟨h1, h2, h3, h4, h5, h6⟩ := hstep
    refine ⟨h1.trans ih1, h2.trans ih2, h3.trans ih3, h4.trans ih4, h5.trans ih5, ?_, ?_, ?_⟩
    · intro g
      rw [h6 g]
      by_cases hg : g = n
      · subst hg
        rw [hn]
        simp
      · rw [ih6 g]
        have hlt : g < n + 1 ↔ g < n := by omega
        simp [hg, hlt]
    · intro k hk
      rw [FlushAllPages_step_disk, hn]
      have hkn : ¬ (((s.pages_ n).id_.fd = fd ∧ (s.pages_ n).id_.page_no ≠ c.INVALID_PAGE_ID) ∧
          k = (s.pages_ n).id_) := by
        rintro ⟨⟨ha, hb⟩, hc⟩
        exact hk n (by omega) ha hb hc.symm
      rw [if_neg hkn]
      exact ih7 k (fun i hi => hk i (by omega))
    · intro f hf hfd hvalid hlast
      rw [FlushAllPages_step_disk, hn]
      by_cases hfn : f = n
      · subst hfn
        simp [hfd, hvalid]
      · have hflt : f < n := by omega
        have hkn : ¬ (((s.pages_ n).id_.fd = fd ∧
            (s.pages_ n).id_.page_no ≠ c.INVALID_PAGE_ID) ∧
            (s.pages_ f).id_ = (s.pages_ n).id_) := by
          rintro ⟨_, hc⟩
          exact hlast n hflt (by omega) hc.symm
        rw [if_neg hkn]
        exact ih8 f hflt hfd hvalid (fun g hg1 hg2 => hlast g hg1 (by omega))

/-- C12 as stated fails at two pools reached by calls of the pool.  In `exDirtyInvalid` the
identity `(0, INVALID_PAGE_ID)` is resident in frame 0, dirty, with buffer `[9,9,9,9]`:
`FlushAllPages 0` skips the frame, which stays dirty, and nothing is written to disk.  In
`exDuplicate` page (0,0) is resident in frame 0 with buffer `[1,2,3,4]` and frame 1 still
stores (0,0) with buffer `[9,9,9,9]`: `FlushAllPages 0` writes frame 0 and then frame 1, so
the disk page of (0,0) ends as `[9,9,9,9]`, not the buffer of the resident page. -/
theorem FlushAllPages_counterexample :
    (exDirtyInvalid.page_table_ ⟨0, -1⟩ = some 0 ∧
      (exDirtyInvalid.pages_ 0).id_ = ⟨0, -1⟩ ∧
      (exDirtyInvalid.pages_ 0).is_dirty_ = true ∧
      (exDirtyInvalid.pages_ 0).data_ = [9, 9, 9, 9] ∧
      ((FlushAllPages exConfig exDirtyInvalid 0).pages_ 0).is_dirty_ = true ∧
      (FlushAllPages exConfig exDirtyInvalid 0).disk_manager_.pages ⟨0, -1⟩ = [0, 0, 0, 0] ∧
      (FlushAllPages exConfig exDirtyInvalid 0).disk_manager_.calls
        = exDirtyInvalid.disk_manager_.calls) ∧
    (exDuplicate.page_table_ ⟨0, 0⟩ = some 0 ∧
      (exDuplicate.pages_ 0).id_ = ⟨0, 0⟩ ∧ (exDuplicate.pages_ 0).data_ = [1, 2, 3, 4] ∧
      (exDuplicate.pages_ 1).id_ = ⟨0, 0⟩ ∧ (exDuplicate.pages_ 1).data_ = [9, 9, 9, 9] ∧
      ((FlushAllPages exConfig exDuplicate 0).pages_ 0).data_ = [1, 2, 3, 4] ∧
      (FlushAllPages exConfig exDuplicate 0).disk_manager_.pages ⟨0, 0⟩ = [9, 9, 9, 9]) := by
  decide

/-- C12, amended: let `page_id` of file `fd`, with a page number other than
`INVALID_PAGE_ID`, be resident in frame `f` of the pool (`f < pool_size_`, stored identity
`page_id`).  In `FlushAllPages fd` the buffer of `f` is written to the disk page of
`page_id`: the disk page holds it once the loop has handled frame `f`, and holds it after the
call unless a frame of higher index stores the same identity; the dirty flag of `f` is false
afterwards.  Pin counts, buffers, identities, the page table, the free list, the replacer
and the allocator are unchanged, and so are the frames and the disk pages of other files; a
frame whose page number is `INVALID_PAGE_ID` is skipped and keeps its dirty flag. -/
theorem FlushAllPages_spec (c : Config) (s : BufferPoolManager ρ) (fd : Int) :
    (∀ page_id f, s.page_table_ page_id = some f → f < s.pool_size_ →
      (s.pages_ f).id_ = page_id → page_id.fd = fd → page_id.page_no ≠ c.INVALID_PAGE_ID →
      ((List.range (f + 1)).foldl (FlushAllPages_step c fd) s).disk_manager_.pages page_id
        = (s.pages_ f).data_ ∧
      ((FlushAllPages c s fd).pages_ f).is_dirty_ = false ∧
      ((∀ g, f < g → g < s.pool_size_ → (s.pages_ g).id_ ≠ page_id) →
        (FlushAllPages c s fd).disk_manager_.pages page_id
          = ((FlushAllPages c s fd).pages_ f).data_)) ∧
    (∀ g, ((FlushAllPages c s fd).pages_ g).pin_count_ = (s.pages_ g).pin_count_ ∧
      ((FlushAllPages c s fd).pages_ g).data_ = (s.pages_ g).data_ ∧
      ((FlushAllPages c s fd).pages_ g).id_ = (s.pages_ g).id_) ∧
    (FlushAllPages c s fd).page_table_ = s.page_table_ ∧
    (FlushAllPages c s fd).free_list_ = s.free_list_ ∧
    (FlushAllPages c s fd).replacer_ = s.replacer_ ∧
    (FlushAllPages c s fd).disk_manager_.fd2pageno_ = s.disk_manager_.fd2pageno_ ∧
    (∀ g, (s.pages_ g).id_.fd ≠ fd → (FlushAllPages c s fd).pages_ g = s.pages_ g) ∧
    (∀ k : PageId, k.fd ≠ fd →
      (FlushAllPages c s fd).disk_manager_.pages k = s.disk_manager_.pages k) ∧
    (∀ g, (s.pages_ g).id_.page_no = c.INVALID_PAGE_ID →
      (FlushAllPages c s fd).pages_ g = s.pages_ g) := by
  rw [FlushAllPages_eq]
  obtain ⟨h1, h2, h3, _, h5, h6, h7, h8⟩ := FlushAllPages_range c fd s s.pool_size_
  have hpage : ∀ g, (((List.range s.pool_size_).foldl (FlushAllPages_step c fd) s).pages_ g).pin_count_
        = (s.pages_ g).pin_count_ ∧
      (((List.range s.pool_size_).foldl (FlushAllPages_step c fd) s).pages_ g).data_
        = (s.pages_ g).data_ ∧
      (((List.range s.pool_size_).foldl (FlushAllPages_step c fd) s).pages_ g).id_
        = (s.pages_ g).id_ := by
    intro g
    rw [h6 g]
    split <;> exact ⟨rfl, rfl, rfl⟩
  refine ⟨?_, hpage, h1, h2, h3, h5, ?_, ?_, ?_⟩
  · intro page_id f _ hf hid hfd hvalid
    have hfd2 : (s.pages_ f).id_.fd = fd := by rw [hid]; exact hfd
    have hvalid2 : (s.pages_ f).id_.page_no ≠ c.INVALID_PAGE_ID := by rw [hid]; exact hvalid
    refine ⟨?_, ?_, ?_⟩
    · have h := (FlushAllPages_range c fd s (f + 1)).2.2.2.2.2.2.2 f (by omega) hfd2 hvalid2
        (fun g hg1 hg2 => by omega)
      rw [hid] at h
      exact h
    · rw [h6 f, if_pos ⟨hf, hfd2, hvalid2⟩]
    · intro hlast
      rw [(hpage f).2.1]
      have h := h8 f hf hfd2 hvalid2 (fun g hg1 hg2 => by rw [hid]; exact hlast g hg1 hg2)
      rw [hid] at h
      exact h
  · intro g hg
    rw [h6 g]
    simp [hg]
  · intro k hk
    apply h7 k
    intro i _ hfi _ e
    apply hk
    rw [← e]
    exact hfi
  · intro g hg
    rw [h6 g]
    simp [hg]

/-- Instance of `FlushAllPages_spec`: in `exPool3` page (0,0) sits in frame 0, dirty, with
buffer `[9,9,9,9]`, and frame 1 stores another identity. -/
theorem FlushAllPages_spec_witness :
    exPool3.page_table_ ⟨0, 0⟩ = some 0 ∧ 0 < exPool3.pool_size_ ∧
    (exPool3.pages_ 0).id_ = ⟨0, 0⟩ ∧ (exPool3.pages_ 0).is_dirty_ = true ∧
    exPool3.disk_manager_.pages ⟨0, 0⟩ = [1, 2, 3, 4] ∧
    ((FlushAllPages exConfig exPool3 0).pages_ 0).is_dirty_ = false ∧
    (FlushAllPages exConfig exPool3 0).disk_manager_.pages ⟨0, 0⟩
      = ((FlushAllPages exConfig exPool3 0).pages_ 0).data_ :=
  ⟨by decide, by decide, by decide, by decide, by decide,
    ((FlushAllPages_spec exConfig exPool3 0).1 ⟨0, 0⟩ 0 (by decide) (by decide) (by decide)
      rfl (by decide)).2.1,
    ((FlushAllPages_spec exConfig exPool3 0).1 ⟨0, 0⟩ 0 (by decide) (by decide) (by decide)
      rfl (by decide)).2.2 (by
        intro g hg1 hg2
        have hg : g = 1 := by
          have h2 : g < 2 := hg2
          omega
        subst hg
        decide)⟩

/-- The page-table invariant only depends on the page table, the stored identities and the
pin counts. -/
theorem TableInv_congr (s s1 : BufferPoolManager ρ) (h : TableInv s)
    (htable : s1.page_table_ = s.page_table_)
    (hid : ∀ g, (s1.pages_ g).id_ = (s.pages_ g).id_)
    (hpin : ∀ g, 0 ≤ (s1.pages_ g).pin_count_) : TableInv s1 where
  entry_id := by
    intro k f hk
    rw [htable] at hk
    rw [hid f]
    exact h.entry_id k f hk
  pin_nonneg := hpin

/-- The initial pool satisfies the page-table invariant. -/
theorem TableInv_init (c : Config) (pool_size : Nat) (fd0 : Nat → Int) (r0 : ρ)
    (d : DiskManager) : TableInv (BufferPoolManager.init c pool_size fd0 r0 d) where
  entry_id := by
    intro k f h
    simp [BufferPoolManager.init] at h
  pin_nonneg := fun _ => le_refl _

/-- `UpdatePage` on frame `f`, registering it as the frame of the new identity, keeps the
page-table invariant. -/
theorem TableInv_UpdatePage (c : Config) (s : BufferPoolManager ρ) (f : Nat)
    (new_page_id : PageId) (h : TableInv s) : TableInv (UpdatePage c s f new_page_id f) where
  entry_id := by
    intro k g hk
    have hpage := UpdatePage_page c s f new_page_id f
    by_cases hg : g = f
    · subst hg
      rw [hpage.1]
      simp only [UpdatePage, Page.ResetMemory, clear_dirty_id] at hk
      by_cases hk1 : k = new_page_id
      · exact hk1.symm
      · rw [if_neg hk1] at hk
        by_cases hk2 : k = (s.pages_ g).id_
        · rw [if_pos hk2] at hk
          simp at hk
        · rw [if_neg hk2] at hk
          exact absurd (h.entry_id k g hk).symm hk2
    · rw [(UpdatePage_frame c s f new_page_id f).2.2.1 g hg]
      rcases (UpdatePage_frame c s f new_page_id f).2.2.2 k g hk with e | e
      · exact absurd e hg
      · exact h.entry_id k g e
  pin_nonneg := by
    intro g
    by_cases hg : g = f
    · subst hg
      rw [(UpdatePage_page c s g new_page_id g).2.2.1]
      exact h.pin_nonneg g
    · rw [(UpdatePage_frame c s f new_page_id f).2.2.1 g hg]
      exact h.pin_nonneg g

/-- Setting the pin count of a frame to 1 after `UpdatePage` keeps the page-table
invariant. -/
theorem TableInv_install (c : Config) (s s1 : BufferPoolManager ρ) (f : Nat)
    (new_page_id : PageId) (h : TableInv s)
    (htable : s1.page_table_ = (UpdatePage c s f new_page_id f).page_table_)
    (hpages : s1.pages_ = Function.update (UpdatePage c s f new_page_id f).pages_ f
      { (UpdatePage c s f new_page_id f).pages_ f with pin_count_ := 1 }) :
    TableInv s1 := by
  have hupd := TableInv_UpdatePage c s f new_page_id h
  refine TableInv_congr _ s1 hupd htable ?_ ?_
  · intro g
    rw [hpages]
    by_cases hg : g = f
    · subst hg
      simp
    · simp [Function.update_noteq hg]
  · intro g
    rw [hpages]
    by_cases hg : g = f
    · subst hg
      simp
    · simp only [Function.update_noteq hg]
      exact hupd.pin_nonneg g

/-- Every call of the pool keeps the page-table invariant, for any Replacer. -/
theorem TableInv_step (c : Config) (R : Replacer ρ) (s : BufferPoolManager ρ) (op : PoolOp)
    (h : TableInv s) : TableInv (step c R s op) := by
  have hfind : TableInv (FindVictimPage R s).2 :=
    TableInv_congr s _ h (FindVictimPage_page_table R s)
      (fun g => by rw [FindVictimPage_pages]) (fun g => by
        rw [FindVictimPage_pages]; exact h.pin_nonneg g)
  cases op with
  | FetchPage page_id =>
    simp only [step]
    cases hpt : s.page_table_ page_id with
    | some f =>
      refine TableInv_congr s _ h ?_ ?_ ?_
      · simp [FetchPage, hpt]
      · intro g
        by_cases hg : g = f
        · subst hg; simp [FetchPage, hpt]
        · simp [FetchPage, hpt, Function.update_noteq hg]
      · intro g
        have hg0 := h.pin_nonneg g
        by_cases hg : g = f
        · subst hg
          simp only [FetchPage, hpt, Function.update_same]
          omega
        · simp only [FetchPage, hpt, Function.update_noteq hg]
          exact hg0
    | none =>
      cases hvictim : (FindVictimPage R s).1 with
      | none =>
        rw [FetchPage_fail_eq c R s page_id hpt hvictim]
        exact hfind
      | some f =>
        rw [FetchPage_miss_eq c R s page_id f hpt hvictim]
        exact TableInv_install c (FindVictimPage R s).2 _ f page_id hfind rfl rfl
  | NewPage page_id =>
    simp only [step]
    cases hvictim : (FindVictimPage R s).1 with
    | none =>
      rw [NewPage_fail_eq c R s page_id hvictim]
      exact hfind
    | some f =>
      rw [NewPage_eq c R s page_id f hvictim]
      have halloc : TableInv { (FindVictimPage R s).2 with
          disk_manager_ := (s.disk_manager_.AllocatePage page_id.fd).2 } :=
        TableInv_congr _ _ hfind rfl (fun _ => rfl) hfind.pin_nonneg
      exact TableInv_install c _ _ f _ halloc rfl rfl
  | UnpinPage page_id is_dirty =>
    simp only [step]
    cases hpt : s.page_table_ page_id with
    | none => simp only [UnpinPage, hpt]; exact h
    | some f =>
      by_cases hpin : (s.pages_ f).pin_count_ ≤ 0
      · simp only [UnpinPage, hpt, hpin, if_true]; exact h
      · refine TableInv_congr s _ h ?_ ?_ ?_
        · simp [UnpinPage, hpt, hpin]
        · intro g
          by_cases hg : g = f
          · subst hg; simp [UnpinPage, hpt, hpin]
          · simp [UnpinPage, hpt, hpin, Function.update_noteq hg]
        · intro g
          have hg0 := h.pin_nonneg g
          by_cases hg : g = f
          · subst hg
            simp only [UnpinPage, hpt, hpin, if_false, Function.update_same]
            omega
          · simp only [UnpinPage, hpt, hpin, if_false, Function.update_noteq hg]
            exact hg0
  | FlushPage page_id =>
    simp only [step]
    cases hpt : s.page_table_ page_id with
    | none => simp only [FlushPage, hpt]; exact h
    | some f =>
      refine TableInv_congr s _ h ?_ ?_ ?_
      · simp [FlushPage, hpt]
      · intro g
        by_cases hg : g = f
        · subst hg; simp [FlushPage, hpt]
        · simp [FlushPage, hpt, Function.update_noteq hg]
      · intro g
        have hg0 := h.pin_nonneg g
        by_cases hg : g = f
        · subst hg
          simp only [FlushPage, hpt, Function.update_same]
          exact hg0
        · simp only [FlushPage, hpt, Function.update_noteq hg]
          exact hg0
  | DeletePage page_id =>
    simp only [step]
    cases hpt : s.page_table_ page_id with
    | none => simp only [DeletePage, hpt]; exact h
    | some f =>
      by_cases hpin : (s.pages_ f).pin_count_ = 0
      · rw [DeletePage_eq c s page_id f hpt hpin]
        have hupd := TableInv_UpdatePage c s f { page_id with page_no := c.INVALID_PAGE_ID } h
        exact TableInv_congr _ _ hupd rfl (fun _ => rfl) hupd.pin_nonneg
      · simp only [DeletePage, hpt, ne_eq, hpin, not_false_eq_true, if_true]
        exact h
  | FlushAllPages fd =>
    simp only [step]
    have hspec := FlushAllPages_range c fd s s.pool_size_
    rw [← FlushAllPages_eq] at hspec
    refine TableInv_congr s _ h hspec.1 ?_ ?_
    · intro g
      rw [hspec.2.2.2.2.2.1 g]
      split <;> rfl
    · intro g
      rw [hspec.2.2.2.2.2.1 g]
      split <;> exact h.pin_nonneg g

/-- Every sequence of calls keeps the page-table invariant. -/
theorem TableInv_run (c : Config) (R : Replacer ρ) (ops : List PoolOp)
    (s : BufferPoolManager ρ) (h : TableInv s) : TableInv (run c R s ops) := by
  induction ops generalizing s with
  | nil => exact h
  | cons op ops ih =>
    simp only [run]
    exact ih _ (TableInv_step c R s op h)

/-- C16: in every state reached from the initial pool by a sequence of `FetchPage`,
`NewPage`, `UnpinPage`, `FlushPage`, `DeletePage` and `FlushAllPages` calls, with any
arguments and any Replacer, every page-table entry `page_id -> f` has `page_id` as the
identity stored in frame `f`, and every pin count is non-negative. -/
theorem table_entries_match_frames (c : Config) (R : Replacer ρ) (pool_size : Nat)
    (fd0 : Nat → Int) (r0 : ρ) (d : DiskManager) (ops : List PoolOp) :
    (∀ page_id f,
      (run c R (BufferPoolManager.init c pool_size fd0 r0 d) ops).page_table_ page_id = some f →
      ((run c R (BufferPoolManager.init c pool_size fd0 r0 d) ops).pages_ f).id_ = page_id) ∧
    (∀ f, 0 ≤ ((run c R (BufferPoolManager.init c pool_size fd0 r0 d) ops).pages_ f).pin_count_) := by
  have h := TableInv_run c R ops _ (TableInv_init c pool_size fd0 r0 d)
  exact ⟨h.entry_id, h.pin_nonneg⟩

/-- Instance of `table_entries_match_frames`: the state `exStale`, reached by five calls,
maps (0,1) to frame 0, which stores (0,1). -/
theorem table_entries_match_frames_witness :
    exStale.page_table_ ⟨0, 1⟩ = some 0 ∧ (exStale.pages_ 0).id_ = ⟨0, 1⟩ :=
  ⟨by decide,
    (table_entries_match_frames exConfig LRUReplacer 2 (fun _ => 0) [] exDisk
      [.FetchPage ⟨0, 0⟩, .UnpinPage ⟨0, 0⟩ false, .NewPage ⟨0, -1⟩, .UnpinPage ⟨0, 0⟩ false,
        .FetchPage ⟨0, 1⟩]).1 ⟨0, 1⟩ 0 (by decide)⟩

/-! ### Disk transfers that fail during FetchPage and NewPage -/

/-- `FindVictimPage` takes the front of the free list, if there is one. -/
theorem FindVictimPage_free_list (R : Replacer ρ) (s : BufferPoolManager ρ) :
    (FindVictimPage R s).2.free_list_ = s.free_list_.tail := by
  unfold FindVictimPage
  split
  · rename_i h
    simp [h]
  · rename_i f rest h
    simp [h]

/-- Without faults `UpdatePage_throwing` is `UpdatePage`. -/
theorem UpdatePage_throwing_no_fault (c : Config) (s : BufferPoolManager ρ) (page : Nat)
    (new_page_id : PageId) (new_frame_id : Nat) :
    UpdatePage_throwing c (fun _ => false) s page new_page_id new_frame_id
      = (true, UpdatePage c s page new_page_id new_frame_id) := by
  unfold UpdatePage_throwing UpdatePage
  by_cases hd : (s.pages_ page).is_dirty_ = true <;>
    by_cases hv : new_page_id.page_no = c.INVALID_PAGE_ID <;>
    simp [hd, hv, DiskManager.write_page_throwing, DiskManager.read_page_throwing]

/-- Without faults `FetchPage_throwing` returns what `FetchPage` returns. -/
theorem FetchPage_throwing_no_fault (c : Config) (R : Replacer ρ) (s : BufferPoolManager ρ)
    (page_id : PageId) :
    FetchPage_throwing c R (fun _ => false) s page_id
      = (some (FetchPage c R s page_id).1, (FetchPage c R s page_id).2) := by
  unfold FetchPage_throwing FetchPage
  cases hpt : s.page_table_ page_id with
  | some f => rfl
  | none =>
    rcases hfind : FindVictimPage R s with ⟨v, s1⟩
    cases v with
    | none => rfl
    | some f =>
      simp only [UpdatePage_throwing_no_fault]

/-- Without faults `NewPage_throwing` returns what `NewPage` returns. -/
theorem NewPage_throwing_no_fault (c : Config) (R : Replacer ρ) (s : BufferPoolManager ρ)
    (page_id : PageId) :
    NewPage_throwing c R (fun _ => false) s page_id
      = (some (NewPage c R s page_id).1, (NewPage c R s page_id).2.1,
          (NewPage c R s page_id).2.2) := by
  unfold NewPage_throwing NewPage
  rcases hfind : FindVictimPage R s with ⟨v, s1⟩
  cases v with
  | none => rfl
  | some f =>
    simp only [UpdatePage_throwing_no_fault]

/-- When the write-back of the dirty page fails, `UpdatePage_throwing` stops before any
change. -/
theorem UpdatePage_throwing_write_fault (c : Config) (faults : DiskCall → Bool)
    (s : BufferPoolManager ρ) (page : Nat) (new_page_id : PageId) (new_frame_id : Nat)
    (hdirty : (s.pages_ page).is_dirty_ = true)
    (hfault : faults (.write (s.pages_ page).id_.fd (s.pages_ page).id_.page_no) = true) :
    UpdatePage_throwing c faults s page new_page_id new_frame_id = (false, s) := by
  simp [UpdatePage_throwing, hdirty, hfault, DiskManager.write_page_throwing]

/-- When the write-back does not fail and the read of the new page does, `UpdatePage_throwing`
stops with the page table already updated and the frame already reset and renamed. -/
theorem UpdatePage_throwing_read_fault (c : Config) (faults : DiskCall → Bool)
    (s : BufferPoolManager ρ) (page : Nat) (new_page_id : PageId) (new_frame_id : Nat)
    (hwrite : ¬ ((s.pages_ page).is_dirty_ = true ∧
      faults (.write (s.pages_ page).id_.fd (s.pages_ page).id_.page_no) = true))
    (hvalid : new_page_id.page_no ≠ c.INVALID_PAGE_ID)
    (hfault : faults (.read new_page_id.fd new_page_id.page_no) = true) :
    (UpdatePage_throwing c faults s page new_page_id new_frame_id).1 = false ∧
    (UpdatePage_throwing c faults s page new_page_id new_frame_id).2.free_list_
      = s.free_list_ ∧
    (UpdatePage_throwing c faults s page new_page_id new_frame_id).2.replacer_
      = s.replacer_ ∧
    (UpdatePage_throwing c faults s page new_page_id new_frame_id).2.page_table_ new_page_id
      = some new_frame_id ∧
    (∀ g, g ≠ page →
      (UpdatePage_throwing c faults s page new_page_id new_frame_id).2.pages_ g = s.pages_ g) ∧
    ((UpdatePage_throwing c faults s page new_page_id new_frame_id).2.pages_ page).id_
      = new_page_id ∧
    ((UpdatePage_throwing c faults s page new_page_id new_frame_id).2.pages_ page).is_dirty_
      = false ∧
    ((UpdatePage_throwing c faults s page new_page_id new_frame_id).2.pages_ page).pin_count_
      = (s.pages_ page).pin_count_ := by
  by_cases hd : (s.pages_ page).is_dirty_ = true
  · have hw : faults (.write (s.pages_ page).id_.fd (s.pages_ page).id_.page_no) = false := by
      cases h : faults (.write (s.pages_ page).id_.fd (s.pages_ page).id_.page_no)
      · rfl
      · exact absurd ⟨hd, h⟩ hwrite
    simp only [UpdatePage_throwing, hd, hw, hvalid, hfault, DiskManager.write_page_throwing,
      DiskManager.read_page_throwing, Page.ResetMemory]
    refine ⟨by simp [hvalid], by simp [hvalid], by simp [hvalid], by simp [hvalid], ?_,
      by simp [hvalid], by simp [hvalid], by simp [hvalid]⟩
    intro g hg
    simp [hvalid, Function.update_noteq hg]
  · simp only [UpdatePage_throwing, hd, hvalid, hfault, DiskManager.write_page_throwing,
      DiskManager.read_page_throwing, Page.ResetMemory]
    refine ⟨by simp [hvalid], by simp [hvalid], by simp [hvalid], by simp [hvalid], ?_,
      by simp [hvalid], ?_, by simp [hvalid]⟩
    · intro g hg
      simp [hvalid, Function.update_noteq hg]
    · simpa [hvalid] using hd

/-- C17 as stated fails.  In `exPool1` (frame 1 free) and in `exPool3` (frame 0 dirty and
evictable, free list empty) page (0,2) is not resident and its read fails: the exception
leaves `FetchPage` after the victim was taken from the free list, written back, renamed and
entered in the page table, so the free list, the page table, the victim's identity and its
dirty flag differ from before the call. -/
theorem disk_failure_counterexample :
    (exPool1.page_table_ ⟨0, 2⟩ = none ∧
      (FetchPage_throwing exConfig LRUReplacer exReadFault exPool1 ⟨0, 2⟩).1 = none ∧
      (FetchPage_throwing exConfig LRUReplacer exReadFault exPool1 ⟨0, 2⟩).2.free_list_
        ≠ exPool1.free_list_ ∧
      (FetchPage_throwing exConfig LRUReplacer exReadFault exPool1 ⟨0, 2⟩).2.page_table_ ⟨0, 2⟩
        ≠ exPool1.page_table_ ⟨0, 2⟩ ∧
      ((FetchPage_throwing exConfig LRUReplacer exReadFault exPool1 ⟨0, 2⟩).2.pages_ 1).id_
        ≠ (exPool1.pages_ 1).id_) ∧
    (exPool3.page_table_ ⟨0, 2⟩ = none ∧
      (FetchPage_throwing exConfig LRUReplacer exReadFault exPool3 ⟨0, 2⟩).1 = none ∧
      (FetchPage_throwing exConfig LRUReplacer exReadFault exPool3 ⟨0, 2⟩).2.page_table_ ⟨0, 0⟩
        ≠ exPool3.page_table_ ⟨0, 0⟩ ∧
      ((FetchPage_throwing exConfig LRUReplacer exReadFault exPool3 ⟨0, 2⟩).2.pages_ 0).is_dirty_
        ≠ (exPool3.pages_ 0).is_dirty_) := by
  decide

/-- C17, amended: let `FindVictimPage` select frame `f` during a `FetchPage` of a page that
is not resident, or during `NewPage`.  If the write-back of the dirty victim fails, the
exception leaves the call with every frame (identity, pin count, dirty flag, buffer) and the
page table as before the call, and with the free list as before except that its front, when
the victim was taken from there, has left it.  If the write-back does not fail and the read
of the requested page fails, the exception leaves the call with every frame other than the
victim, and the victim's pin count, as before the call; the victim is already clean, stores
the requested identity and is the target of its page-table entry. -/
theorem disk_failure_effects (c : Config) (R : Replacer ρ) (faults : DiskCall → Bool)
    (s : BufferPoolManager ρ) (page_id : PageId) (f : Nat)
    (hvictim : (FindVictimPage R s).1 = some f) :
    (((s.pages_ f).is_dirty_ = true ∧
        faults (.write (s.pages_ f).id_.fd (s.pages_ f).id_.page_no) = true) →
      (s.page_table_ page_id = none →
        (FetchPage_throwing c R faults s page_id).1 = none ∧
        (FetchPage_throwing c R faults s page_id).2.pages_ = s.pages_ ∧
        (FetchPage_throwing c R faults s page_id).2.page_table_ = s.page_table_ ∧
        (FetchPage_throwing c R faults s page_id).2.free_list_ = s.free_list_.tail) ∧
      ((NewPage_throwing c R faults s page_id).1 = none ∧
        (NewPage_throwing c R faults s page_id).2.2.pages_ = s.pages_ ∧
        (NewPage_throwing c R faults s page_id).2.2.page_table_ = s.page_table_ ∧
        (NewPage_throwing c R faults s page_id).2.2.free_list_ = s.free_list_.tail)) ∧
    (¬ ((s.pages_ f).is_dirty_ = true ∧
        faults (.write (s.pages_ f).id_.fd (s.pages_ f).id_.page_no) = true) →
      (s.page_table_ page_id = none → page_id.page_no ≠ c.INVALID_PAGE_ID →
        faults (.read page_id.fd page_id.page_no) = true →
        (FetchPage_throwing c R faults s page_id).1 = none ∧
        (∀ g, g ≠ f → (FetchPage_throwing c R faults s page_id).2.pages_ g = s.pages_ g) ∧
        ((FetchPage_throwing c R faults s page_id).2.pages_ f).pin_count_
          = (s.pages_ f).pin_count_ ∧
        (FetchPage_throwing c R faults s page_id).2.free_list_ = s.free_list_.tail ∧
        ((FetchPage_throwing c R faults s page_id).2.pages_ f).id_ = page_id ∧
        ((FetchPage_throwing c R faults s page_id).2.pages_ f).is_dirty_ = false ∧
        (FetchPage_throwing c R faults s page_id).2.page_table_ page_id = some f) ∧
      (s.disk_manager_.fd2pageno_ page_id.fd ≠ c.INVALID_PAGE_ID →
        faults (.read page_id.fd (s.disk_manager_.fd2pageno_ page_id.fd)) = true →
        (NewPage_throwing c R faults s page_id).1 = none ∧
        (∀ g, g ≠ f → (NewPage_throwing c R faults s page_id).2.2.pages_ g = s.pages_ g) ∧
        ((NewPage_throwing c R faults s page_id).2.2.pages_ f).pin_count_
          = (s.pages_ f).pin_count_ ∧
        (NewPage_throwing c R faults s page_id).2.2.free_list_ = s.free_list_.tail ∧
        ((NewPage_throwing c R faults s page_id).2.2.pages_ f).id_
          = ⟨page_id.fd, s.disk_manager_.fd2pageno_ page_id.fd⟩ ∧
        ((NewPage_throwing c R faults s page_id).2.2.pages_ f).is_dirty_ = false ∧
        (NewPage_throwing c R faults s page_id).2.2.page_table_
          ⟨page_id.fd, s.disk_manager_.fd2pageno_ page_id.fd⟩ = some f)) := by
  have hpages := FindVictimPage_pages R s
  have htable := FindVictimPage_page_table R s
  have hfree := FindVictimPage_free_list R s
  have hdisk := FindVictimPage_disk R s
  rcases hfind : FindVictimPage R s with ⟨v, s1⟩
  rw [hfind] at hvictim hpages htable hfree hdisk
  simp only at hvictim hpages htable hfree hdisk
  subst hvictim
  refine ⟨?_, ?_⟩
  · rintro ⟨hdirty, hfault⟩
    have hdirty1 : (s1.pages_ f).is_dirty_ = true := by rw [hpages]; exact hdirty
    have hfault1 : faults (.write (s1.pages_ f).id_.fd (s1.pages_ f).id_.page_no) = true := by
      rw [hpages]; exact hfault
    refine ⟨?_, ?_⟩
    · intro hpt
      simp only [FetchPage_throwing, hpt, hfind,
        UpdatePage_throwing_write_fault c faults s1 f page_id f hdirty1 hfault1]
      exact ⟨trivial, hpages, htable, hfree⟩
    · have hupd := UpdatePage_throwing_write_fault c faults
        { s1 with disk_manager_ := (s1.disk_manager_.AllocatePage page_id.fd).2 } f
        { page_id with page_no := (s1.disk_manager_.AllocatePage page_id.fd).1 } f
        hdirty1 hfault1
      simp only [NewPage_throwing, hfind, hupd]
      exact ⟨trivial, hpages, htable, hfree⟩
  · intro hwrite
    have hwrite1 : ¬ ((s1.pages_ f).is_dirty_ = true ∧
        faults (.write (s1.pages_ f).id_.fd (s1.pages_ f).id_.page_no) = true) := by
      rw [hpages]; exact hwrite
    refine ⟨?_, ?_⟩
    · intro hpt hvalid hfault
      obtain ⟨h1, h2, _, h4, h5, h6, h7, h8⟩ :=
        UpdatePage_throwing_read_fault c faults s1 f page_id f hwrite1 hvalid hfault
      rcases hupd : UpdatePage_throwing c faults s1 f page_id f with ⟨ok, s2⟩
      rw [hupd] at h1 h2 h4 h5 h6 h7 h8
      simp only at h1 h2 h4 h5 h6 h7 h8
      subst h1
      simp only [FetchPage_throwing, hpt, hfind, hupd]
      refine ⟨trivial, ?_, ?_, ?_, h6, h7, h4⟩
      · intro g hg
        rw [h5 g hg, hpages]
      · rw [h8, hpages]
      · rw [h2, hfree]
    · intro hvalid hfault
      have hvalid1 : ({ page_id with page_no := (s1.disk_manager_.AllocatePage page_id.fd).1 }
          : PageId).page_no ≠ c.INVALID_PAGE_ID := by
        rw [hdisk]; exact hvalid
      have hfault1 : faults (.read
          ({ page_id with page_no := (s1.disk_manager_.AllocatePage page_id.fd).1 } : PageId).fd
          ({ page_id with page_no := (s1.disk_manager_.AllocatePage page_id.fd).1 }
            : PageId).page_no) = true := by
        rw [hdisk]; exact hfault
      obtain ⟨h1, h2, _, h4, h5, h6, h7, h8⟩ :=
        UpdatePage_throwing_read_fault c faults
          { s1 with disk_manager_ := (s1.disk_manager_.AllocatePage page_id.fd).2 } f
          { page_id with page_no := (s1.disk_manager_.AllocatePage page_id.fd).1 } f
          hwrite1 hvalid1 hfault1
      rcases hupd : UpdatePage_throwing c faults
          { s1 with disk_manager_ := (s1.disk_manager_.AllocatePage page_id.fd).2 } f
          { page_id with page_no := (s1.disk_manager_.AllocatePage page_id.fd).1 } f
        with ⟨ok, s2⟩
      rw [hupd] at h1 h2 h4 h5 h6 h7 h8
      simp only at h1 h2 h4 h5 h6 h7 h8
      subst h1
      simp only [NewPage_throwing, hfind, hupd]
      rw [hdisk] at h6 h4
      refine ⟨trivial, ?_, ?_, ?_, h6, h7, h4⟩
      · intro g hg
        rw [h5 g hg, hpages]
      · rw [h8, hpages]
      · rw [h2, hfree]

/-- Instance of `disk_failure_effects`: in `exPool3` the victim of `FetchPage (0,2)` is the
dirty frame 0 and its write-back fails; in `exPool1` the victim is the free frame 1 and the
read of (0,2) fails. -/
theorem disk_failure_effects_witness :
    ((FindVictimPage LRUReplacer exPool3).1 = some 0 ∧ (exPool3.pages_ 0).is_dirty_ = true ∧
      exWriteFault (.write (exPool3.pages_ 0).id_.fd (exPool3.pages_ 0).id_.page_no) = true ∧
      exPool3.page_table_ ⟨0, 2⟩ = none ∧
      (FetchPage_throwing exConfig LRUReplacer exWriteFault exPool3 ⟨0, 2⟩).2.pages_
        = exPool3.pages_) ∧
    ((FindVictimPage LRUReplacer exPool1).1 = some 1 ∧ exPool1.page_table_ ⟨0, 2⟩ = none ∧
      exReadFault (.read 0 2) = true ∧
      (FetchPage_throwing exConfig LRUReplacer exReadFault exPool1 ⟨0, 2⟩).2.page_table_ ⟨0, 2⟩
        = some 1) :=
  ⟨⟨by decide, by decide, by decide, by decide,
      (((disk_failure_effects exConfig LRUReplacer exWriteFault exPool3 ⟨0, 2⟩ 0
        (by decide)).1 ⟨by decide, by decide⟩).1 (by decide)).2.1⟩,
    ⟨by decide, by decide, by decide,
      (((disk_failure_effects exConfig LRUReplacer exReadFault exPool1 ⟨0, 2⟩ 1
        (by decide)).2 (by decide)).1 (by decide) (by decide) (by decide)).2.2.2.2.2.2⟩⟩

/-! ### Search in a B+tree node -/

/-- `ix_compare a b >= 0` says that `a` is not below `b`. -/
theorem ix_compare_nonneg {K : Type} [LinearOrder K] (a b : K) :
    ix_compare a b ≥ 0 ↔ b ≤ a := by
  unfold ix_compare
  by_cases h1 : a < b
  · simp [h1, not_le.mpr h1]
  · by_cases h2 : b < a
    · simp [h1, h2, le_of_lt h2]
    · simp [h1, h2, not_lt.mp h1]

/-- `ix_compare a b == 0` says that the keys are equal. -/
theorem ix_compare_eq_zero {K : Type} [LinearOrder K] (a b : K) :
    ix_compare a b = 0 ↔ a = b := by
  unfold ix_compare
  by_cases h1 : a < b
  · simp [h1, ne_of_lt h1]
  · by_cases h2 : b < a
    · simp [h1, h2, ne_of_gt h2]
    · simp [h1, h2, le_antisymm (not_lt.mp h2) (not_lt.mp h1)]

/-- The loop of `lower_bound` on keys that ascend over `[a, n)`: started on `[lo, hi)` with
every key of `[a, lo)` below the target and every key of `[hi, n)` not below it, and with
fuel for `hi - lo` iterations, it ends at the index `r` of `[lo, hi]` that separates the keys
below the target from the others. -/
theorem lower_bound_loop_spec {K : Type} [LinearOrder K] (keys : Int → K) (target : K)
    (a n : Int) (hsorted : ∀ i j, a ≤ i → i ≤ j → j < n → keys i ≤ keys j)
    (fuel : Nat) (lo hi : Int) (halo : a ≤ lo) (hle : lo ≤ hi) (hn : hi ≤ n)
    (hfuel : hi - lo ≤ fuel)
    (hlow : ∀ i, a ≤ i → i < lo → keys i < target)
    (hhigh : ∀ i, hi ≤ i → i < n → target ≤ keys i) :
    lo ≤ lower_bound_loop keys target fuel lo hi ∧
    lower_bound_loop keys target fuel lo hi ≤ hi ∧
    (∀ i, a ≤ i → i < lower_bound_loop keys target fuel lo hi → keys i < target) ∧
    (∀ i, lower_bound_loop keys target fuel lo hi ≤ i → i < n → target ≤ keys i) := by
  induction fuel generalizing lo hi with
  | zero =>
    have hlohi : lo = hi := by
      have : hi - lo ≤ 0 := by exact_mod_cast hfuel
      omega
    subst hlohi
    simp only [lower_bound_loop]
    exact ⟨le_refl _, le_refl _, hlow, hhigh⟩
  | succ fuel ih =>
    have hfuel1 : hi - lo ≤ (fuel : Int) + 1 := by exact_mod_cast hfuel
    simp only [lower_bound_loop]
    by_cases hlt : lo < hi
    · rw [if_pos hlt]
      have hmid1 : lo ≤ (lo + hi) / 2 := by omega
      have hmid2 : (lo + hi) / 2 < hi := by omega
      by_cases hcmp : ix_compare (keys ((lo + hi) / 2)) target ≥ 0
      · rw [if_pos hcmp]
        have hkey : target ≤ keys ((lo + hi) / 2) := (ix_compare_nonneg _ _).mp hcmp
        have := ih lo ((lo + hi) / 2) halo hmid1 (by omega) (by omega) hlow
          (fun i hi1 hi2 => le_trans hkey (hsorted _ _ (by omega) hi1 hi2))
        exact ⟨this.1, by omega, this.2.2.1, this.2.2.2⟩
      · rw [if_neg hcmp]
        have hkey : keys ((lo + hi) / 2) < target := by
          rw [ix_compare_nonneg] at hcmp
          exact not_le.mp hcmp
        have := ih ((lo + hi) / 2 + 1) hi (by omega) (by omega) hn (by omega)
          (fun i hi1 hi2 => lt_of_le_of_lt (hsorted _ _ hi1 (by omega) (by omega)) hkey)
          hhigh
        exact ⟨by omega, this.2.1, this.2.2.1, this.2.2.2⟩
    · rw [if_neg hlt]
      have hlohi : lo = hi := by omega
      subst hlohi
      exact ⟨le_refl _, le_refl _, hlow, hhigh⟩

/-- The loop of `lower_bound` only reads key slots of `[index, numKey)`: two slot arrays
that agree there give the same result. -/
theorem lower_bound_loop_congr {K : Type} [LinearOrder K] (keys keys1 : Int → K) (target : K)
    (fuel : Nat) (lo hi : Int) (hagree : ∀ i, lo ≤ i → i < hi → keys i = keys1 i) :
    lower_bound_loop keys target fuel lo hi = lower_bound_loop keys1 target fuel lo hi := by
  induction fuel generalizing lo hi with
  | zero => rfl
  | succ fuel ih =>
    simp only [lower_bound_loop]
    by_cases hlt : lo < hi
    · rw [if_pos hlt, if_pos hlt]
      have hmid1 : lo ≤ (lo + hi) / 2 := by omega
      have hmid2 : (lo + hi) / 2 < hi := by omega
      rw [← hagree _ hmid1 hmid2]
      rw [ih lo ((lo + hi) / 2) (fun i h1 h2 => hagree i h1 (by omega)),
        ih ((lo + hi) / 2 + 1) hi (fun i h1 h2 => hagree i (by omega) h2)]
    · rw [if_neg hlt, if_neg hlt]

/-- The loop of `lower_bound` never runs out of fuel: any two amounts of at least
`numKey - index` give the same result. -/
theorem lower_bound_loop_fuel {K : Type} [LinearOrder K] (keys : Int → K) (target : K)
    (fuel1 fuel2 : Nat) (lo hi : Int) (h1 : hi - lo ≤ fuel1) (h2 : hi - lo ≤ fuel2) :
    lower_bound_loop keys target fuel1 lo hi = lower_bound_loop keys target fuel2 lo hi := by
  induction fuel1 generalizing fuel2 lo hi with
  | zero =>
    have hlohi : ¬ lo < hi := by
      have : hi - lo ≤ 0 := by exact_mod_cast h1
      omega
    cases fuel2 with
    | zero => rfl
    | succ fuel2 => simp only [lower_bound_loop, if_neg hlohi]
  | succ fuel1 ih =>
    have h1c : hi - lo ≤ (fuel1 : Int) + 1 := by exact_mod_cast h1
    cases fuel2 with
    | zero =>
      have hlohi : ¬ lo < hi := by
        have : hi - lo ≤ 0 := by exact_mod_cast h2
        omega
      simp only [lower_bound_loop, if_neg hlohi]
    | succ fuel2 =>
      have h2c : hi - lo ≤ (fuel2 : Int) + 1 := by exact_mod_cast h2
      simp only [lower_bound_loop]
      by_cases hlt : lo < hi
      · rw [if_pos hlt, if_pos hlt]
        rw [ih fuel2 lo ((lo + hi) / 2) (by omega) (by omega),
          ih fuel2 ((lo + hi) / 2 + 1) hi (by omega) (by omega)]
      · rw [if_neg hlt, if_neg hlt]

/-- `lower_bound` only reads the first `num_key` key slots. -/
theorem lower_bound_congr {K : Type} [LinearOrder K] (node node1 : IxNodeHandle K)
    (target : K) (hnum : node1.num_key = node.num_key)
    (hkeys : ∀ i, 0 ≤ i → i < node.num_key → node1.keys i = node.keys i) :
    node1.lower_bound target = node.lower_bound target := by
  unfold IxNodeHandle.lower_bound
  rw [hnum]
  exact lower_bound_loop_congr _ _ _ _ _ _ hkeys

/-- For a node whose first `num_key` keys ascend, `lower_bound target` lies in
`[0, num_key]`, every key below it is below the target and every key from it on is not. -/
theorem lower_bound_sorted {K : Type} [LinearOrder K] (node : IxNodeHandle K) (target : K)
    (hn : 0 ≤ node.num_key)
    (hsorted : ∀ i j, 0 ≤ i → i ≤ j → j < node.num_key → node.keys i ≤ node.keys j) :
    0 ≤ node.lower_bound target ∧ node.lower_bound target ≤ node.num_key ∧
    (∀ i, 0 ≤ i → i < node.lower_bound target → node.keys i < target) ∧
    (∀ i, node.lower_bound target ≤ i → i < node.num_key → target ≤ node.keys i) := by
  unfold IxNodeHandle.lower_bound
  exact lower_bound_loop_spec node.keys target 0 node.num_key hsorted node.num_key.toNat
    0 node.num_key (le_refl _) hn (le_refl _) (by rw [Int.toNat_of_nonneg hn]; omega)
    (fun i h1 h2 => by omega) (fun i h1 h2 => by omega)

/-- C18: for a node whose first `num_key` keys ascend, `lower_bound target` returns an index
`r` of `[0, num_key]` such that every key below index `r` is below the target and every key
from index `r` on is not: `r` is the smallest index whose key is `>= target`, and `num_key`
if there is none.  The result does not depend on the key slots at index `>= num_key`.  For
keys `[10, 20, 30]` it is 1 for 20, 2 for 25, 0 for 5 and 3 for 35. -/
theorem lower_bound_spec {K : Type} [LinearOrder K] (node : IxNodeHandle K) (target : K) :
    (0 ≤ node.num_key →
      (∀ i j, 0 ≤ i → i ≤ j → j < node.num_key → node.keys i ≤ node.keys j) →
      0 ≤ node.lower_bound target ∧ node.lower_bound target ≤ node.num_key ∧
      (∀ i, 0 ≤ i → i < node.lower_bound target → node.keys i < target) ∧
      (∀ i, node.lower_bound target ≤ i → i < node.num_key → target ≤ node.keys i)) ∧
    (∀ node1 : IxNodeHandle K, node1.num_key = node.num_key →
      (∀ i, 0 ≤ i → i < node.num_key → node1.keys i = node.keys i) →
      node1.lower_bound target = node.lower_bound target) ∧
    (∀ node3 : IxNodeHandle Int, node3.num_key = 3 → node3.keys 0 = 10 →
      node3.keys 1 = 20 → node3.keys 2 = 30 →
      node3.lower_bound 20 = 1 ∧ node3.lower_bound 25 = 2 ∧ node3.lower_bound 5 = 0 ∧
      node3.lower_bound 35 = 3) := by
  refine ⟨?_, ?_, ?_⟩
  · intro hn hsorted
    exact lower_bound_sorted node target hn hsorted
  · intro node1 hnum hkeys
    exact lower_bound_congr node node1 target hnum hkeys
  · intro node3 hnum h0 h1 h2
    have hkeys : ∀ i, 0 ≤ i → i < exNode.num_key → node3.keys i = exNode.keys i := by
      intro i hi1 hi2
      have hi3 : i < 3 := hi2
      have hcases : i = 0 ∨ i = 1 ∨ i = 2 := by omega
      rcases hcases with e | e | e <;> subst e
      · rw [h0]; rfl
      · rw [h1]; rfl
      · rw [h2]; rfl
    have hcongr : ∀ t : Int, node3.lower_bound t = exNode.lower_bound t := fun t =>
      lower_bound_congr exNode node3 t hnum hkeys
    rw [hcongr, hcongr, hcongr, hcongr]
    decide

/-- Instance of `lower_bound_spec`: the node `exNode` with keys `[10, 20, 30]` and a stale
key in slot 3. -/
theorem lower_bound_spec_witness :
    (0 : Int) ≤ exNode.num_key ∧
    (∀ i j, 0 ≤ i → i ≤ j → j < exNode.num_key → exNode.keys i ≤ exNode.keys j) ∧
    exNode.lower_bound 25 ≤ exNode.num_key ∧ exNode.lower_bound 25 = 2 :=
  have hsorted : ∀ i j, 0 ≤ i → i ≤ j → j < exNode.num_key → exNode.keys i ≤ exNode.keys j := by
    intro i j hi hij hj
    have hj3 : j < 3 := hj
    have hi_cases : i = 0 ∨ i = 1 ∨ i = 2 := by omega
    have hj_cases : j = 0 ∨ j = 1 ∨ j = 2 := by omega
    rcases hi_cases with e | e | e <;> rcases hj_cases with e1 | e1 | e1 <;> subst e <;>
      subst e1 <;> first | decide | omega
  ⟨by decide, hsorted, ((lower_bound_spec exNode 25).1 (by decide) hsorted).2.1, by decide⟩

/-- C19, the code at the failing inputs.  `exNode` has the strictly ascending keys
`[10, 20, 30]` and the stale key 35 in slot 3: `upper_bound 35` reads slot 3, finds it equal
to the target and returns 4, beyond `num_key = 3`.  `exNodeOne` has one key on a zeroed
page: `upper_bound 0` reads slot 1 and returns 2, beyond `num_key = 1`.  The examples of the
claim hold: 2 for 20 and 1 for 5. -/
theorem upper_bound_past_num_key :
    exNode.num_key = 3 ∧ exNode.keys 0 = 10 ∧ exNode.keys 1 = 20 ∧ exNode.keys 2 = 30 ∧
    exNode.keys 3 = 35 ∧ exNode.upper_bound 35 = 4 ∧
    exNodeOne.num_key = 1 ∧ exNodeOne.keys 1 = 0 ∧ exNodeOne.upper_bound 0 = 2 ∧
    exNode.upper_bound 20 = 2 ∧ exNode.upper_bound 5 = 1 := by
  decide

/-- The loop of `erase_pair`, started at `i` with enough fuel: the key count is unchanged,
and every slot of `[i, num_key)` receives the pair of the next slot. -/
theorem erase_pair_loop_spec {K : Type} (fuel : Nat) (i : Int) (node : IxNodeHandle K)
    (hfuel : node.num_key - i ≤ fuel) :
    (erase_pair_loop fuel i node).num_key = node.num_key ∧
    (∀ x, (erase_pair_loop fuel i node).keys x =
      if i ≤ x ∧ x < node.num_key then node.keys (x + 1) else node.keys x) ∧
    (∀ x, (erase_pair_loop fuel i node).rids x =
      if i ≤ x ∧ x < node.num_key then node.rids (x + 1) else node.rids x) := by
  induction fuel generalizing i node with
  | zero =>
    have h0 : node.num_key - i ≤ 0 := by exact_mod_cast hfuel
    refine ⟨rfl, ?_, ?_⟩ <;> intro x <;> rw [if_neg (by omega)] <;> rfl
  | succ fuel ih =>
    have h1 : node.num_key - i ≤ (fuel : Int) + 1 := by exact_mod_cast hfuel
    simp only [erase_pair_loop, IxNodeHandle.GetSize]
    by_cases hlt : i < node.num_key
    · rw [if_pos hlt]
      obtain ⟨ih1, ih2, ih3⟩ := ih (i + 1)
        ((node.set_key i (node.keys (i + 1))).set_rid i (node.rids (i + 1)))
        (by simp only [IxNodeHandle.set_key, IxNodeHandle.set_rid]; omega)
      refine ⟨ih1, ?_, ?_⟩
      · intro x
        rw [ih2 x]
        simp only [IxNodeHandle.set_key, IxNodeHandle.set_rid]
        by_cases hx : i + 1 ≤ x ∧ x < node.num_key
        · rw [if_pos hx, if_pos ⟨by omega, hx.2⟩, Function.update_noteq (by omega)]
        · rw [if_neg hx]
          by_cases hxi : x = i
          · subst hxi
            rw [Function.update_same, if_pos ⟨le_refl _, hlt⟩]
          · rw [Function.update_noteq hxi, if_neg (by omega)]
      · intro x
        rw [ih3 x]
        simp only [IxNodeHandle.set_key, IxNodeHandle.set_rid]
        by_cases hx : i + 1 ≤ x ∧ x < node.num_key
        · rw [if_pos hx, if_pos ⟨by omega, hx.2⟩, Function.update_noteq (by omega)]
        · rw [if_neg hx]
          by_cases hxi : x = i
          · subst hxi
            rw [Function.update_same, if_pos ⟨le_refl _, hlt⟩]
          · rw [Function.update_noteq hxi, if_neg (by omega)]
    · rw [if_neg hlt]
      refine ⟨rfl, ?_, ?_⟩ <;> intro x <;> rw [if_neg (by omega)]

/-- What `erase_pair` does for a position `pos >= 0`, below `num_key` or not: the key count
decreases by one, every slot of `[pos, num_key)` receives the pair of the next slot, and the
other slots are unchanged. -/
theorem erase_pair_eq {K : Type} (node : IxNodeHandle K) (pos : Nat) :
    (node.erase_pair pos).num_key = node.num_key - 1 ∧
    (∀ x, (node.erase_pair pos).keys x =
      if pos ≤ x ∧ x < node.num_key then node.keys (x + 1) else node.keys x) ∧
    (∀ x, (node.erase_pair pos).rids x =
      if pos ≤ x ∧ x < node.num_key then node.rids (x + 1) else node.rids x) := by
  obtain ⟨h1, h2, h3⟩ := erase_pair_loop_spec (node.num_key - pos).toNat pos node
    (by omega)
  simp only [IxNodeHandle.erase_pair, IxNodeHandle.SetSize, IxNodeHandle.GetSize]
  exact ⟨by rw [h1], h2, h3⟩

/-- The loop of `lower_bound` never goes below its start index. -/
theorem lower_bound_loop_ge {K : Type} [LinearOrder K] (keys : Int → K) (target : K)
    (fuel : Nat) (lo hi : Int) : lo ≤ lower_bound_loop keys target fuel lo hi := by
  induction fuel generalizing lo hi with
  | zero => exact le_refl _
  | succ fuel ih =>
    simp only [lower_bound_loop]
    by_cases hlt : lo < hi
    · rw [if_pos hlt]
      by_cases hcmp : ix_compare (keys ((lo + hi) / 2)) target ≥ 0
      · rw [if_pos hcmp]
        exact ih lo ((lo + hi) / 2)
      · rw [if_neg hcmp]
        have := ih ((lo + hi) / 2 + 1) hi
        omega
    · rw [if_neg hlt]

/-- The index that `lower_bound` returns is never negative, for any node. -/
theorem lower_bound_nonneg {K : Type} [LinearOrder K] (node : IxNodeHandle K) (target : K) :
    0 ≤ node.lower_bound target := by
  unfold IxNodeHandle.lower_bound
  exact lower_bound_loop_ge _ _ _ _ _

/-- The first loop of `insert_pairs` for `n >= 0`, started at `i` with enough fuel: every
slot of `[pos + n, i + n]` receives the pair that was `n` slots below; nothing is
overwritten before it is copied. -/
theorem insert_pairs_shift_spec {K : Type} (n pos : Int) (hn : 0 ≤ n) (fuel : Nat) (i : Int)
    (node : IxNodeHandle K) (hfuel : i - pos + 1 ≤ fuel) :
    (insert_pairs_shift n pos fuel i node).num_key = node.num_key ∧
    (∀ x, (insert_pairs_shift n pos fuel i node).keys x =
      if pos + n ≤ x ∧ x ≤ i + n then node.keys (x - n) else node.keys x) ∧
    (∀ x, (insert_pairs_shift n pos fuel i node).rids x =
      if pos + n ≤ x ∧ x ≤ i + n then node.rids (x - n) else node.rids x) := by
  induction fuel generalizing i node with
  | zero =>
    have h0 : i - pos + 1 ≤ 0 := by exact_mod_cast hfuel
    refine ⟨rfl, ?_, ?_⟩ <;> intro x <;> rw [if_neg (by omega)] <;> rfl
  | succ fuel ih =>
    have h1 : i - pos + 1 ≤ (fuel : Int) + 1 := by exact_mod_cast hfuel
    simp only [insert_pairs_shift]
    by_cases hge : i ≥ pos
    · rw [if_pos hge]
      obtain ⟨ih1, ih2, ih3⟩ := ih (i - 1)
        ((node.set_key (i + n) (node.keys i)).set_rid (i + n) (node.rids i)) (by omega)
      refine ⟨ih1, ?_, ?_⟩
      · intro x
        rw [ih2 x]
        simp only [IxNodeHandle.set_key, IxNodeHandle.set_rid]
        by_cases hx : pos + n ≤ x ∧ x ≤ i - 1 + n
        · rw [if_pos hx, if_pos ⟨hx.1, by omega⟩, Function.update_noteq (by omega)]
        · rw [if_neg hx]
          by_cases hxi : x = i + n
          · subst hxi
            rw [Function.update_same, if_pos ⟨by omega, le_refl _⟩]
            congr 1
            omega
          · rw [Function.update_noteq hxi, if_neg (by omega)]
      · intro x
        rw [ih3 x]
        simp only [IxNodeHandle.set_key, IxNodeHandle.set_rid]
        by_cases hx : pos + n ≤ x ∧ x ≤ i - 1 + n
        · rw [if_pos hx, if_pos ⟨hx.1, by omega⟩, Function.update_noteq (by omega)]
        · rw [if_neg hx]
          by_cases hxi : x = i + n
          · subst hxi
            rw [Function.update_same, if_pos ⟨by omega, le_refl _⟩]
            congr 1
            omega
          · rw [Function.update_noteq hxi, if_neg (by omega)]
    · rw [if_neg hge]
      refine ⟨rfl, ?_, ?_⟩ <;> intro x <;> rw [if_neg (by omega)]

/-- The second loop of `insert_pairs`, started at `j` with enough fuel: every slot of
`[pos + j, pos + n)` receives the new pair of its offset. -/
theorem insert_pairs_write_spec {K : Type} (pos : Int) (key : Int → K) (rid : Int → Rid)
    (n : Int) (fuel : Nat) (j : Int) (node : IxNodeHandle K) (hfuel : n - j ≤ fuel) :
    (insert_pairs_write pos key rid n fuel j node).num_key = node.num_key ∧
    (∀ x, (insert_pairs_write pos key rid n fuel j node).keys x =
      if pos + j ≤ x ∧ x < pos + n then key (x - pos) else node.keys x) ∧
    (∀ x, (insert_pairs_write pos key rid n fuel j node).rids x =
      if pos + j ≤ x ∧ x < pos + n then rid (x - pos) else node.rids x) := by
  induction fuel generalizing j node with
  | zero =>
    have h0 : n - j ≤ 0 := by exact_mod_cast hfuel
    refine ⟨rfl, ?_, ?_⟩ <;> intro x <;> rw [if_neg (by omega)] <;> rfl
  | succ fuel ih =>
    have h1 : n - j ≤ (fuel : Int) + 1 := by exact_mod_cast hfuel
    simp only [insert_pairs_write]
    by_cases hlt : j < n
    · rw [if_pos hlt]
      obtain ⟨ih1, ih2, ih3⟩ := ih (j + 1)
        ((node.set_key (pos + j) (key j)).set_rid (pos + j) (rid j)) (by omega)
      refine ⟨ih1, ?_, ?_⟩
      · intro x
        rw [ih2 x]
        simp only [IxNodeHandle.set_key, IxNodeHandle.set_rid]
        by_cases hx : pos + (j + 1) ≤ x ∧ x < pos + n
        · rw [if_pos hx, if_pos ⟨by omega, hx.2⟩]
        · rw [if_neg hx]
          by_cases hxi : x = pos + j
          · subst hxi
            rw [Function.update_same, if_pos ⟨le_refl _, by omega⟩]
            congr 1
            omega
          · rw [Function.update_noteq hxi, if_neg (by omega)]
      · intro x
        rw [ih3 x]
        simp only [IxNodeHandle.set_key, IxNodeHandle.set_rid]
        by_cases hx : pos + (j + 1) ≤ x ∧ x < pos + n
        · rw [if_pos hx, if_pos ⟨by omega, hx.2⟩]
        · rw [if_neg hx]
          by_cases hxi : x = pos + j
          · subst hxi
            rw [Function.update_same, if_pos ⟨le_refl _, by omega⟩]
            congr 1
            omega
          · rw [Function.update_noteq hxi, if_neg (by omega)]
    · rw [if_neg hlt]
      refine ⟨rfl, ?_, ?_⟩ <;> intro x <;> rw [if_neg (by omega)]

/-- What `insert_pairs` does for `0 <= pos <= num_key` and `n >= 0`: the key count grows by
`n`, the slots of `[pos, pos + n)` hold the new pairs, the slots of
`[pos + n, num_key + n)` hold the pairs that were `n` slots below, and the other slots are
unchanged. -/
theorem insert_pairs_eq {K : Type} (node : IxNodeHandle K) (pos : Int) (key : Int → K)
    (rid : Int → Rid) (n : Int) (hpos0 : 0 ≤ pos) (hpos : pos ≤ node.num_key) (hn : 0 ≤ n) :
    (node.insert_pairs pos key rid n).num_key = node.num_key + n ∧
    (∀ x, (node.insert_pairs pos key rid n).keys x =
      if pos ≤ x ∧ x < pos + n then key (x - pos)
      else if pos + n ≤ x ∧ x < node.num_key + n then node.keys (x - n) else node.keys x) ∧
    (∀ x, (node.insert_pairs pos key rid n).rids x =
      if pos ≤ x ∧ x < pos + n then rid (x - pos)
      else if pos + n ≤ x ∧ x < node.num_key + n then node.rids (x - n) else node.rids x) := by
  obtain ⟨s1, s2, s3⟩ := insert_pairs_shift_spec n pos hn (node.num_key - pos).toNat
    (node.num_key - 1) node (by omega)
  obtain ⟨w1, w2, w3⟩ := insert_pairs_write_spec pos key rid n n.toNat 0
    (insert_pairs_shift n pos (node.num_key - pos).toNat (node.num_key - 1) node) (by omega)
  have hguard : ¬ ¬ (pos ≥ 0 ∧ pos ≤ node.num_key) := not_not.mpr ⟨hpos0, hpos⟩
  simp only [IxNodeHandle.insert_pairs, IxNodeHandle.GetSize, if_neg hguard,
    IxNodeHandle.SetSize]
  refine ⟨trivial, ?_, ?_⟩
  · intro x
    rw [w2 x, s2 x]
    by_cases hx : pos ≤ x ∧ x < pos + n
    · rw [if_pos ⟨by omega, hx.2⟩, if_pos hx]
    · rw [if_neg (by omega), if_neg hx]
      by_cases hx2 : pos + n ≤ x ∧ x < node.num_key + n
      · rw [if_pos ⟨hx2.1, by omega⟩, if_pos hx2]
      · rw [if_neg (by omega), if_neg hx2]
  · intro x
    rw [w3 x, s3 x]
    by_cases hx : pos ≤ x ∧ x < pos + n
    · rw [if_pos ⟨by omega, hx.2⟩, if_pos hx]
    · rw [if_neg (by omega), if_neg hx]
      by_cases hx2 : pos + n ≤ x ∧ x < node.num_key + n
      · rw [if_pos ⟨hx2.1, by omega⟩, if_pos hx2]
      · rw [if_neg (by omega), if_neg hx2]

/-- A list read off slots `0 .. m - 2` that agrees with the slots of `f` below `p` and with
the next slot of `f` from `p` on is the list of `f` with index `p` erased. -/
theorem map_range_eraseIdx {α : Type} (f g : Nat → α) (m p : Nat) (hp : p < m)
    (h1 : ∀ i, i < p → g i = f i) (h2 : ∀ i, p ≤ i → i < m - 1 → g i = f (i + 1)) :
    (List.range (m - 1)).map g = ((List.range m).map f).eraseIdx p := by
  apply List.ext_getElem
  · simp [List.length_eraseIdx, hp]
  · intro i hi1 hi2
    simp only [List.length_map, List.length_range] at hi1
    rw [List.getElem_eraseIdx]
    by_cases hip : i < p
    · simp [hip, h1 i hip]
    · simp [hip, h2 i (by omega) hi1]

/-- A list read off slots `0 .. m + n - 1` that agrees with `f` below `p`, with `k` on the
next `n` slots and with `f` shifted by `n` after them is the list of `f` with the list of `k`
inserted at index `p`. -/
theorem map_range_insert {α : Type} (f g k : Nat → α) (m n p : Nat) (hp : p ≤ m)
    (h1 : ∀ i, i < p → g i = f i) (h2 : ∀ j, j < n → g (p + j) = k j)
    (h3 : ∀ i, p ≤ i → i < m → g (i + n) = f i) :
    (List.range (m + n)).map g =
      ((List.range m).map f).take p ++ (List.range n).map k ++
        ((List.range m).map f).drop p := by
  apply List.ext_getElem
  · simp; omega
  · intro i hi1 hi2
    simp only [List.length_map, List.length_range] at hi1
    by_cases hip : i < p
    · rw [List.getElem_append_left (by simp; omega), List.getElem_append_left (by simp; omega)]
      simp [h1 i hip]
    · by_cases hin : i < p + n
      · rw [List.getElem_append_left (by simp; omega),
          List.getElem_append_right (by simp; omega)]
        have := h2 (i - p) (by omega)
        have e : p + (i - p) = i := by omega
        rw [e] at this
        simp [this, Nat.min_eq_left hp]
      · rw [List.getElem_append_right (by simp; omega)]
        have := h3 (i - n) (by omega) (by omega)
        have e : i - n + n = i := by omega
        rw [e] at this
        simp [this, Nat.min_eq_left hp]
        congr 1
        omega

/-- C22: for a node with `num_key = m`, `0 <= pos <= m` and `n >= 0` new pairs, after
`insert_pairs pos key rid n` the key count is `m + n`; the key sequence is the old keys
before `pos`, then the `n` new keys, then the old keys from `pos` on, and the rid sequence is
rearranged in the same way.  Slot by slot: every slot below `pos` holds its old pair; slot
`pos + j` holds the `j`-th new pair for `0 <= j < n`; slot `i + n` holds the old pair of slot
`i` for `pos <= i < m`.  Keys and rids move together, so every old pair keeps its
association and its relative order. -/
theorem insert_pairs_spec {K : Type} (node : IxNodeHandle K) (pos : Int) (key : Int → K)
    (rid : Int → Rid) (n : Int) (hpos0 : 0 ≤ pos) (hpos : pos ≤ node.num_key) (hn : 0 ≤ n) :
    (node.insert_pairs pos key rid n).GetSize = node.GetSize + n ∧
    (node.insert_pairs pos key rid n).key_list =
      node.key_list.take pos.toNat ++ (List.range n.toNat).map (fun (j : Nat) => key (j : Int)) ++
        node.key_list.drop pos.toNat ∧
    (node.insert_pairs pos key rid n).rid_list =
      node.rid_list.take pos.toNat ++ (List.range n.toNat).map (fun (j : Nat) => rid (j : Int)) ++
        node.rid_list.drop pos.toNat ∧
    (∀ i, 0 ≤ i → i < pos →
      (node.insert_pairs pos key rid n).keys i = node.keys i ∧
      (node.insert_pairs pos key rid n).rids i = node.rids i) ∧
    (∀ j, 0 ≤ j → j < n →
      (node.insert_pairs pos key rid n).keys (pos + j) = key j ∧
      (node.insert_pairs pos key rid n).rids (pos + j) = rid j) ∧
    (∀ i, pos ≤ i → i < node.num_key →
      (node.insert_pairs pos key rid n).keys (i + n) = node.keys i ∧
      (node.insert_pairs pos key rid n).rids (i + n) = node.rids i) := by
  obtain ⟨h1, h2, h3⟩ := insert_pairs_eq node pos key rid n hpos0 hpos hn
  have hm : 0 ≤ node.num_key := le_trans hpos0 hpos
  have hsz : (node.insert_pairs pos key rid n).num_key.toNat = node.num_key.toNat + n.toNat := by
    rw [h1]
    omega
  refine ⟨h1, ?_, ?_, ?_, ?_, ?_⟩
  · simp only [IxNodeHandle.key_list]
    rw [hsz]
    apply map_range_insert _ _ _ _ _ _ (by omega)
    · intro i hi
      rw [h2 i, if_neg (by omega), if_neg (by omega)]
    · intro j hj
      have c : pos ≤ ((pos.toNat + j : Nat) : Int) ∧ ((pos.toNat + j : Nat) : Int) < pos + n := by
        omega
      have e : ((pos.toNat + j : Nat) : Int) - pos = (j : Int) := by omega
      rw [h2 _, if_pos c, e]
    · intro i hi0 hi
      have c1 : ¬ (pos ≤ ((i + n.toNat : Nat) : Int) ∧ ((i + n.toNat : Nat) : Int) < pos + n) := by
        omega
      have c2 : pos + n ≤ ((i + n.toNat : Nat) : Int) ∧
          ((i + n.toNat : Nat) : Int) < node.num_key + n := by omega
      have e : ((i + n.toNat : Nat) : Int) - n = (i : Int) := by omega
      rw [h2 _, if_neg c1, if_pos c2, e]
  · simp only [IxNodeHandle.rid_list]
    rw [hsz]
    apply map_range_insert _ _ _ _ _ _ (by omega)
    · intro i hi
      rw [h3 i, if_neg (by omega), if_neg (by omega)]
    · intro j hj
      have c : pos ≤ ((pos.toNat + j : Nat) : Int) ∧ ((pos.toNat + j : Nat) : Int) < pos + n := by
        omega
      have e : ((pos.toNat + j : Nat) : Int) - pos = (j : Int) := by omega
      rw [h3 _, if_pos c, e]
    · intro i hi0 hi
      have c1 : ¬ (pos ≤ ((i + n.toNat : Nat) : Int) ∧ ((i + n.toNat : Nat) : Int) < pos + n) := by
        omega
      have c2 : pos + n ≤ ((i + n.toNat : Nat) : Int) ∧
          ((i + n.toNat : Nat) : Int) < node.num_key + n := by omega
      have e : ((i + n.toNat : Nat) : Int) - n = (i : Int) := by omega
      rw [h3 _, if_neg c1, if_pos c2, e]
  · intro i _ hi
    rw [h2 i, h3 i, if_neg (by omega), if_neg (by omega), if_neg (by omega), if_neg (by omega)]
    exact ⟨rfl, rfl⟩
  · intro j hj0 hj
    rw [h2 (pos + j), h3 (pos + j), if_pos ⟨by omega, by omega⟩, if_pos ⟨by omega, by omega⟩]
    have e : pos + j - pos = j := by omega
    rw [e]
    exact ⟨rfl, rfl⟩
  · intro i hi0 hi
    have c1 : ¬ (pos ≤ i + n ∧ i + n < pos + n) := by omega
    have c2 : pos + n ≤ i + n ∧ i + n < node.num_key + n := by omega
    have e : i + n - n = i := by omega
    rw [h2 (i + n), h3 (i + n), if_neg c1, if_neg c1, if_pos c2, if_pos c2, e]
    exact ⟨rfl, rfl⟩

/-- C22 at `exNode` (keys `[10, 20, 30]`): two pairs with keys 12 and 15 inserted at
position 1 give the keys `[10, 12, 15, 20, 30]`. -/
theorem insert_pairs_spec_witness :
    (0 : Int) ≤ 1 ∧ (1 : Int) ≤ exNode.num_key ∧
    (exNode.insert_pairs 1 (fun j => 12 + 3 * j) (fun j => ⟨7, j⟩) 2).key_list
      = [10, 12, 15, 20, 30] ∧
    (exNode.insert_pairs 1 (fun j => 12 + 3 * j) (fun j => ⟨7, j⟩) 2).GetSize
      = exNode.GetSize + 2 :=
  ⟨by decide, by decide, by decide,
    (insert_pairs_spec exNode 1 (fun j => 12 + 3 * j) (fun j => ⟨7, j⟩) 2 (by decide)
      (by decide) (by decide)).1⟩

/-- For `0 <= pos < num_key`, the key sequence and the rid sequence after `erase_pair pos`
are the old ones with index `pos` erased. -/
theorem erase_pair_lists {K : Type} (node : IxNodeHandle K) (pos : Nat)
    (hpos : (pos : Int) < node.num_key) :
    (node.erase_pair pos).key_list = node.key_list.eraseIdx pos ∧
    (node.erase_pair pos).rid_list = node.rid_list.eraseIdx pos := by
  obtain ⟨h1, h2, h3⟩ := erase_pair_eq node pos
  have hsz : (node.erase_pair pos).num_key.toNat = node.num_key.toNat - 1 := by
    rw [h1]
    omega
  refine ⟨?_, ?_⟩
  · simp only [IxNodeHandle.key_list]
    rw [hsz]
    apply map_range_eraseIdx _ _ _ _ (by omega)
    · intro i hi
      rw [h2 i, if_neg (by omega)]
    · intro i hi0 hi
      have c : (pos : Int) ≤ (i : Int) ∧ (i : Int) < node.num_key := by omega
      rw [h2 i, if_pos c]
      rfl
  · simp only [IxNodeHandle.rid_list]
    rw [hsz]
    apply map_range_eraseIdx _ _ _ _ (by omega)
    · intro i hi
      rw [h3 i, if_neg (by omega)]
    · intro i hi0 hi
      have c : (pos : Int) ≤ (i : Int) ∧ (i : Int) < node.num_key := by omega
      rw [h3 i, if_pos c]
      rfl

/-- C26: for a node with `num_key = m` and `0 <= pos < m`, after `erase_pair pos` the key
count is `m - 1`; the key sequence is the old one with index `pos` erased, and so is the rid
sequence.  Slot by slot: every slot below `pos` holds its old pair; slot `i` holds the old
pair of slot `i + 1` for `pos <= i < m - 1`.  Keys and rids move together, so the remaining
pairs keep their association and order. -/
theorem erase_pair_spec {K : Type} (node : IxNodeHandle K) (pos : Nat)
    (hpos : (pos : Int) < node.num_key) :
    (node.erase_pair pos).GetSize = node.GetSize - 1 ∧
    (node.erase_pair pos).key_list = node.key_list.eraseIdx pos ∧
    (node.erase_pair pos).rid_list = node.rid_list.eraseIdx pos ∧
    (∀ i, 0 ≤ i → i < (pos : Int) →
      (node.erase_pair pos).keys i = node.keys i ∧
      (node.erase_pair pos).rids i = node.rids i) ∧
    (∀ i, (pos : Int) ≤ i → i < node.num_key - 1 →
      (node.erase_pair pos).keys i = node.keys (i + 1) ∧
      (node.erase_pair pos).rids i = node.rids (i + 1)) := by
  obtain ⟨h1, h2, h3⟩ := erase_pair_eq node pos
  obtain ⟨l1, l2⟩ := erase_pair_lists node pos hpos
  refine ⟨h1, l1, l2, ?_, ?_⟩
  · intro i _ hi
    rw [h2 i, h3 i, if_neg (by omega), if_neg (by omega)]
    exact ⟨rfl, rfl⟩
  · intro i hi0 hi
    rw [h2 i, h3 i, if_pos ⟨by omega, by omega⟩, if_pos ⟨by omega, by omega⟩]
    exact ⟨rfl, rfl⟩

/-- C26 at `exNode` (keys `[10, 20, 30]`): erasing position 1 gives the keys `[10, 30]`
with the rids of the old slots 0 and 2. -/
theorem erase_pair_spec_witness :
    ((1 : Nat) : Int) < exNode.num_key ∧
    (exNode.erase_pair 1).key_list = [10, 30] ∧
    (exNode.erase_pair 1).rid_list = [⟨0, 0⟩, ⟨2, 2⟩] ∧
    (exNode.erase_pair 1).GetSize = exNode.GetSize - 1 :=
  ⟨by decide, by decide, by decide, (erase_pair_spec exNode 1 (by decide)).1⟩

/-- C23: for `0 <= pos <= num_key`, `insert_pair pos k v` followed by `erase_pair pos`
restores the key count and the first `num_key` keys and rids.  On the keys `[10, 20, 30]` of
`exNode`, inserting `(15, v)` at position 1 gives `[10, 15, 20, 30]` and `erase_pair 1` then
gives `[10, 20, 30]`. -/
theorem insert_pair_erase_pair {K : Type} (node : IxNodeHandle K) (pos : Nat) (k : K)
    (v : Rid) (hpos : (pos : Int) ≤ node.num_key) :
    ((node.insert_pair pos k v).erase_pair pos).GetSize = node.GetSize ∧
    (∀ i, 0 ≤ i → i < node.num_key →
      ((node.insert_pair pos k v).erase_pair pos).keys i = node.keys i ∧
      ((node.insert_pair pos k v).erase_pair pos).rids i = node.rids i) ∧
    (exNode.key_list = [10, 20, 30] ∧
      (exNode.insert_pair 1 15 v).key_list = [10, 15, 20, 30] ∧
      ((exNode.insert_pair 1 15 v).erase_pair 1).key_list = [10, 20, 30]) := by
  obtain ⟨i1, i2, i3⟩ := insert_pairs_eq node pos (fun _ => k) (fun _ => v) 1 (by omega) hpos
    (by omega)
  obtain ⟨e1, e2, e3⟩ := erase_pair_eq (node.insert_pair pos k v) pos
  have hins : node.insert_pair pos k v = node.insert_pairs pos (fun _ => k) (fun _ => v) 1 :=
    rfl
  rw [hins] at e1 e2 e3 ⊢
  refine ⟨?_, ?_, rfl, rfl, rfl⟩
  · simp only [IxNodeHandle.GetSize]
    rw [e1, i1]
    omega
  · intro i hi0 hi
    rw [e2 i, e3 i, i1]
    by_cases hx : (pos : Int) ≤ i
    · have c0 : (pos : Int) ≤ i ∧ i < node.num_key + 1 := by omega
      have c1 : ¬ ((pos : Int) ≤ i + 1 ∧ i + 1 < (pos : Int) + 1) := by omega
      have c2 : (pos : Int) + 1 ≤ i + 1 ∧ i + 1 < node.num_key + 1 := by omega
      have e : i + 1 - 1 = i := by omega
      rw [if_pos c0, if_pos c0, i2 (i + 1), i3 (i + 1), if_neg c1, if_neg c1, if_pos c2,
        if_pos c2, e]
      exact ⟨rfl, rfl⟩
    · have c0 : ¬ ((pos : Int) ≤ i ∧ i < node.num_key + 1) := by omega
      have c1 : ¬ ((pos : Int) ≤ i ∧ i < (pos : Int) + 1) := by omega
      have c2 : ¬ ((pos : Int) + 1 ≤ i ∧ i < node.num_key + 1) := by omega
      rw [if_neg c0, if_neg c0, i2 i, i3 i, if_neg c1, if_neg c1, if_neg c2, if_neg c2]
      exact ⟨rfl, rfl⟩

/-- C23 at `exNode`, position 1, pair `(15, (7,7))`. -/
theorem insert_pair_erase_pair_witness :
    ((1 : Nat) : Int) ≤ exNode.num_key ∧
    ((exNode.insert_pair 1 15 ⟨7, 7⟩).erase_pair 1).GetSize = exNode.GetSize ∧
    ((exNode.insert_pair 1 15 ⟨7, 7⟩).erase_pair 1).rid_list = exNode.rid_list :=
  ⟨by decide, (insert_pair_erase_pair exNode 1 15 ⟨7, 7⟩ (by decide)).1, by decide⟩

/-- C29 as stated fails for `erase_pair`, which has no check of `pos`.  On `exNode`
(`num_key = 3`, keys `[10, 20, 30]`, rids `(0,0)`, `(1,1)`, `(2,2)`) `erase_pair 5` lowers the
key count to 2, so the pair of key 30 is no longer among the first `num_key` pairs. -/
theorem out_of_range_counterexample :
    exNode.num_key = 3 ∧ exNode.key_list = [10, 20, 30] ∧
    ((5 : Nat) : Int) ≥ exNode.num_key ∧ (exNode.erase_pair 5).num_key = 2 ∧
    (exNode.erase_pair 5).num_key ≠ exNode.num_key ∧
    (exNode.erase_pair 5).key_list = [10, 20] ∧
    (exNode.erase_pair 5).rid_list = [⟨0, 0⟩, ⟨1, 1⟩] := by
  decide

/-- C29, amended: `insert_pairs` with `pos < 0` or `pos > num_key` leaves the node as it is.
`erase_pair` does not check `pos`: with `pos >= num_key` (and `pos >= 0`) it leaves every key
and rid slot unchanged and lowers the key count by one, so that the last pair drops out of
the first `num_key` pairs. -/
theorem out_of_range_positions {K : Type} (node : IxNodeHandle K) (pos : Int)
    (key : Int → K) (rid : Int → Rid) (n : Int) :
    ((pos < 0 ∨ pos > node.num_key) → node.insert_pairs pos key rid n = node) ∧
    (∀ p : Nat, (p : Int) ≥ node.num_key →
      (node.erase_pair p).GetSize = node.GetSize - 1 ∧
      ∀ x, (node.erase_pair p).keys x = node.keys x ∧
        (node.erase_pair p).rids x = node.rids x) := by
  refine ⟨?_, ?_⟩
  · intro hpos
    have hguard : ¬ (pos ≥ 0 ∧ pos ≤ node.num_key) := by omega
    simp only [IxNodeHandle.insert_pairs, IxNodeHandle.GetSize, if_pos hguard]
  · intro p hp
    obtain ⟨h1, h2, h3⟩ := erase_pair_eq node p
    refine ⟨h1, ?_⟩
    intro x
    have c : ¬ ((p : Int) ≤ x ∧ x < node.num_key) := by omega
    rw [h2 x, h3 x, if_neg c, if_neg c]
    exact ⟨rfl, rfl⟩

/-- C29, amended, at `exNode`: `insert_pairs` at position 4 and at position -1 changes
nothing; `erase_pair 5` keeps every slot and lowers the key count from 3 to 2. -/
theorem out_of_range_positions_witness :
    ((4 : Int) < 0 ∨ (4 : Int) > exNode.num_key) ∧
    exNode.insert_pairs 4 (fun _ => 15) (fun _ => ⟨7, 7⟩) 1 = exNode ∧
    ((-1 : Int) < 0 ∨ (-1 : Int) > exNode.num_key) ∧
    exNode.insert_pairs (-1) (fun _ => 15) (fun _ => ⟨7, 7⟩) 1 = exNode ∧
    ((5 : Nat) : Int) ≥ exNode.num_key ∧
    ((exNode.erase_pair 5).GetSize = exNode.GetSize - 1 ∧
      ∀ x, (exNode.erase_pair 5).keys x = exNode.keys x ∧
        (exNode.erase_pair 5).rids x = exNode.rids x) :=
  ⟨by decide,
    (out_of_range_positions exNode 4 (fun _ => 15) (fun _ => ⟨7, 7⟩) 1).1 (by decide),
    by decide,
    (out_of_range_positions exNode (-1) (fun _ => 15) (fun _ => ⟨7, 7⟩) 1).1 (by decide),
    by decide,
    (out_of_range_positions exNode 4 (fun _ => 15) (fun _ => ⟨7, 7⟩) 1).2 5 (by decide)⟩

/-! ### Finding a child in its parent -/

/-- The scan of `find_child`, started at `rid_idx` with enough fuel: it ends at the first
index from `rid_idx` on that stores the page number, or at `num_key`. -/
theorem find_child_loop_spec (rids : Int → Rid) (child_page_no num_key : Int) (fuel : Nat)
    (rid_idx : Int) (hfuel : num_key - rid_idx ≤ fuel) :
    rid_idx ≤ find_child_loop rids child_page_no num_key fuel rid_idx ∧
    (∀ x, rid_idx ≤ x → x < find_child_loop rids child_page_no num_key fuel rid_idx →
      (rids x).page_no ≠ child_page_no) ∧
    (find_child_loop rids child_page_no num_key fuel rid_idx < num_key →
      (rids (find_child_loop rids child_page_no num_key fuel rid_idx)).page_no
        = child_page_no) := by
  induction fuel generalizing rid_idx with
  | zero =>
    have h0 : num_key - rid_idx ≤ 0 := by exact_mod_cast hfuel
    simp only [find_child_loop]
    exact ⟨le_refl _, fun x h1 h2 => by omega, fun h => by omega⟩
  | succ fuel ih =>
    have h1 : num_key - rid_idx ≤ (fuel : Int) + 1 := by exact_mod_cast hfuel
    simp only [find_child_loop]
    by_cases hlt : rid_idx < num_key
    · rw [if_pos hlt]
      by_cases hmatch : (rids rid_idx).page_no = child_page_no
      · rw [if_pos hmatch]
        exact ⟨le_refl _, fun x h1 h2 => by omega, fun _ => hmatch⟩
      · rw [if_neg hmatch]
        obtain ⟨ih1, ih2, ih3⟩ := ih (rid_idx + 1) (by omega)
        refine ⟨by omega, ?_, ih3⟩
        intro x hx1 hx2
        by_cases hx : x = rid_idx
        · rw [hx]
          exact hmatch
        · exact ih2 x (by omega) hx2
    · rw [if_neg hlt]
      exact ⟨le_refl _, fun x h1 h2 => by omega, fun h => by omega⟩

/-- C30: if some index `i` of `[0, num_key)` stores the child page number, `find_child`
returns the smallest such index, which lies in `[0, num_key)` and stores the child page
number; the assertion fails (`none`) exactly when no index below `num_key` stores it. -/
theorem find_child_spec {K : Type} (node : IxNodeHandle K) (child_page_no : Int) :
    ((∃ i, 0 ≤ i ∧ i < node.num_key ∧ (node.rids i).page_no = child_page_no) →
      ∃ r, node.find_child child_page_no = some r ∧ 0 ≤ r ∧ r < node.num_key ∧
        (node.rids r).page_no = child_page_no ∧
        ∀ j, 0 ≤ j → j < r → (node.rids j).page_no ≠ child_page_no) ∧
    (node.find_child child_page_no = none ↔
      ¬ ∃ i, 0 ≤ i ∧ i < node.num_key ∧ (node.rids i).page_no = child_page_no) := by
  obtain ⟨h1, h2, h3⟩ := find_child_loop_spec node.rids child_page_no node.num_key
    node.num_key.toNat 0 (by omega)
  have hA : (∃ i, 0 ≤ i ∧ i < node.num_key ∧ (node.rids i).page_no = child_page_no) →
      find_child_loop node.rids child_page_no node.num_key node.num_key.toNat 0
        < node.num_key := by
    rintro ⟨i, hi0, hi1, hi2⟩
    by_contra hge
    exact h2 i hi0 (by omega) hi2
  refine ⟨?_, ?_⟩
  · intro hex
    have hlt := hA hex
    refine ⟨_, ?_, h1, hlt, h3 hlt, fun j hj0 hj1 => h2 j hj0 hj1⟩
    simp only [IxNodeHandle.find_child, if_pos hlt]
  · constructor
    · intro hnone hex
      have hlt := hA hex
      simp [IxNodeHandle.find_child, if_pos hlt] at hnone
    · intro hno
      have hge : ¬ find_child_loop node.rids child_page_no node.num_key node.num_key.toNat 0
          < node.num_key := fun hlt => hno ⟨_, h1, hlt, h3 hlt⟩
      simp only [IxNodeHandle.find_child, if_neg hge]

/-- C30 at `exNode`, whose rid slots 0, 1, 2 store the page numbers 0, 1, 2: the child on
page 2 is found at index 2, and looking for page 3 fails the assertion. -/
theorem find_child_spec_witness :
    (∃ r, exNode.find_child 2 = some r ∧ 0 ≤ r ∧ r < exNode.num_key ∧
      (exNode.rids r).page_no = 2 ∧ ∀ j, 0 ≤ j → j < r → (exNode.rids j).page_no ≠ 2) ∧
    exNode.find_child 2 = some 2 ∧ exNode.find_child 3 = none :=
  ⟨(find_child_spec exNode 2).1 ⟨2, by decide, by decide, by decide⟩, by decide, by decide⟩

/-! ### Search in an internal node (`src/Lab2`) -/

/-- `ix_compare a b > 0` says that `a` is above `b`. -/
theorem ix_compare_pos {K : Type} [LinearOrder K] (a b : K) :
    ix_compare a b > 0 ↔ b < a := by
  unfold ix_compare
  by_cases h1 : a < b
  · simp [h1, not_lt.mpr (le_of_lt h1)]
  · by_cases h2 : b < a
    · simp [h1, h2]
    · simp [h1, h2]

/-- The loop of `upper_bound` of `src/Lab2` on keys that ascend over `[a, n)`: started on
`[lo, hi)` with every key of `[a, lo)` not above the target and every key of `[hi, n)` above
it, and with fuel for `hi - lo` iterations, it ends at the index `r` of `[lo, hi]` that
separates the keys not above the target from the keys above it. -/
theorem upper_bound_loop_Lab2_spec {K : Type} [LinearOrder K] (keys : Int → K) (target : K)
    (a n : Int) (hsorted : ∀ i j, a ≤ i → i ≤ j → j < n → keys i ≤ keys j)
    (fuel : Nat) (lo hi : Int) (halo : a ≤ lo) (hle : lo ≤ hi) (hn : hi ≤ n)
    (hfuel : hi - lo ≤ fuel)
    (hlow : ∀ i, a ≤ i → i < lo → keys i ≤ target)
    (hhigh : ∀ i, hi ≤ i → i < n → target < keys i) :
    lo ≤ upper_bound_loop_Lab2 keys target fuel lo hi ∧
    upper_bound_loop_Lab2 keys target fuel lo hi ≤ hi ∧
    (∀ i, a ≤ i → i < upper_bound_loop_Lab2 keys target fuel lo hi → keys i ≤ target) ∧
    (∀ i, upper_bound_loop_Lab2 keys target fuel lo hi ≤ i → i < n → target < keys i) := by
  induction fuel generalizing lo hi with
  | zero =>
    have hlohi : lo = hi := by
      have : hi - lo ≤ 0 := by exact_mod_cast hfuel
      omega
    subst hlohi
    simp only [upper_bound_loop_Lab2]
    exact ⟨le_refl _, le_refl _, hlow, hhigh⟩
  | succ fuel ih =>
    have hfuel1 : hi - lo ≤ (fuel : Int) + 1 := by exact_mod_cast hfuel
    simp only [upper_bound_loop_Lab2]
    by_cases hlt : lo < hi
    · rw [if_pos hlt]
      have hmid1 : lo ≤ (lo + hi) / 2 := by omega
      have hmid2 : (lo + hi) / 2 < hi := by omega
      by_cases hcmp : ix_compare (keys ((lo + hi) / 2)) target > 0
      · rw [if_pos hcmp]
        have hkey : target < keys ((lo + hi) / 2) := (ix_compare_pos _ _).mp hcmp
        have := ih lo ((lo + hi) / 2) halo hmid1 (by omega) (by omega) hlow
          (fun i hi1 hi2 => lt_of_lt_of_le hkey (hsorted _ _ (by omega) hi1 hi2))
        exact ⟨this.1, by omega, this.2.2.1, this.2.2.2⟩
      · rw [if_neg hcmp]
        have hkey : keys ((lo + hi) / 2) ≤ target := by
          rw [ix_compare_pos] at hcmp
          exact not_lt.mp hcmp
        have := ih ((lo + hi) / 2 + 1) hi (by omega) (by omega) hn (by omega)
          (fun i hi1 hi2 => le_trans (hsorted _ _ hi1 (by omega) (by omega)) hkey)
          hhigh
        exact ⟨by omega, this.2.1, this.2.2.1, this.2.2.2⟩
    · rw [if_neg hlt]
      have hlohi : lo = hi := by omega
      subst hlohi
      exact ⟨le_refl _, le_refl _, hlow, hhigh⟩

/-- C21: for an internal node with `num_key >= 1` whose keys at the indices of
`[1, num_key)` ascend, `InternalLookup key` of `src/Lab2` returns the child page number
stored at value index `j = upper_bound key - 1`; `j` lies in `[0, num_key)`, satisfies
`j = 0` or `keys j <= key`, and no larger index of `[0, num_key)` does. -/
theorem InternalLookup_Lab2_spec {K : Type} [LinearOrder K] (node : IxNodeHandle K) (key : K)
    (hn : 1 ≤ node.num_key)
    (hsorted : ∀ i j, 1 ≤ i → i ≤ j → j < node.num_key → node.keys i ≤ node.keys j) :
    node.InternalLookup_Lab2 key = node.ValueAt (node.upper_bound_Lab2 key - 1) ∧
    0 ≤ node.upper_bound_Lab2 key - 1 ∧ node.upper_bound_Lab2 key - 1 < node.num_key ∧
    (node.upper_bound_Lab2 key - 1 = 0 ∨ node.keys (node.upper_bound_Lab2 key - 1) ≤ key) ∧
    (∀ i, node.upper_bound_Lab2 key - 1 < i → i < node.num_key →
      ¬ (i = 0 ∨ node.keys i ≤ key)) := by
  obtain ⟨h1, h2, h3, h4⟩ := upper_bound_loop_Lab2_spec node.keys key 1 node.num_key hsorted
    node.num_key.toNat 1 node.num_key (le_refl _) hn (le_refl _) (by omega)
    (fun i hi1 hi2 => by omega) (fun i hi1 hi2 => by omega)
  have hub : node.upper_bound_Lab2 key
      = upper_bound_loop_Lab2 node.keys key node.num_key.toNat 1 node.num_key := rfl
  rw [hub]
  refine ⟨rfl, by omega, by omega, ?_, ?_⟩
  · by_cases h0 : upper_bound_loop_Lab2 node.keys key node.num_key.toNat 1 node.num_key - 1 = 0
    · exact Or.inl h0
    · exact Or.inr (h3 _ (by omega) (by omega))
  · intro i hi1 hi2 hor
    rcases hor with h0 | hle
    · omega
    · exact absurd hle (not_le.mpr (h4 i (by omega) hi2))

/-- C21 at `exNode` (keys `[10, 20, 30]`, the key of slot 0 being the sentinel; child page
numbers 0, 1, 2): key 20 leads to the child of index 1, key 5 to the child of index 0 and
key 35 to the child of index 2. -/
theorem InternalLookup_Lab2_spec_witness :
    (1 : Int) ≤ exNode.num_key ∧
    (exNode.InternalLookup_Lab2 20 = exNode.ValueAt (exNode.upper_bound_Lab2 20 - 1) ∧
      0 ≤ exNode.upper_bound_Lab2 20 - 1 ∧ exNode.upper_bound_Lab2 20 - 1 < exNode.num_key) ∧
    exNode.InternalLookup_Lab2 20 = 1 ∧ exNode.InternalLookup_Lab2 5 = 0 ∧
    exNode.InternalLookup_Lab2 35 = 2 :=
  have hsorted : ∀ i j : Int, 1 ≤ i → i ≤ j → j < exNode.num_key →
      exNode.keys i ≤ exNode.keys j := by
    intro i j hi hij hj
    have hj3 : j < 3 := hj
    have hi_cases : i = 1 ∨ i = 2 := by omega
    have hj_cases : j = 1 ∨ j = 2 := by omega
    rcases hi_cases with e | e <;> rcases hj_cases with e1 | e1 <;> subst e <;>
      subst e1 <;> first | decide | omega
  have h := InternalLookup_Lab2_spec exNode 20 (by decide) hsorted
  ⟨by decide, ⟨h.1, h.2.1, h.2.2.1⟩, by decide, by decide, by decide⟩

/-! ### Insert and Remove by key -/

/-- Strictly ascending keys ascend. -/
theorem ascending_of_strict {K : Type} [LinearOrder K] (keys : Int → K) (n : Int)
    (hstrict : ∀ i j, 0 ≤ i → i < j → j < n → keys i < keys j) :
    ∀ i j, 0 ≤ i → i ≤ j → j < n → keys i ≤ keys j := by
  intro i j hi hij hj
  by_cases h : i = j
  · rw [h]
  · exact le_of_lt (hstrict i j hi (by omega) hj)

/-- On ascending keys, `lower_bound` of a key held by index `i0` of `[0, num_key)` is an
index not above `i0` that holds the key. -/
theorem lower_bound_present {K : Type} [LinearOrder K] (node : IxNodeHandle K) (k : K)
    (i0 : Int)
    (hsorted : ∀ i j, 0 ≤ i → i ≤ j → j < node.num_key → node.keys i ≤ node.keys j)
    (hi0 : 0 ≤ i0) (hi0m : i0 < node.num_key) (hk : node.keys i0 = k) :
    0 ≤ node.lower_bound k ∧ node.lower_bound k ≤ i0 ∧
    node.keys (node.lower_bound k) = k := by
  obtain ⟨hb0, _, hlow, hhigh⟩ := lower_bound_sorted node k (by omega) hsorted
  have hle : node.lower_bound k ≤ i0 := by
    by_contra hcon
    have := hlow i0 hi0 (by omega)
    rw [hk] at this
    exact lt_irrefl _ this
  have hkey : node.keys (node.lower_bound k) ≤ node.keys i0 := hsorted _ _ hb0 hle hi0m
  exact ⟨hb0, hle, le_antisymm (le_of_le_of_eq hkey hk) (hhigh _ (le_refl _) (by omega))⟩

/-- On strictly ascending keys, `lower_bound` of the key held by index `i0` is `i0`. -/
theorem lower_bound_present_strict {K : Type} [LinearOrder K] (node : IxNodeHandle K) (k : K)
    (i0 : Int)
    (hstrict : ∀ i j, 0 ≤ i → i < j → j < node.num_key → node.keys i < node.keys j)
    (hi0 : 0 ≤ i0) (hi0m : i0 < node.num_key) (hk : node.keys i0 = k) :
    node.lower_bound k = i0 := by
  obtain ⟨hb0, hle, heq⟩ := lower_bound_present node k i0
    (ascending_of_strict node.keys node.num_key hstrict) hi0 hi0m hk
  by_contra hne
  have := hstrict _ _ hb0 (lt_of_le_of_ne hle hne) hi0m
  rw [heq, hk] at this
  exact lt_irrefl _ this

/-- On strictly ascending keys, `LeafLookup` of the key held by index `i` of `[0, num_key)`
finds the rid of index `i`. -/
theorem LeafLookup_found {K : Type} [LinearOrder K] (node : IxNodeHandle K) (key : K)
    (i : Int)
    (hstrict : ∀ i j, 0 ≤ i → i < j → j < node.num_key → node.keys i < node.keys j)
    (hi0 : 0 ≤ i) (hin : i < node.num_key) (hk : node.keys i = key) :
    node.LeafLookup key = (true, some (node.rids i)) := by
  have hlb := lower_bound_present_strict node key i hstrict hi0 hin hk
  have hc : ¬ (node.lower_bound key = node.num_key ∨
      ix_compare key (node.keys (node.lower_bound key)) ≠ 0) := by
    rw [not_or, not_not, ix_compare_eq_zero, hlb]
    exact ⟨by omega, hk.symm⟩
  rw [hlb] at hc
  simp only [IxNodeHandle.LeafLookup, IxNodeHandle.GetSize, hlb, if_neg hc]

/-- On ascending keys, `LeafLookup` of a key that none of the first `num_key` slots holds
reports not-found. -/
theorem LeafLookup_absent {K : Type} [LinearOrder K] (node : IxNodeHandle K) (key : K)
    (hn : 0 ≤ node.num_key)
    (hsorted : ∀ i j, 0 ≤ i → i ≤ j → j < node.num_key → node.keys i ≤ node.keys j)
    (habs : ∀ i, 0 ≤ i → i < node.num_key → node.keys i ≠ key) :
    node.LeafLookup key = (false, none) := by
  obtain ⟨hb0, hbn, _, _⟩ := lower_bound_sorted node key hn hsorted
  have hc : node.lower_bound key = node.num_key ∨
      ix_compare key (node.keys (node.lower_bound key)) ≠ 0 := by
    by_cases hend : node.lower_bound key = node.num_key
    · exact Or.inl hend
    · right
      rw [Ne, ix_compare_eq_zero]
      exact fun h => habs _ hb0 (by omega) h.symm
  simp only [IxNodeHandle.LeafLookup, IxNodeHandle.GetSize, if_pos hc]

/-- `Insert` when the slot at `lower_bound key` holds the key: nothing is inserted. -/
theorem Insert_of_eq {K : Type} [LinearOrder K] (node : IxNodeHandle K) (k : K) (v : Rid)
    (h : node.keys (node.lower_bound k) = k) : node.Insert k v = (node.GetSize, node) := by
  have hc : ¬ (ix_compare k (node.keys (node.lower_bound k)) ≠ 0) :=
    not_not.mpr ((ix_compare_eq_zero _ _).mpr h.symm)
  simp only [IxNodeHandle.Insert, if_neg hc]

/-- `Insert` when the slot at `lower_bound key` holds another key: the pair is inserted
there. -/
theorem Insert_of_ne {K : Type} [LinearOrder K] (node : IxNodeHandle K) (k : K) (v : Rid)
    (h : node.keys (node.lower_bound k) ≠ k) :
    node.Insert k v =
      ((node.insert_pairs (node.lower_bound k) (fun _ => k) (fun _ => v) 1).GetSize,
        node.insert_pairs (node.lower_bound k) (fun _ => k) (fun _ => v) 1) := by
  have hc : ix_compare k (node.keys (node.lower_bound k)) ≠ 0 := by
    rw [Ne, ix_compare_eq_zero]
    exact fun e => h e.symm
  simp only [IxNodeHandle.Insert, if_pos hc]

/-- `Remove` when the slot at `lower_bound key` holds the key: that slot is erased. -/
theorem Remove_of_eq {K : Type} [LinearOrder K] (node : IxNodeHandle K) (k : K)
    (h : node.keys (node.lower_bound k) = k) :
    node.Remove k =
      ((node.erase_pair (node.lower_bound k).toNat).GetSize,
        node.erase_pair (node.lower_bound k).toNat) := by
  have hc : ix_compare k (node.keys (node.lower_bound k)) = 0 :=
    (ix_compare_eq_zero _ _).mpr h.symm
  simp only [IxNodeHandle.Remove, if_pos hc]

/-- `Remove` when the slot at `lower_bound key` holds another key: nothing is erased. -/
theorem Remove_of_ne {K : Type} [LinearOrder K] (node : IxNodeHandle K) (k : K)
    (h : node.keys (node.lower_bound k) ≠ k) : node.Remove k = (node.GetSize, node) := by
  have hc : ¬ (ix_compare k (node.keys (node.lower_bound k)) = 0) := by
    rw [ix_compare_eq_zero]
    exact fun e => h e.symm
  simp only [IxNodeHandle.Remove, if_neg hc]

/-- Inserting a key at a position that separates the keys below it from the keys not below
it keeps the first `num_key + 1` keys ascending. -/
theorem insert_pair_ascending {K : Type} [LinearOrder K] (node : IxNodeHandle K) (pos : Int)
    (k : K) (v : Rid) (hpos0 : 0 ≤ pos) (hpos : pos ≤ node.num_key)
    (hsorted : ∀ i j, 0 ≤ i → i ≤ j → j < node.num_key → node.keys i ≤ node.keys j)
    (hlow : ∀ i, 0 ≤ i → i < pos → node.keys i < k)
    (hhigh : ∀ i, pos ≤ i → i < node.num_key → k ≤ node.keys i) :
    ∀ i j, 0 ≤ i → i ≤ j → j < node.num_key + 1 →
      (node.insert_pairs pos (fun _ => k) (fun _ => v) 1).keys i ≤
        (node.insert_pairs pos (fun _ => k) (fun _ => v) 1).keys j := by
  obtain ⟨_, h2, _⟩ := insert_pairs_eq node pos (fun _ => k) (fun _ => v) 1 hpos0 hpos
    (by omega)
  intro i j hi hij hj
  rw [h2 i, h2 j]
  split_ifs <;>
    first
    | omega
    | exact le_refl _
    | exact hsorted _ _ (by omega) (by omega) (by omega)
    | exact le_of_lt (hlow _ (by omega) (by omega))
    | exact hhigh _ (by omega) (by omega)

/-- Erasing a pair keeps the first `num_key - 1` keys strictly ascending. -/
theorem erase_pair_strict {K : Type} [LinearOrder K] (node : IxNodeHandle K) (pos : Nat)
    (hstrict : ∀ i j, 0 ≤ i → i < j → j < node.num_key → node.keys i < node.keys j) :
    ∀ i j, 0 ≤ i → i < j → j < node.num_key - 1 →
      (node.erase_pair pos).keys i < (node.erase_pair pos).keys j := by
  obtain ⟨_, h2, _⟩ := erase_pair_eq node pos
  intro i j hi hij hj
  rw [h2 i, h2 j]
  split_ifs <;>
    first
    | omega
    | exact hstrict _ _ (by omega) (by omega) (by omega)

/-- C24: for a node whose first `num_key` keys are strictly ascending and a key `k` held by
one of them, `Insert k v2` leaves the node (key count, key slots, rid slots, so also the rid
stored for `k`) as it is and returns the unchanged key count.  For every key `k1`,
`Insert k1 v` applied twice gives the same result as applied once. -/
theorem Insert_duplicate {K : Type} [LinearOrder K] (node : IxNodeHandle K) (k : K)
    (v2 : Rid) (i0 : Int)
    (hstrict : ∀ i j, 0 ≤ i → i < j → j < node.num_key → node.keys i < node.keys j)
    (hi0 : 0 ≤ i0) (hi0m : i0 < node.num_key) (hk : node.keys i0 = k) :
    node.Insert k v2 = (node.GetSize, node) ∧
    (node.Insert k v2).2.LeafLookup k = (true, some (node.rids i0)) ∧
    (∀ (k1 : K) (v : Rid), (node.Insert k1 v).2.Insert k1 v = node.Insert k1 v) := by
  have hsorted := ascending_of_strict node.keys node.num_key hstrict
  have hdup : node.Insert k v2 = (node.GetSize, node) :=
    Insert_of_eq node k v2 (lower_bound_present node k i0 hsorted hi0 hi0m hk).2.2
  refine ⟨hdup, ?_, ?_⟩
  · rw [hdup]
    exact LeafLookup_found node k i0 hstrict hi0 hi0m hk
  · intro k1 v
    by_cases h : node.keys (node.lower_bound k1) = k1
    · rw [Insert_of_eq node k1 v h]
      exact Insert_of_eq node k1 v h
    · rw [Insert_of_ne node k1 v h]
      obtain ⟨hb0, hbn, hlow, hhigh⟩ := lower_bound_sorted node k1 (by omega) hsorted
      obtain ⟨e1, e2, _⟩ := insert_pairs_eq node (node.lower_bound k1) (fun _ => k1)
        (fun _ => v) 1 hb0 hbn (by omega)
      have hasc := insert_pair_ascending node (node.lower_bound k1) k1 v hb0 hbn hsorted
        hlow hhigh
      rw [← e1] at hasc
      have hkey : (node.insert_pairs (node.lower_bound k1) (fun _ => k1) (fun _ => v) 1).keys
          (node.lower_bound k1) = k1 := by
        rw [e2, if_pos ⟨le_refl _, by omega⟩]
      exact Insert_of_eq _ k1 v (lower_bound_present _ k1 (node.lower_bound k1) hasc hb0
        (by rw [e1]; omega) hkey).2.2

/-- C24 at `exNode` (keys `[10, 20, 30]`): `Insert 20 (7,7)` changes nothing and returns
3; the rid found for 20 is still the one of slot 1. -/
theorem Insert_duplicate_witness :
    exNode.keys 1 = 20 ∧ exNode.Insert 20 ⟨7, 7⟩ = (exNode.GetSize, exNode) ∧
    (exNode.Insert 20 ⟨7, 7⟩).1 = 3 ∧ (exNode.Insert 20 ⟨7, 7⟩).2.key_list = [10, 20, 30] :=
  have hstrict : ∀ i j : Int, 0 ≤ i → i < j → j < exNode.num_key →
      exNode.keys i < exNode.keys j := by
    intro i j hi hij hj
    have hj3 : j < 3 := hj
    have hi_cases : i = 0 ∨ i = 1 ∨ i = 2 := by omega
    have hj_cases : j = 0 ∨ j = 1 ∨ j = 2 := by omega
    rcases hi_cases with e | e | e <;> rcases hj_cases with e1 | e1 | e1 <;> subst e <;>
      subst e1 <;> first | decide | omega
  ⟨by decide, (Insert_duplicate exNode 20 ⟨7, 7⟩ 1 hstrict (by decide) (by decide)
    (by decide)).1, by decide, by decide⟩

/-- C25, the code at the failing inputs.  `exNodeEmpty` is an empty node on a zeroed page:
`Insert 0 (7,7)` compares the key with slot 0, finds it equal, inserts nothing and returns
0, and `LeafLookup 0` reports not-found afterwards.  `exNode` has the strictly ascending
keys `[10, 20, 30]` and the stale key 35 in slot 3: `Insert 35 (7,7)` inserts nothing and
returns 3.  With another key in the slot past the end the pair is inserted:
`Insert 5 (7,7)` into `exNodeEmpty` and `Insert 40 (7,7)` into `exNode`. -/
theorem Insert_skips_key_of_stale_slot :
    (exNodeEmpty.num_key = 0 ∧ exNodeEmpty.keys 0 = 0 ∧
      exNodeEmpty.lower_bound 0 = 0 ∧
      exNodeEmpty.Insert 0 ⟨7, 7⟩ = (0, exNodeEmpty) ∧
      (exNodeEmpty.Insert 0 ⟨7, 7⟩).2.LeafLookup 0 = (false, none)) ∧
    (exNode.num_key = 3 ∧ exNode.key_list = [10, 20, 30] ∧ exNode.keys 3 = 35 ∧
      exNode.lower_bound 35 = 3 ∧
      exNode.Insert 35 ⟨7, 7⟩ = (3, exNode) ∧
      (exNode.Insert 35 ⟨7, 7⟩).2.LeafLookup 35 = (false, none)) ∧
    ((exNodeEmpty.Insert 5 ⟨7, 7⟩).1 = 1 ∧
      (exNodeEmpty.Insert 5 ⟨7, 7⟩).2.LeafLookup 5 = (true, some ⟨7, 7⟩) ∧
      (exNode.Insert 40 ⟨7, 7⟩).1 = 4 ∧
      (exNode.Insert 40 ⟨7, 7⟩).2.key_list = [10, 20, 30, 40] ∧
      (exNode.Insert 40 ⟨7, 7⟩).2.LeafLookup 40 = (true, some ⟨7, 7⟩)) := by
  refine ⟨⟨by decide, by decide, by decide, rfl, by decide⟩,
    ⟨by decide, by decide, by decide, by decide, rfl, by decide⟩,
    ⟨by decide, by decide, by decide, by decide, by decide⟩⟩

/-- C27: for a node whose first `num_key` keys are strictly ascending and a key `k` held by
index `i0` of `[0, num_key)`, `Remove k` returns `num_key - 1`, which is the new key count;
afterwards `LeafLookup k` reports not-found; the key sequence and the rid sequence are the
old ones with index `i0` erased, so the other pairs keep their relative order; and
`LeafLookup` of every other key of the node still finds the rid it was stored with. -/
theorem Remove_present {K : Type} [LinearOrder K] (node : IxNodeHandle K) (k : K) (i0 : Int)
    (hstrict : ∀ i j, 0 ≤ i → i < j → j < node.num_key → node.keys i < node.keys j)
    (hi0 : 0 ≤ i0) (hi0m : i0 < node.num_key) (hk : node.keys i0 = k) :
    (node.Remove k).1 = node.GetSize - 1 ∧
    (node.Remove k).2.GetSize = node.GetSize - 1 ∧
    (node.Remove k).2.LeafLookup k = (false, none) ∧
    (node.Remove k).2.key_list = node.key_list.eraseIdx i0.toNat ∧
    (node.Remove k).2.rid_list = node.rid_list.eraseIdx i0.toNat ∧
    (∀ j, 0 ≤ j → j < node.num_key → j ≠ i0 →
      (node.Remove k).2.LeafLookup (node.keys j) = (true, some (node.rids j))) := by
  have hlb := lower_bound_present_strict node k i0 hstrict hi0 hi0m hk
  have hto : (i0.toNat : Int) = i0 := Int.toNat_of_nonneg hi0
  have hrem : node.Remove k
      = ((node.erase_pair i0.toNat).GetSize, node.erase_pair i0.toNat) := by
    have := Remove_of_eq node k (by rw [hlb]; exact hk)
    rw [hlb] at this
    exact this
  obtain ⟨e1, e2, e3⟩ := erase_pair_eq node i0.toNat
  simp only [hto] at e2 e3
  obtain ⟨l1, l2⟩ := erase_pair_lists node i0.toNat (by omega)
  have hst := erase_pair_strict node i0.toNat hstrict
  rw [← e1] at hst
  rw [hrem]
  refine ⟨e1, e1, ?_, l1, l2, ?_⟩
  · apply LeafLookup_absent _ k (by rw [e1]; omega)
      (ascending_of_strict _ _ hst)
    intro i hi hin
    rw [e1] at hin
    rw [e2 i, ← hk]
    by_cases c : i0 ≤ i ∧ i < node.num_key
    · rw [if_pos c]
      exact ne_of_gt (hstrict _ _ hi0 (by omega) (by omega))
    · rw [if_neg c]
      exact ne_of_lt (hstrict _ _ hi (by omega) hi0m)
  · intro j hj0 hjm hne
    by_cases hlt : j < i0
    · have c : ¬ (i0 ≤ j ∧ j < node.num_key) := by omega
      have hkey : (node.erase_pair i0.toNat).keys j = node.keys j := by rw [e2 j, if_neg c]
      have hrid : (node.erase_pair i0.toNat).rids j = node.rids j := by rw [e3 j, if_neg c]
      rw [← hrid]
      exact LeafLookup_found _ _ j hst hj0 (by rw [e1]; omega) hkey
    · have c : i0 ≤ j - 1 ∧ j - 1 < node.num_key := by omega
      have e : j - 1 + 1 = j := by omega
      have hkey : (node.erase_pair i0.toNat).keys (j - 1) = node.keys j := by
        rw [e2 (j - 1), if_pos c, e]
      have hrid : (node.erase_pair i0.toNat).rids (j - 1) = node.rids j := by
        rw [e3 (j - 1), if_pos c, e]
      rw [← hrid]
      exact LeafLookup_found _ _ (j - 1) hst (by omega) (by rw [e1]; omega) hkey

/-- C27 at `exNode` (keys `[10, 20, 30]`): `Remove 20` returns 2 and leaves the keys
`[10, 30]` with the rids of the old slots 0 and 2. -/
theorem Remove_present_witness :
    exNode.keys 1 = 20 ∧ (exNode.Remove 20).1 = exNode.GetSize - 1 ∧
    (exNode.Remove 20).1 = 2 ∧ (exNode.Remove 20).2.key_list = [10, 30] ∧
    (exNode.Remove 20).2.rid_list = [⟨0, 0⟩, ⟨2, 2⟩] ∧
    (exNode.Remove 20).2.LeafLookup 20 = (false, none) :=
  have hstrict : ∀ i j : Int, 0 ≤ i → i < j → j < exNode.num_key →
      exNode.keys i < exNode.keys j := by
    intro i j hi hij hj
    have hj3 : j < 3 := hj
    have hi_cases : i = 0 ∨ i = 1 ∨ i = 2 := by omega
    have hj_cases : j = 0 ∨ j = 1 ∨ j = 2 := by omega
    rcases hi_cases with e | e | e <;> rcases hj_cases with e1 | e1 | e1 <;> subst e <;>
      subst e1 <;> first | decide | omega
  ⟨by decide, (Remove_present exNode 20 1 hstrict (by decide) (by decide) (by decide)).1,
    by decide, by decide, by decide, by decide⟩

/-- C28, the code at the failing inputs.  `exNodeEmpty` is an empty node on a zeroed page:
`Remove 0` compares the key with slot 0, finds it equal, calls `erase_pair 0` and returns
the key count -1.  `exNode` has the strictly ascending keys `[10, 20, 30]` and the stale key
35 in slot 3: `Remove 35` calls `erase_pair 3` and returns 2, and the pair of key 30 is no
longer among the first `num_key` pairs.  With another key in the slot past the end nothing
changes: `Remove 5` on `exNodeEmpty` and `Remove 40` on `exNode`. -/
theorem Remove_erases_for_key_of_stale_slot :
    (exNodeEmpty.num_key = 0 ∧ exNodeEmpty.keys 0 = 0 ∧
      exNodeEmpty.lower_bound 0 = 0 ∧
      (exNodeEmpty.Remove 0).1 = -1 ∧ (exNodeEmpty.Remove 0).2.num_key = -1) ∧
    (exNode.num_key = 3 ∧ exNode.key_list = [10, 20, 30] ∧ exNode.keys 3 = 35 ∧
      exNode.lower_bound 35 = 3 ∧
      (exNode.Remove 35).1 = 2 ∧ (exNode.Remove 35).2.num_key = 2 ∧
      (exNode.Remove 35).2.key_list = [10, 20] ∧
      exNode.LeafLookup 30 = (true, some ⟨2, 2⟩) ∧
      (exNode.Remove 35).2.LeafLookup 30 = (false, none)) ∧
    (exNodeEmpty.Remove 5 = (0, exNodeEmpty) ∧ exNode.Remove 40 = (3, exNode)) := by
  refine ⟨⟨by decide, by decide, by decide, by decide, by decide⟩,
    ⟨by decide, by decide, by decide, by decide, by decide, by decide, by decide, by decide,
      by decide⟩,
    ⟨rfl, rfl⟩⟩

/-! ### Key order under Insert and Remove -/

/-- Inserting a key at a position that separates the keys below it from the keys above it
keeps the first `num_key + 1` keys strictly ascending. -/
theorem insert_pair_strict {K : Type} [LinearOrder K] (node : IxNodeHandle K) (pos : Int)
    (k : K) (v : Rid) (hpos0 : 0 ≤ pos) (hpos : pos ≤ node.num_key)
    (hstrict : ∀ i j, 0 ≤ i → i < j → j < node.num_key → node.keys i < node.keys j)
    (hlow : ∀ i, 0 ≤ i → i < pos → node.keys i < k)
    (hhigh : ∀ i, pos ≤ i → i < node.num_key → k < node.keys i) :
    ∀ i j, 0 ≤ i → i < j → j < node.num_key + 1 →
      (node.insert_pairs pos (fun _ => k) (fun _ => v) 1).keys i <
        (node.insert_pairs pos (fun _ => k) (fun _ => v) 1).keys j := by
  obtain ⟨_, h2, _⟩ := insert_pairs_eq node pos (fun _ => k) (fun _ => v) 1 hpos0 hpos
    (by omega)
  intro i j hi hij hj
  rw [h2 i, h2 j]
  split_ifs <;>
    first
    | omega
    | exact hstrict _ _ (by omega) (by omega) (by omega)
    | exact hlow _ (by omega) (by omega)
    | exact hhigh _ (by omega) (by omega)

/-- C33: for a node whose first `num_key` keys are strictly ascending and for every key and
rid, the node after `Insert key value` and the node after `Remove key` again has its first
`num_key` keys strictly ascending. -/
theorem key_order_kept {K : Type} [LinearOrder K] (node : IxNodeHandle K) (key : K)
    (value : Rid)
    (hstrict : ∀ i j, 0 ≤ i → i < j → j < node.num_key → node.keys i < node.keys j) :
    (∀ i j, 0 ≤ i → i < j → j < (node.Insert key value).2.num_key →
      (node.Insert key value).2.keys i < (node.Insert key value).2.keys j) ∧
    (∀ i j, 0 ≤ i → i < j → j < (node.Remove key).2.num_key →
      (node.Remove key).2.keys i < (node.Remove key).2.keys j) := by
  refine ⟨?_, ?_⟩
  · by_cases h : node.keys (node.lower_bound key) = key
    · rw [Insert_of_eq node key value h]
      exact hstrict
    · rw [Insert_of_ne node key value h]
      by_cases hm : 0 ≤ node.num_key
      · obtain ⟨hb0, hbn, hlow, hhigh⟩ := lower_bound_sorted node key hm
          (ascending_of_strict node.keys node.num_key hstrict)
        obtain ⟨e1, _, _⟩ := insert_pairs_eq node (node.lower_bound key) (fun _ => key)
          (fun _ => value) 1 hb0 hbn (by omega)
        have hhigh1 : ∀ i, node.lower_bound key ≤ i → i < node.num_key →
            key < node.keys i := by
          intro i hi1 hi2
          by_cases hib : i = node.lower_bound key
          · rw [hib]
            exact lt_of_le_of_ne (hhigh _ (le_refl _) (by omega)) (fun e => h e.symm)
          · exact lt_of_le_of_lt (hhigh _ (le_refl _) (by omega))
              (hstrict _ _ hb0 (by omega) hi2)
        have hst := insert_pair_strict node (node.lower_bound key) key value hb0 hbn hstrict
          hlow hhigh1
        rw [← e1] at hst
        exact hst
      · have hguard : ¬ (node.lower_bound key ≥ 0 ∧ node.lower_bound key ≤ node.num_key) := by
          have hlb : node.lower_bound key = 0 := by
            have h0 : node.num_key.toNat = 0 := by omega
            simp only [IxNodeHandle.lower_bound, h0, lower_bound_loop]
          omega
        have hsame : node.insert_pairs (node.lower_bound key) (fun _ => key)
            (fun _ => value) 1 = node := by
          simp only [IxNodeHandle.insert_pairs, IxNodeHandle.GetSize, if_pos hguard]
        rw [hsame]
        exact hstrict
  · by_cases h : node.keys (node.lower_bound key) = key
    · rw [Remove_of_eq node key h]
      obtain ⟨e1, _, _⟩ := erase_pair_eq node (node.lower_bound key).toNat
      have hst := erase_pair_strict node (node.lower_bound key).toNat hstrict
      rw [← e1] at hst
      exact hst
    · rw [Remove_of_ne node key h]
      exact hstrict

/-- C33 at `exNode` (keys `[10, 20, 30]`): after `Insert 15` the keys are
`[10, 15, 20, 30]`, after `Remove 20` they are `[10, 30]`, and both sequences are strictly
ascending. -/
theorem key_order_kept_witness :
    (exNode.Insert 15 ⟨7, 7⟩).2.key_list = [10, 15, 20, 30] ∧
    (exNode.Remove 20).2.key_list = [10, 30] ∧
    (∀ i j, 0 ≤ i → i < j → j < (exNode.Insert 15 ⟨7, 7⟩).2.num_key →
      (exNode.Insert 15 ⟨7, 7⟩).2.keys i < (exNode.Insert 15 ⟨7, 7⟩).2.keys j) ∧
    (∀ i j, 0 ≤ i → i < j → j < (exNode.Remove 20).2.num_key →
      (exNode.Remove 20).2.keys i < (exNode.Remove 20).2.keys j) :=
  have hstrict : ∀ i j : Int, 0 ≤ i → i < j → j < exNode.num_key →
      exNode.keys i < exNode.keys j := by
    intro i j hi hij hj
    have hj3 : j < 3 := hj
    have hi_cases : i = 0 ∨ i = 1 ∨ i = 2 := by omega
    have hj_cases : j = 0 ∨ j = 1 ∨ j = 2 := by omega
    rcases hi_cases with e | e | e <;> rcases hj_cases with e1 | e1 | e1 <;> subst e <;>
      subst e1 <;> first | decide | omega
  ⟨by decide, by decide, (key_order_kept exNode 15 ⟨7, 7⟩ hstrict).1,
    (key_order_kept exNode 20 ⟨7, 7⟩ hstrict).2⟩

/-! ### Record file scan -/

/-- The loop of `Bitmap::next_bit`, started at `i` with enough fuel: it ends at `max_n` or
at an index of `[i, max_n)` whose bit equals `bit`, and no index of `[i, max_n)` before the
result has a bit equal to `bit`. -/
theorem next_bit_loop_spec (bit : Bool) (bm : Int → Bool) (max_n : Int) (fuel : Nat) (i : Int)
    (hfuel : max_n - i ≤ fuel) :
    (Bitmap.next_bit_loop bit bm max_n fuel i = max_n ∨
      (i ≤ Bitmap.next_bit_loop bit bm max_n fuel i ∧
        Bitmap.next_bit_loop bit bm max_n fuel i < max_n ∧
        bm (Bitmap.next_bit_loop bit bm max_n fuel i) = bit)) ∧
    (∀ x, i ≤ x → x < Bitmap.next_bit_loop bit bm max_n fuel i → x < max_n → bm x ≠ bit) := by
  induction fuel generalizing i with
  | zero =>
    have h0 : max_n - i ≤ 0 := by exact_mod_cast hfuel
    have e : Bitmap.next_bit_loop bit bm max_n 0 i = max_n := rfl
    rw [e]
    exact ⟨Or.inl rfl, fun x h1 h2 h3 => by omega⟩
  | succ fuel ih =>
    have h1 : max_n - i ≤ (fuel : Int) + 1 := by exact_mod_cast hfuel
    simp only [Bitmap.next_bit_loop]
    by_cases hlt : i < max_n
    · rw [if_pos hlt]
      by_cases hbit : bm i = bit
      · rw [if_pos hbit]
        exact ⟨Or.inr ⟨le_refl _, hlt, hbit⟩, fun x h1 h2 h3 => by omega⟩
      · rw [if_neg hbit]
        obtain ⟨ih1, ih2⟩ := ih (i + 1) (by omega)
        refine ⟨?_, ?_⟩
        · rcases ih1 with e | ⟨e1, e2, e3⟩
          · exact Or.inl e
          · exact Or.inr ⟨by omega, e2, e3⟩
        · intro x hx1 hx2 hx3
          by_cases hx : x = i
          · rw [hx]
            exact hbit
          · exact ih2 x (by omega) hx2 hx3
    · rw [if_neg hlt]
      exact ⟨Or.inl rfl, fun x h1 h2 h3 => by omega⟩

/-- The loop of `next` of `src/Lab1` computes what the loop of `src/Lab1(2024.6.21)`
computes. -/
theorem next_loop_Lab1_eq (c : RmConfig) (file : RmFileView) (fuel : Nat) (rid_ : Rid) :
    RmScan.next_loop_Lab1 c file fuel rid_ = RmScan.next_loop c file fuel rid_ := by
  induction fuel generalizing rid_ with
  | zero => rfl
  | succ fuel ih =>
    simp only [RmScan.next_loop_Lab1, RmScan.next_loop]
    by_cases hp : rid_.page_no < file.num_pages
    · rw [if_pos hp, if_pos hp]
      by_cases hs : Bitmap.next_bit true (file.bitmap rid_.page_no) file.num_records_per_page
          rid_.slot_no < file.num_records_per_page
      · have hs1 : ¬ Bitmap.next_bit true (file.bitmap rid_.page_no)
            file.num_records_per_page rid_.slot_no ≥ file.num_records_per_page := by omega
        rw [if_pos hs, if_neg hs1]
      · have hs1 : Bitmap.next_bit true (file.bitmap rid_.page_no)
            file.num_records_per_page rid_.slot_no ≥ file.num_records_per_page := by omega
        rw [if_neg hs, if_pos hs1]
        by_cases hlast : rid_.page_no + 1 = file.num_pages
        · have hge : rid_.page_no + 1 ≥ file.num_pages := by omega
          rw [if_pos hlast, if_pos hge]
        · have hge : ¬ rid_.page_no + 1 ≥ file.num_pages := by omega
          rw [if_neg hlast, if_neg hge]
          exact ih _
    · rw [if_neg hp, if_neg hp]

/-- The loop of `next`, started at slot -1 of a page `p` below `num_pages` with enough
fuel: it ends with `(RM_NO_PAGE, -1)` when no slot of the pages from `p` on is occupied, and
otherwise at the first occupied slot of these pages in (page, slot) order. -/
theorem next_loop_spec (c : RmConfig) (file : RmFileView) (fuel : Nat) (p : Int)
    (hp : p < file.num_pages) (hfuel : file.num_pages - p ≤ fuel) :
    (RmScan.next_loop c file fuel ⟨p, -1⟩ = ⟨c.RM_NO_PAGE, -1⟩ ∧
      ∀ q s, p ≤ q → q < file.num_pages → 0 ≤ s → s < file.num_records_per_page →
        file.bitmap q s = false) ∨
    (p ≤ (RmScan.next_loop c file fuel ⟨p, -1⟩).page_no ∧
      (RmScan.next_loop c file fuel ⟨p, -1⟩).page_no < file.num_pages ∧
      0 ≤ (RmScan.next_loop c file fuel ⟨p, -1⟩).slot_no ∧
      (RmScan.next_loop c file fuel ⟨p, -1⟩).slot_no < file.num_records_per_page ∧
      file.bitmap (RmScan.next_loop c file fuel ⟨p, -1⟩).page_no
        (RmScan.next_loop c file fuel ⟨p, -1⟩).slot_no = true ∧
      ∀ q s, p ≤ q → 0 ≤ s → s < file.num_records_per_page →
        (q < (RmScan.next_loop c file fuel ⟨p, -1⟩).page_no ∨
          (q = (RmScan.next_loop c file fuel ⟨p, -1⟩).page_no ∧
            s < (RmScan.next_loop c file fuel ⟨p, -1⟩).slot_no)) →
        file.bitmap q s = false) := by
  induction fuel generalizing p with
  | zero =>
    have h0 : file.num_pages - p ≤ 0 := by exact_mod_cast hfuel
    omega
  | succ fuel ih =>
    have h1 : file.num_pages - p ≤ (fuel : Int) + 1 := by exact_mod_cast hfuel
    obtain ⟨b1, b2⟩ := next_bit_loop_spec true (file.bitmap p) file.num_records_per_page
      (file.num_records_per_page - (-1 + 1)).toNat (-1 + 1) (by omega)
    have hnb : Bitmap.next_bit true (file.bitmap p) file.num_records_per_page (-1)
        = Bitmap.next_bit_loop true (file.bitmap p) file.num_records_per_page
            (file.num_records_per_page - (-1 + 1)).toNat (-1 + 1) := rfl
    rw [← hnb] at b1 b2
    have hunset : ∀ s, 0 ≤ s →
        s < Bitmap.next_bit true (file.bitmap p) file.num_records_per_page (-1) →
        s < file.num_records_per_page → file.bitmap p s = false := by
      intro s hs0 hs1 hs2
      have := b2 s (by omega) hs1 hs2
      simpa using this
    simp only [RmScan.next_loop, if_pos hp]
    by_cases hs : Bitmap.next_bit true (file.bitmap p) file.num_records_per_page (-1)
        ≥ file.num_records_per_page
    all_goals dsimp only
    · rw [if_pos hs]
      by_cases hlast : p + 1 = file.num_pages
      · rw [if_pos hlast]
        left
        refine ⟨rfl, ?_⟩
        intro q s hq1 hq2 hs0 hs1
        have hq : q = p := by omega
        rw [hq]
        exact hunset s hs0 (by omega) hs1
      · rw [if_neg hlast]
        rcases ih (p + 1) (by omega) (by omega) with ⟨e, hnone⟩ | ⟨e1, e2, e3, e4, e5, e6⟩
        · left
          refine ⟨e, ?_⟩
          intro q s hq1 hq2 hs0 hs1
          by_cases hq : q = p
          · rw [hq]
            exact hunset s hs0 (by omega) hs1
          · exact hnone q s (by omega) hq2 hs0 hs1
        · right
          refine ⟨by omega, e2, e3, e4, e5, ?_⟩
          intro q s hq1 hs0 hs1 hbefore
          by_cases hq : q = p
          · rw [hq]
            exact hunset s hs0 (by omega) hs1
          · exact e6 q s (by omega) hs0 hs1 hbefore
    · rw [if_neg hs]
      right
      rcases b1 with e | ⟨e1, e2, e3⟩
      · omega
      · have h0 : 0 ≤ Bitmap.next_bit true (file.bitmap p) file.num_records_per_page (-1) := by
          omega
        refine ⟨le_refl _, hp, h0, e2, e3, ?_⟩
        intro q s hq1 hs0 hs1 hbefore
        rcases hbefore with hlt | ⟨heq, hslot⟩
        · exact absurd hlt (by simp only [not_lt]; exact hq1)
        · have hq : q = p := heq
          rw [hq]
          exact hunset s hs0 hslot hs1

/-- C34, what the constructor of `RmScan` leaves in `rid_`.  When the file has a record page
(`RM_FIRST_RECORD_PAGE < num_pages`), either no slot of a record page is occupied, `rid_` is
`(RM_NO_PAGE, -1)` and `is_end` is true, or `rid_` is the first occupied slot in
(page, slot) order from the first record page on.  When the file has only its header page
(`num_pages <= RM_FIRST_RECORD_PAGE`), the loop of `next` is not entered: `rid_` stays
`(RM_FIRST_RECORD_PAGE, -1)`, and `is_end` is true only if `RM_FIRST_RECORD_PAGE` equals
`RM_NO_PAGE`.  The constructor of `src/Lab1` gives the same `rid_`. -/
theorem RmScan_new_result (c : RmConfig) (file : RmFileView) :
    (c.RM_FIRST_RECORD_PAGE < file.num_pages →
      (RmScan.new c file = ⟨c.RM_NO_PAGE, -1⟩ ∧
        RmScan.is_end c (RmScan.new c file) = true ∧
        ∀ q s, c.RM_FIRST_RECORD_PAGE ≤ q → q < file.num_pages → 0 ≤ s →
          s < file.num_records_per_page → file.bitmap q s = false) ∨
      (c.RM_FIRST_RECORD_PAGE ≤ (RmScan.new c file).page_no ∧
        (RmScan.new c file).page_no < file.num_pages ∧
        0 ≤ (RmScan.new c file).slot_no ∧
        (RmScan.new c file).slot_no < file.num_records_per_page ∧
        file.bitmap (RmScan.new c file).page_no (RmScan.new c file).slot_no = true ∧
        ∀ q s, c.RM_FIRST_RECORD_PAGE ≤ q → 0 ≤ s → s < file.num_records_per_page →
          (q < (RmScan.new c file).page_no ∨
            (q = (RmScan.new c file).page_no ∧ s < (RmScan.new c file).slot_no)) →
          file.bitmap q s = false)) ∧
    (file.num_pages ≤ c.RM_FIRST_RECORD_PAGE →
      RmScan.new c file = ⟨c.RM_FIRST_RECORD_PAGE, -1⟩ ∧
      (RmScan.is_end c (RmScan.new c file) = true ↔
        c.RM_FIRST_RECORD_PAGE = c.RM_NO_PAGE)) ∧
    RmScan.new_Lab1 c file = RmScan.new c file := by
  refine ⟨?_, ?_, ?_⟩
  · intro hpages
    have hnew : RmScan.new c file = RmScan.next_loop c file
        (file.num_pages - c.RM_FIRST_RECORD_PAGE).toNat ⟨c.RM_FIRST_RECORD_PAGE, -1⟩ := rfl
    rw [hnew]
    rcases next_loop_spec c file (file.num_pages - c.RM_FIRST_RECORD_PAGE).toNat
      c.RM_FIRST_RECORD_PAGE hpages (by omega) with ⟨e, hnone⟩ | hfound
    · left
      refine ⟨e, ?_, hnone⟩
      rw [e]
      simp only [RmScan.is_end, decide_True]
    · exact Or.inr hfound
  · intro hpages
    have h0 : (file.num_pages - c.RM_FIRST_RECORD_PAGE).toNat = 0 := by omega
    have hnew : RmScan.new c file = ⟨c.RM_FIRST_RECORD_PAGE, -1⟩ := by
      simp only [RmScan.new, RmScan.next, h0, RmScan.next_loop]
    rw [hnew]
    exact ⟨rfl, by simp only [RmScan.is_end, decide_eq_true_eq]⟩
  · simp only [RmScan.new_Lab1, RmScan.next_Lab1, RmScan.new, RmScan.next]
    exact next_loop_Lab1_eq c file _ _

/-- C34 at three files, with `RM_FIRST_RECORD_PAGE = 1` and `RM_NO_PAGE = -1`.  For the file
that has only its header page, `rid_` is `(1, -1)` after construction and `is_end` is false,
in both variants.  For the file whose only record is in slot 1 of page 2, `rid_` is `(2, 1)`.
For the file with two record pages and no record, `rid_` is `(-1, -1)` and `is_end` is
true. -/
theorem RmScan_new_result_witness :
    (exFileHeaderOnly.num_pages ≤ exRmConfig.RM_FIRST_RECORD_PAGE ∧
      RmScan.new exRmConfig exFileHeaderOnly = ⟨1, -1⟩ ∧
      RmScan.is_end exRmConfig (RmScan.new exRmConfig exFileHeaderOnly) = false ∧
      RmScan.is_end exRmConfig (RmScan.new_Lab1 exRmConfig exFileHeaderOnly) = false ∧
      ∀ q s, exFileHeaderOnly.bitmap q s = false) ∧
    (exRmConfig.RM_FIRST_RECORD_PAGE < exFileOneRecord.num_pages ∧
      RmScan.new exRmConfig exFileOneRecord = ⟨2, 1⟩ ∧
      RmScan.is_end exRmConfig (RmScan.new exRmConfig exFileOneRecord) = false) ∧
    (RmScan.new exRmConfig exFileNoRecord = ⟨-1, -1⟩ ∧
      RmScan.is_end exRmConfig (RmScan.new exRmConfig exFileNoRecord) = true) :=
  ⟨⟨by decide, ((RmScan_new_result exRmConfig exFileHeaderOnly).2.1 (by decide)).1,
      by decide, by decide, fun _ _ => rfl⟩,
    ⟨by decide, by decide, by decide⟩, ⟨by decide, by decide⟩⟩

/-! ### Pin count in the buffer pool of `src/Lab1` -/

/-- C32, what the code of `src/Lab1` does: `NewPage`, and `FetchPage` of a page that is not
in the page table, never assign `pin_count_`.  When the call returns frame `f`, the pin
count of `f` is what it was before the call. -/
theorem Lab1_pin_count_unchanged (c : Config) (R : Replacer ρ)
    (first_entry : (PageId → Option Nat) → Nat → Option PageId) (s : BufferPoolManager ρ)
    (page_id : PageId) :
    (∀ r f, NewPage_Lab1 c R first_entry s page_id = some r → r.1 = some f →
      (r.2.2.pages_ f).pin_count_ = (s.pages_ f).pin_count_) ∧
    (∀ r f, s.page_table_ page_id = none → FetchPage_Lab1 R s page_id = some r →
      r.1 = some f → (r.2.pages_ f).pin_count_ = (s.pages_ f).pin_count_) := by
  refine ⟨?_, ?_⟩
  · intro r f hr hf
    simp only [NewPage_Lab1] at hr
    split at hr
    · simp only [Option.some.injEq] at hr
      subst hr
      simp at hf
    · split at hr
      · simp only [Option.some.injEq] at hr
        subst hr
        simp only [Option.some.injEq] at hf
        subst hf
        simp [NewPage_Lab1_install, Page.ResetMemory]
      · split at hr
        · simp only [Option.some.injEq] at hr
          subst hr
          simp at hf
        · split at hr
          · simp at hr
          · simp only [Option.some.injEq] at hr
            subst hr
            simp only [Option.some.injEq] at hf
            subst hf
            simp [NewPage_Lab1_install, Page.ResetMemory]
  · intro r f hpt hr hf
    simp only [FetchPage_Lab1, hpt] at hr
    have hpages := FindVictimPage_pages R s
    split at hr
    · simp only [Option.some.injEq] at hr
      subst hr
      simp at hf
    · rename_i frame_id s1 hfind
      have hs1 : s1.pages_ = s.pages_ := by
        have := hpages
        rw [hfind] at this
        exact this
      split at hr
      · simp at hr
      · simp only [Option.some.injEq] at hr
        subst hr
        simp only [Option.some.injEq] at hf
        subst hf
        simp [hs1]

/-- C32 at the initial two-frame pool `exInit`, whose frames have pin count 0: `NewPage` of
file 0 returns frame 0 with page (0,0), and `FetchPage (0,0)` returns frame 0; in both
cases the pin count of the returned page is 0 when the call returns. -/
theorem Lab1_pin_count_unchanged_witness :
    (exInit.pages_ 0).pin_count_ = 0 ∧ exInit.page_table_ ⟨0, 0⟩ = none ∧
    (∃ r, NewPage_Lab1 exConfig LRUReplacer (fun _ _ => none) exInit ⟨0, -1⟩ = some r ∧
      r.1 = some 0 ∧ r.2.1 = ⟨0, 0⟩ ∧ (r.2.2.pages_ 0).pin_count_ = 0) ∧
    (∃ r, FetchPage_Lab1 LRUReplacer exInit ⟨0, 0⟩ = some r ∧
      r.1 = some 0 ∧ (r.2.pages_ 0).pin_count_ = 0) :=
  ⟨by decide, by decide,
    ⟨_, rfl, rfl, rfl,
      ((Lab1_pin_count_unchanged exConfig LRUReplacer (fun _ _ => none) exInit ⟨0, -1⟩).1
        _ 0 rfl rfl).trans (by decide)⟩,
    ⟨_, rfl, rfl,
      ((Lab1_pin_count_unchanged exConfig LRUReplacer (fun _ _ => none) exInit ⟨0, 0⟩).2
        _ 0 (by decide) rfl rfl).trans (by decide)⟩⟩

/-! ### Pins held by the record manager -/

/-- A write into the buffer of a frame changes no pin count and no dirty flag. -/
theorem pins_and_flags_set_data (s : BufferPoolManager ρ) (f : Nat) (data : List Nat) :
    (s.set_data f data).pins_and_flags = s.pins_and_flags := by
  funext g
  by_cases hg : g = f
  · subst hg
    simp [BufferPoolManager.set_data, BufferPoolManager.pins_and_flags]
  · simp [BufferPoolManager.set_data, BufferPoolManager.pins_and_flags,
      Function.update_noteq hg]

/-- `release_page_handle` changes no pin count and no dirty flag. -/
theorem pins_and_flags_release_page_handle (L : RmPageLayout) (h : RmFileHandle ρ) (f : Nat) :
    (h.release_page_handle L f).buffer_pool_manager_.pins_and_flags
      = h.buffer_pool_manager_.pins_and_flags := by
  simp only [RmFileHandle.release_page_handle]
  exact pins_and_flags_set_data _ _ _

/-- After `fetch_page_handle` of a page number below `num_pages`, the pool is the one that
`FetchPage` left. -/
theorem fetch_page_handle_pool (c : Config) (R : Replacer ρ) (h : RmFileHandle ρ)
    (page_no : Int) (hpage : page_no < h.file_hdr_.num_pages) :
    (h.fetch_page_handle c R page_no).2.buffer_pool_manager_
      = (FetchPage c R h.buffer_pool_manager_ ⟨h.fd_, page_no⟩).2 := by
  have hge : ¬ page_no ≥ h.file_hdr_.num_pages := by omega
  simp only [RmFileHandle.fetch_page_handle, if_neg hge]
  rcases FetchPage c R h.buffer_pool_manager_ ⟨h.fd_, page_no⟩ with ⟨_ | f, s1⟩ <;> rfl

/-- Pin count and dirty flag of a resident page after `FetchPage`: the pin count has grown
by one and the dirty flag is as before. -/
theorem pins_and_flags_FetchPage_resident (c : Config) (R : Replacer ρ)
    (s : BufferPoolManager ρ) (page_id : PageId) (f : Nat)
    (hres : s.page_table_ page_id = some f) :
    (FetchPage c R s page_id).2.pins_and_flags f
      = ((s.pages_ f).pin_count_ + 1, (s.pages_ f).is_dirty_) := by
  simp [FetchPage, hres, BufferPoolManager.pins_and_flags]

/-- `get_record` leaves the pin counts and dirty flags that `fetch_page_handle` left. -/
theorem get_record_pins (c : Config) (R : Replacer ρ) (L : RmPageLayout)
    (h : RmFileHandle ρ) (rid : Rid) :
    (h.get_record c R L rid).2.buffer_pool_manager_.pins_and_flags
      = (h.fetch_page_handle c R rid.page_no).2.buffer_pool_manager_.pins_and_flags := by
  simp only [RmFileHandle.get_record]
  rcases h.fetch_page_handle c R rid.page_no with ⟨_ | _ | _, h1⟩
  · simp only
    split <;> rfl
  · rfl
  · rfl

/-- `update_record` leaves the pin counts and dirty flags that `fetch_page_handle` left. -/
theorem update_record_pins (c : Config) (R : Replacer ρ) (L : RmPageLayout)
    (h : RmFileHandle ρ) (rid : Rid) (buf : List Nat) :
    (h.update_record c R L rid buf).2.buffer_pool_manager_.pins_and_flags
      = (h.fetch_page_handle c R rid.page_no).2.buffer_pool_manager_.pins_and_flags := by
  simp only [RmFileHandle.update_record]
  rcases h.fetch_page_handle c R rid.page_no with ⟨_ | _ | _, h1⟩
  · simp only
    split
    · rfl
    · exact pins_and_flags_set_data _ _ _
  · rfl
  · rfl

/-- `delete_record` leaves the pin counts and dirty flags that `fetch_page_handle` left. -/
theorem delete_record_pins (c : Config) (R : Replacer ρ) (L : RmPageLayout)
    (h : RmFileHandle ρ) (rid : Rid) :
    (h.delete_record c R L rid).2.buffer_pool_manager_.pins_and_flags
      = (h.fetch_page_handle c R rid.page_no).2.buffer_pool_manager_.pins_and_flags := by
  simp only [RmFileHandle.delete_record]
  rcases h.fetch_page_handle c R rid.page_no with ⟨_ | _ | _, h1⟩
  · simp only
    split
    · rfl
    · rw [pins_and_flags_set_data]
      split
      · rw [pins_and_flags_release_page_handle]
        exact pins_and_flags_set_data _ _ _
      · exact pins_and_flags_set_data _ _ _
  · rfl
  · rfl

/-- `insert_record` leaves the pin counts and dirty flags that `create_page_handle` left. -/
theorem insert_record_pins (c : Config) (cr : RmConfig) (R : Replacer ρ) (L : RmPageLayout)
    (h : RmFileHandle ρ) (buf : List Nat) :
    (h.insert_record c cr R L buf).2.buffer_pool_manager_.pins_and_flags
      = (h.create_page_handle c cr R L).2.buffer_pool_manager_.pins_and_flags := by
  simp only [RmFileHandle.insert_record]
  rcases h.create_page_handle c cr R L with ⟨_ | _ | _, h1⟩
  · simp only
    split <;> exact pins_and_flags_set_data _ _ _
  · rfl
  · rfl

/-- `create_new_page_handle` leaves the pin counts and dirty flags that `NewPage` left. -/
theorem create_new_page_handle_pins (c : Config) (cr : RmConfig) (R : Replacer ρ)
    (L : RmPageLayout) (h : RmFileHandle ρ) :
    (h.create_new_page_handle c cr R L).2.buffer_pool_manager_.pins_and_flags
      = (NewPage c R h.buffer_pool_manager_ ⟨h.fd_, c.INVALID_PAGE_ID⟩).2.2.pins_and_flags := by
  simp only [RmFileHandle.create_new_page_handle]
  rcases NewPage c R h.buffer_pool_manager_ ⟨h.fd_, c.INVALID_PAGE_ID⟩ with ⟨_ | f, pid, s1⟩
  · rfl
  · exact pins_and_flags_set_data _ _ _

/-- C31, what the code does: `get_record`, `update_record`, `delete_record` and
`insert_record (buf)` never call `UnpinPage`.  For a record position on a page below
`num_pages`, the pin counts and dirty flags after `get_record`, `update_record` and
`delete_record` are those that `FetchPage` of the page left, whether the call returns or
throws; so a page that was resident in frame `f` has one pin more than before the call, and
its dirty flag is as before, also after `update_record` and `delete_record` wrote to it.
After `insert_record` the pin counts and dirty flags are those that `FetchPage` of the first
free page left, or those that `NewPage` left when the file has no free page. -/
theorem rm_calls_keep_page_pinned (c : Config) (cr : RmConfig) (R : Replacer ρ)
    (L : RmPageLayout) (h : RmFileHandle ρ) (rid : Rid) (buf : List Nat) :
    (rid.page_no < h.file_hdr_.num_pages →
      (h.get_record c R L rid).2.buffer_pool_manager_.pins_and_flags
        = (FetchPage c R h.buffer_pool_manager_ ⟨h.fd_, rid.page_no⟩).2.pins_and_flags ∧
      (h.update_record c R L rid buf).2.buffer_pool_manager_.pins_and_flags
        = (FetchPage c R h.buffer_pool_manager_ ⟨h.fd_, rid.page_no⟩).2.pins_and_flags ∧
      (h.delete_record c R L rid).2.buffer_pool_manager_.pins_and_flags
        = (FetchPage c R h.buffer_pool_manager_ ⟨h.fd_, rid.page_no⟩).2.pins_and_flags) ∧
    (∀ f, rid.page_no < h.file_hdr_.num_pages →
      h.buffer_pool_manager_.page_table_ ⟨h.fd_, rid.page_no⟩ = some f →
      (h.get_record c R L rid).2.buffer_pool_manager_.pins_and_flags f
        = ((h.buffer_pool_manager_.pages_ f).pin_count_ + 1,
            (h.buffer_pool_manager_.pages_ f).is_dirty_) ∧
      (h.update_record c R L rid buf).2.buffer_pool_manager_.pins_and_flags f
        = ((h.buffer_pool_manager_.pages_ f).pin_count_ + 1,
            (h.buffer_pool_manager_.pages_ f).is_dirty_) ∧
      (h.delete_record c R L rid).2.buffer_pool_manager_.pins_and_flags f
        = ((h.buffer_pool_manager_.pages_ f).pin_count_ + 1,
            (h.buffer_pool_manager_.pages_ f).is_dirty_)) ∧
    (h.file_hdr_.first_free_page_no ≠ cr.RM_NO_PAGE →
      h.file_hdr_.first_free_page_no < h.file_hdr_.num_pages →
      (h.insert_record c cr R L buf).2.buffer_pool_manager_.pins_and_flags
        = (FetchPage c R h.buffer_pool_manager_
            ⟨h.fd_, h.file_hdr_.first_free_page_no⟩).2.pins_and_flags) ∧
    (h.file_hdr_.first_free_page_no = cr.RM_NO_PAGE →
      (h.insert_record c cr R L buf).2.buffer_pool_manager_.pins_and_flags
        = (NewPage c R h.buffer_pool_manager_ ⟨h.fd_, c.INVALID_PAGE_ID⟩).2.2.pins_and_flags) := by
  have hthree : rid.page_no < h.file_hdr_.num_pages →
      (h.get_record c R L rid).2.buffer_pool_manager_.pins_and_flags
        = (FetchPage c R h.buffer_pool_manager_ ⟨h.fd_, rid.page_no⟩).2.pins_and_flags ∧
      (h.update_record c R L rid buf).2.buffer_pool_manager_.pins_and_flags
        = (FetchPage c R h.buffer_pool_manager_ ⟨h.fd_, rid.page_no⟩).2.pins_and_flags ∧
      (h.delete_record c R L rid).2.buffer_pool_manager_.pins_and_flags
        = (FetchPage c R h.buffer_pool_manager_ ⟨h.fd_, rid.page_no⟩).2.pins_and_flags := by
    intro hpage
    have hf := fetch_page_handle_pool c R h rid.page_no hpage
    refine ⟨?_, ?_, ?_⟩
    · rw [get_record_pins, hf]
    · rw [update_record_pins, hf]
    · rw [delete_record_pins, hf]
  refine ⟨hthree, ?_, ?_, ?_⟩
  · intro f hpage hres
    obtain ⟨h1, h2, h3⟩ := hthree hpage
    have hfetch := pins_and_flags_FetchPage_resident c R h.buffer_pool_manager_
      ⟨h.fd_, rid.page_no⟩ f hres
    rw [h1, h2, h3]
    exact ⟨hfetch, hfetch, hfetch⟩
  · intro hfree hpage
    rw [insert_record_pins]
    simp only [RmFileHandle.create_page_handle, if_pos hfree]
    rw [fetch_page_handle_pool c R h _ hpage]
  · intro hfree
    have hnot : ¬ h.file_hdr_.first_free_page_no ≠ cr.RM_NO_PAGE := not_not.mpr hfree
    rw [insert_record_pins]
    simp only [RmFileHandle.create_page_handle, if_neg hnot]
    exact create_new_page_handle_pins c cr R L h

/-- C31 at `exRmFile`, where page (0,1) is in frame 0 with pin count 0 and clean, and the
first free page (0,2) is not resident.  `get_record (1,0)` returns the record 42 and leaves
frame 0 with pin count 1.  `update_record` and `delete_record` of `(1,0)` write to the page
and leave frame 0 with pin count 1 and clean.  `insert_record` puts the record into slot 0
of page 2, which it fetches into frame 1, and leaves frame 1 with pin count 1 and clean. -/
theorem rm_calls_keep_page_pinned_witness :
    ((1 : Int) < exRmFile.file_hdr_.num_pages ∧
      exRmFile.buffer_pool_manager_.page_table_ ⟨0, 1⟩ = some 0 ∧
      exRmFile.buffer_pool_manager_.pins_and_flags 0 = (0, false)) ∧
    ((exRmFile.get_record exConfig LRUReplacer exLayout ⟨1, 0⟩).1 = .returned [42] ∧
      (exRmFile.get_record exConfig LRUReplacer exLayout ⟨1, 0⟩).2.buffer_pool_manager_.pins_and_flags
        0 = (1, false)) ∧
    ((exRmFile.update_record exConfig LRUReplacer exLayout ⟨1, 0⟩ [43]).1 = .returned () ∧
      ((exRmFile.update_record exConfig LRUReplacer exLayout
        ⟨1, 0⟩ [43]).2.buffer_pool_manager_.pages_ 0).data_ = [0, 1, 1, 43] ∧
      (exRmFile.update_record exConfig LRUReplacer exLayout
        ⟨1, 0⟩ [43]).2.buffer_pool_manager_.pins_and_flags 0 = (1, false)) ∧
    ((exRmFile.delete_record exConfig LRUReplacer exLayout ⟨1, 0⟩).1 = .returned () ∧
      (exRmFile.delete_record exConfig LRUReplacer exLayout
        ⟨1, 0⟩).2.buffer_pool_manager_.pins_and_flags 0 = (1, false)) ∧
    ((exRmFile.insert_record exConfig exRmConfig LRUReplacer exLayout [44]).1
        = .returned ⟨2, 0⟩ ∧
      (exRmFile.insert_record exConfig exRmConfig LRUReplacer exLayout
        [44]).2.buffer_pool_manager_.pins_and_flags 1 = (1, false)) :=
  ⟨⟨by decide, by decide, by decide⟩,
    ⟨by decide,
      ((rm_calls_keep_page_pinned exConfig exRmConfig LRUReplacer exLayout exRmFile ⟨1, 0⟩
        [43]).2.1 0 (by decide) (by decide)).1.trans (by decide)⟩,
    ⟨by decide, by decide, by decide⟩, ⟨by decide, by decide⟩, ⟨by decide, by decide⟩⟩

end Rucbase
